import Mathlib

/-!
# Wayland event bridge of wlemacs: event queue, modifier translation, key classification

A shallow embedding of the parts of `src/wlcterm.c`, `src/wlcterm.h` and `src/wlcfns.c`
that the verified properties talk about: the event queue, the modifier translators, the
keyboard, pointer and touch handlers, the toplevel listeners, display names and the
list of open connections.

Conventions of the embedding:

* C objects reached through pointers live in total heaps `Nat → _` indexed by address;
  a nullable pointer is an `Option Nat`.
* Unsigned machine integers and the bit patterns of signed ones are natural numbers;
  the bitwise operators `&` and `|` of the source are `&&&` and `|||` on `Nat`.
* Library objects (libxkbcommon state, Wayland proxies) are records of what the code
  observes of them or asks of them.
-/

namespace Wlemacs

/-! ## Buffered input events (termhooks.h, as used by wlcterm.c) -/

/-- The values of `enum event_kind` that this backend produces or tests for. -/
inductive event_kind
  | NO_EVENT
  | ASCII_KEYSTROKE_EVENT
  | MULTIBYTE_CHAR_KEYSTROKE_EVENT
  | NON_ASCII_KEYSTROKE_EVENT
  | DELETE_WINDOW_EVENT
  | SELECTION_REQUEST_EVENT
  | SELECTION_CLEAR_EVENT
  deriving DecidableEq, Repr

/-- The Lisp values stored in `frame_or_window` and `arg`: `Qnil`, a frame object
(`FRAMEP`, `XFRAME` yields the address) or a window object (`WINDOWP`). -/
inductive Lisp_Object
  | Qnil
  | frame (f : Nat)
  | window (w : Nat)
  deriving DecidableEq, Repr

/-- The fields of `struct input_event` (the `ie` member of `union buffered_input_event`)
that the backend reads or writes. -/
structure input_event where
  kind : event_kind
  code : Nat
  modifiers : Nat
  frame_or_window : Lisp_Object
  timestamp : Nat
  arg : Lisp_Object
  deriving DecidableEq, Repr

/-- The initialiser `EVENT_INIT (ev)`: the event is zeroed and its `arg` is `Qnil`. -/
def EVENT_INIT : input_event :=
  { kind := event_kind.NO_EVENT, code := 0, modifiers := 0,
    frame_or_window := Lisp_Object.Qnil, timestamp := 0, arg := Lisp_Object.Qnil }

/-! ## The event queue (wlcterm.c, lines 61-137) -/

/-- The type `struct event_queue_t`: `q` is the allocated block (its length is the number of
elements allocated), `nr` the number of queued events, `cap` the recorded capacity. -/
structure event_queue_t where
  q : List input_event
  nr : Nat
  cap : Nat
  deriving DecidableEq, Repr

/-- The zero-initialised static `event_q`: no block, `nr = 0`, `cap = 0`. -/
def event_q_init : event_queue_t := { q := [], nr := 0, cap := 0 }

/-- Content of a freshly allocated, not yet written queue slot. -/
def uninit_event : input_event := EVENT_INIT

/-- The call `xmalloc (sizeof *q * n)`: a fresh block of `n` slots. -/
def xmalloc (n : Nat) : List input_event := List.replicate n uninit_event

/-- The call `xrealloc (q, sizeof *q * n)`: the block resized to `n` slots, old content kept. -/
def xrealloc (q : List input_event) (n : Nat) : List input_event :=
  q.take n ++ List.replicate (n - q.length) uninit_event

/-- The events waiting in the queue, front first: slots `0 .. nr-1` of the block. -/
def event_queue_t.queued (evq : event_queue_t) : List input_event := evq.q.take evq.nr

/-- Representation invariant of the queue: the block has `cap` slots, at most `cap`
are in use, and the capacity is not 1 (it is 0 or at least 4 in every reachable state). -/
def event_queue_t.wf (evq : event_queue_t) : Prop :=
  evq.q.length = evq.cap ∧ evq.nr ≤ evq.cap ∧ evq.cap ≠ 1

instance (evq : event_queue_t) : Decidable evq.wf := by
  unfold event_queue_t.wf; infer_instance

/-- Lines 77-89 of `evq_enqueue`: allocate on first use, grow by half when full,
store the event in slot `nr` and increment `nr`. -/
def evq_store (ev : input_event) (evq : event_queue_t) : event_queue_t :=
  let evq := if evq.cap = 0 then { evq with cap := 4, q := xmalloc 4 } else evq
  let evq :=
    if evq.nr ≥ evq.cap then
      { evq with cap := evq.cap + evq.cap / 2, q := xrealloc evq.q (evq.cap + evq.cap / 2) }
    else evq
  { evq with q := evq.q.set evq.nr ev, nr := evq.nr + 1 }

/-- The inner `for` loop of `evq_flush`: `for (i = 1; i < nr; i++) q[i - 1] = q[i];`. -/
def evq_shift (q : List input_event) (nr : Nat) : List input_event :=
  (List.range' 1 (nr - 1)).foldl (fun q i => q.set (i - 1) (q.getD i uninit_event)) q

/-- Outcome of a drain: the loop ran to its end and `evq_flush` returned `n`, or the
sink left by a non-local exit (`longjmp`), abandoning the loop. -/
inductive flush_result (σ : Type)
  | done (n : Nat) (evq : event_queue_t) (s : σ)
  | unwound (evq : event_queue_t) (s : σ)

/-- The `while (evq->nr > 0)` loop of `evq_flush`.  The sink stands for
`kbd_buffer_store_buffered_event`: handed an event and the host state it either returns
(`Except.ok`) or exits non-locally (`Except.error`), in both cases with a new host state.
`n` is the running count; the first argument bounds the number of iterations, and
`none` means the bound was too small. -/
def evq_flush_loop {σ : Type} (sink : input_event → σ → Except σ σ) :
    Nat → event_queue_t → σ → Nat → Option (flush_result σ)
  | 0, _, _, _ => none
  | fuel + 1, evq, s, n =>
    if evq.nr > 0 then
      let ev := evq.q.getD 0 uninit_event
      let evq := { evq with q := evq_shift evq.q evq.nr, nr := evq.nr - 1 }
      match sink ev s with
      | Except.ok s => evq_flush_loop sink fuel evq s (n + 1)
      | Except.error s => some (flush_result.unwound evq s)
    else some (flush_result.done n evq s)

/-- The function `evq_flush`: drain the queue into the sink, counting from 0.  Every iteration
decrements `nr`, so `nr + 1` iterations always suffice. -/
def evq_flush {σ : Type} (sink : input_event → σ → Except σ σ)
    (evq : event_queue_t) (s : σ) : Option (flush_result σ) :=
  evq_flush_loop sink (evq.nr + 1) evq s 0

/-! ## Connections, frames and the process-wide state (wlcterm.h) -/

/-- What the code asks of a `struct xkb_state *` (libxkbcommon): the keysym of a
keycode (`xkb_state_key_get_one_sym`) and the serialised modifier mask for a set of
state components (`xkb_state_serialize_mods`). -/
structure xkb_state where
  key_get_one_sym : Nat → Nat
  serialize_mods : Nat → Nat

/-- What the code asks of a compiled `struct xkb_keymap *` (libxkbcommon): the index
of a modifier by name (`xkb_map_mod_get_index`, which yields `XKB_MOD_INVALID` when the
layout has no modifier of that name) and the fresh state `xkb_state_new` builds. -/
structure xkb_keymap where
  mod_get_index : String → Nat
  state_new : xkb_state

/-- One element of the member `axes[2]` of `struct wlc_pointer_event`. -/
structure wlc_pointer_axis where
  valid : Bool
  value : Int
  discrete : Int
  deriving DecidableEq, Repr

/-- The type `struct wlc_pointer_event` (wlcterm.h, lines 62-76); `axes` is the
two-element array. -/
structure wlc_pointer_event where
  event_mask : Nat
  surface_x : Int
  surface_y : Int
  button : Nat
  state : Nat
  time : Nat
  serial : Nat
  axes : List wlc_pointer_axis
  axis_source : Nat
  deriving DecidableEq, Repr

/-- The type `struct wlc_touch_point` (wlcterm.h, lines 88-96). -/
structure wlc_touch_point where
  valid : Bool
  id : Int
  event_mask : Nat
  surface_x : Int
  surface_y : Int
  major : Int
  minor : Int
  orientation : Int
  deriving DecidableEq, Repr

/-- The type `struct wlc_touch_event` (wlcterm.h, lines 98-104); `points` is the
ten-element array. -/
structure wlc_touch_event where
  event_mask : Nat
  time : Nat
  serial : Nat
  points : List wlc_touch_point
  deriving DecidableEq, Repr

/-- The fields of `struct wlc_display_info` used by the event bridge.  `name` is the
display name held in `name_list_element`, `display` the `wl_display` handle, and
`terminal_kboard` the address of the keyboard of the connection's terminal
(`terminal->kboard`). -/
structure wlc_display_info where
  xkb_state : xkb_state
  control_mod_mask : Nat
  shift_mod_mask : Nat
  meta_mod_mask : Nat
  shift_lock_mask : Nat
  alt_mod_mask : Nat
  super_mod_mask : Nat
  hyper_mod_mask : Nat
  x_focus_frame : Option Nat
  last_user_time : Nat
  xkb_keymap : Option xkb_keymap
  pointer_event : wlc_pointer_event
  touch_event : wlc_touch_event
  name : List Char
  display : Option Nat
  terminal_kboard : Nat

/-- An all-zero `struct wlc_pointer_event`, as `memset (event, 0, sizeof *event)`
leaves it. -/
def wlc_pointer_event_zero : wlc_pointer_event :=
  { event_mask := 0, surface_x := 0, surface_y := 0, button := 0, state := 0, time := 0,
    serial := 0,
    axes := [{ valid := false, value := 0, discrete := 0 },
             { valid := false, value := 0, discrete := 0 }],
    axis_source := 0 }

/-- An all-zero `struct wlc_touch_point`. -/
def wlc_touch_point_zero : wlc_touch_point :=
  { valid := false, id := 0, event_mask := 0, surface_x := 0, surface_y := 0, major := 0,
    minor := 0, orientation := 0 }

/-- An all-zero `struct wlc_touch_event`: ten zeroed slots. -/
def wlc_touch_event_zero : wlc_touch_event :=
  { event_mask := 0, time := 0, serial := 0, points := List.replicate 10 wlc_touch_point_zero }

/-- The block `xzalloc (sizeof *dpyinfo)` returns for a new connection: every field
zero.  The keyboard state pointer is null until a keymap arrives; the record standing
for it answers 0 to every query. -/
def wlc_display_info_zero : wlc_display_info :=
  { xkb_state := { key_get_one_sym := fun _ => 0, serialize_mods := fun _ => 0 },
    control_mod_mask := 0, shift_mod_mask := 0, meta_mod_mask := 0, shift_lock_mask := 0,
    alt_mod_mask := 0, super_mod_mask := 0, hyper_mod_mask := 0, x_focus_frame := none,
    last_user_time := 0, xkb_keymap := none, pointer_event := wlc_pointer_event_zero,
    touch_event := wlc_touch_event_zero, name := [], display := none, terminal_kboard := 0 }

/-- A `struct wp_viewport *` proxy: the `set_destination` requests sent on it so far,
oldest first. -/
structure wp_viewport where
  set_destination : List (Int × Int)
  deriving DecidableEq, Repr

/-- The destination size currently requested for the viewport, if any. -/
def wp_viewport.destination (v : wp_viewport) : Option (Int × Int) := v.set_destination.getLast?

/-- The request `wp_viewport_set_destination (viewport, width, height)`. -/
def wp_viewport_set_destination (v : wp_viewport) (width height : Int) : wp_viewport :=
  { v with set_destination := v.set_destination ++ [(width, height)] }

/-- The fields of `struct wlc_output` used here; `display_info` is the address of the
connection the frame is on. -/
structure wlc_output where
  enable_compositor : Bool
  viewport : wp_viewport
  wait_for_configure : Bool
  display_info : Nat
  deriving DecidableEq, Repr

/-- The block `xzalloc (sizeof *FRAME_OUTPUT_DATA (f))` gives a new frame (wlcfns.c,
line 727): every field zero, so `wait_for_configure` is false; no request has been sent
on the viewport. -/
def wlc_output_zero : wlc_output :=
  { enable_compositor := false, viewport := { set_destination := [] },
    wait_for_configure := false, display_info := 0 }

/-- The fields of the host's `struct frame` used here: `FRAME_PIXEL_WIDTH`,
`FRAME_PIXEL_HEIGHT` and `FRAME_OUTPUT_DATA`. -/
structure frame where
  pixel_width : Int
  pixel_height : Int
  output_data : wlc_output
  deriving DecidableEq, Repr

/-- Store `v` at address `a` of a heap. -/
def heap_set {α : Type} (h : Nat → α) (a : Nat) (v : α) : Nat → α :=
  fun x => if x = a then v else h x

/-- The process-wide state the bridge works on: the static `event_q`, the connection
and frame objects by address, the frame of each window (`WINDOW_XFRAME`), the
number of `raise (SIGIO)` calls made, the chain `x_display_list` (the addresses of the
open connections, linked through `next`, head first), the `reference_count` of each
keyboard object, and the host's `current_kboard` and `initial_kboard`. -/
structure wlc_state where
  event_q : event_queue_t
  displays : Nat → wlc_display_info
  frames : Nat → frame
  window_frame : Nat → Nat
  sigio : Nat
  x_display_list : List Nat
  kboard_reference_count : Nat → Nat
  current_kboard : Nat
  initial_kboard : Nat

/-- The function `evq_enqueue` (wlcterm.c, lines 70-112). -/
def evq_enqueue (ev : input_event) (st : wlc_state) : wlc_state :=
  let st := { st with event_q := evq_store ev st.event_q }
  let st :=
    if ev.kind ≠ event_kind.SELECTION_REQUEST_EVENT
        ∧ ev.kind ≠ event_kind.SELECTION_CLEAR_EVENT then
      let frame : Option Nat := none
      let frame :=
        match ev.frame_or_window with
        | Lisp_Object.window w => some (st.window_frame w)
        | _ => frame
      let frame :=
        match ev.frame_or_window with
        | Lisp_Object.frame f => some f
        | _ => frame
      match frame with
      | some f =>
        let dpyinfo := (st.frames f).output_data.display_info
        let d := st.displays dpyinfo
        if d.last_user_time < ev.timestamp then
          let d := { d with last_user_time := ev.timestamp }
          { st with displays := heap_set st.displays dpyinfo d }
        else st
      | none => st
    else st
  { st with sigio := st.sigio + 1 }

/-! ## Modifier translation (wlcterm.c, lines 697-753) -/

/-- The constant `INT_MAX` of a 32-bit `int`. -/
def INT_MAX : Nat := 2147483647

/-- The host side of the translators: the six modifier constants of termhooks.h
(`shift_modifier` ... `hyper_modifier`), the integer `modifier-value` property of the
symbols in `x-alt-keysym`, `x-meta-keysym`, `x-hyper-keysym` and `x-super-keysym`
(`none` when `INTEGERP` fails, which is the case when the variable is unset), and
`extra_keyboard_modifiers`.  `EMACS_INT` values are given by their bit patterns. -/
structure lisp_env where
  shift_modifier : Nat
  ctrl_modifier : Nat
  meta_modifier : Nat
  alt_modifier : Nat
  super_modifier : Nat
  hyper_modifier : Nat
  x_alt_keysym : Option Nat
  x_meta_keysym : Option Nat
  x_hyper_keysym : Option Nat
  x_super_keysym : Option Nat
  extra_keyboard_modifiers : Nat
  deriving DecidableEq, Repr

/-- The host environment of stock Emacs with no override preference set:
`alt_modifier = CHAR_ALT = 0x0400000`, `super_modifier = 0x0800000`,
`hyper_modifier = 0x1000000`, `shift_modifier = 0x2000000`, `ctrl_modifier = 0x4000000`,
`meta_modifier = 0x8000000`. -/
def emacs_env : lisp_env :=
  { shift_modifier := 0x2000000, ctrl_modifier := 0x4000000, meta_modifier := 0x8000000,
    alt_modifier := 0x0400000, super_modifier := 0x0800000, hyper_modifier := 0x1000000,
    x_alt_keysym := none, x_meta_keysym := none, x_hyper_keysym := none,
    x_super_keysym := none, extra_keyboard_modifiers := 0 }

/-- The pattern `tem = Fget (Vx_..._keysym, Qmodifier_value); if (INTEGERP (tem))
mod = XFIXNUM (tem);` of `emacs_to_xkb_modifiers`: the override if there is one, else the
default `dflt` the variable was initialised with. -/
def modifier_value (override : Option Nat) (dflt : Nat) : Nat :=
  match override with
  | some v => v
  | none => dflt

/-- The same pattern in `xkb_to_emacs_modifiers`, where the override is masked:
`mod = XFIXNUM (tem) & INT_MAX`. -/
def modifier_value_int (override : Option Nat) (dflt : Nat) : Nat :=
  match override with
  | some v => v &&& INT_MAX
  | none => dflt

/-- The function `xkb_to_emacs_modifiers` (lines 700-724): protocol modifier state to host modifiers. -/
def xkb_to_emacs_modifiers (env : lisp_env) (dpyinfo : wlc_display_info) (state : Nat) : Nat :=
  let mod_meta := env.meta_modifier
  let mod_alt := env.alt_modifier
  let mod_hyper := env.hyper_modifier
  let mod_super := env.super_modifier
  let mod_alt := modifier_value_int env.x_alt_keysym mod_alt
  let mod_meta := modifier_value_int env.x_meta_keysym mod_meta
  let mod_hyper := modifier_value_int env.x_hyper_keysym mod_hyper
  let mod_super := modifier_value_int env.x_super_keysym mod_super
  (if state &&& (dpyinfo.shift_mod_mask ||| dpyinfo.shift_lock_mask) ≠ 0
      then env.shift_modifier else 0)
    ||| (if state &&& dpyinfo.control_mod_mask ≠ 0 then env.ctrl_modifier else 0)
    ||| (if state &&& dpyinfo.meta_mod_mask ≠ 0 then mod_meta else 0)
    ||| (if state &&& dpyinfo.alt_mod_mask ≠ 0 then mod_alt else 0)
    ||| (if state &&& dpyinfo.super_mod_mask ≠ 0 then mod_super else 0)
    ||| (if state &&& dpyinfo.hyper_mod_mask ≠ 0 then mod_hyper else 0)

/-- The function `emacs_to_xkb_modifiers` (lines 727-753): host modifiers to protocol modifier state. -/
def emacs_to_xkb_modifiers (env : lisp_env) (dpyinfo : wlc_display_info) (state : Nat) : Nat :=
  let mod_meta := env.meta_modifier
  let mod_alt := env.alt_modifier
  let mod_hyper := env.hyper_modifier
  let mod_super := env.super_modifier
  let mod_alt := modifier_value env.x_alt_keysym mod_alt
  let mod_meta := modifier_value env.x_meta_keysym mod_meta
  let mod_hyper := modifier_value env.x_hyper_keysym mod_hyper
  let mod_super := modifier_value env.x_super_keysym mod_super
  (if state &&& mod_alt ≠ 0 then dpyinfo.alt_mod_mask else 0)
    ||| (if state &&& mod_super ≠ 0 then dpyinfo.super_mod_mask else 0)
    ||| (if state &&& mod_hyper ≠ 0 then dpyinfo.hyper_mod_mask else 0)
    ||| (if state &&& env.shift_modifier ≠ 0 then dpyinfo.shift_mod_mask else 0)
    ||| (if state &&& env.ctrl_modifier ≠ 0 then dpyinfo.control_mod_mask else 0)
    ||| (if state &&& mod_meta ≠ 0 then dpyinfo.meta_mod_mask else 0)

/-! ### Conditions under which the two translators undo each other -/

/-- The value `v` if `b` holds, else no bit. -/
def pick (b : Bool) (v : Nat) : Nat := if b then v else 0

/-- The host values of the six translated modifiers with the override preferences
applied, in the order alt, super, hyper, shift, ctrl, meta. -/
def lisp_env.host_mods (env : lisp_env) : List Nat :=
  [modifier_value env.x_alt_keysym env.alt_modifier,
   modifier_value env.x_super_keysym env.super_modifier,
   modifier_value env.x_hyper_keysym env.hyper_modifier,
   env.shift_modifier, env.ctrl_modifier,
   modifier_value env.x_meta_keysym env.meta_modifier]

/-- The six host modifier values in effect are nonzero, no two of them share a bit, and
each override that is set fits in a non-negative `int`. -/
def lisp_env.mods_ok (env : lisp_env) : Prop :=
  (∀ v ∈ env.host_mods, v ≠ 0)
    ∧ env.host_mods.Pairwise (fun a b => a &&& b = 0)
    ∧ (∀ o ∈ [env.x_alt_keysym, env.x_super_keysym, env.x_hyper_keysym, env.x_meta_keysym],
        o.getD 0 ≤ INT_MAX)

instance (env : lisp_env) : Decidable env.mods_ok := by
  unfold lisp_env.mods_ok; infer_instance

/-- The host pattern made of the chosen ones among the six modifier values in effect. -/
def lisp_env.host_pattern (env : lisp_env)
    (b_alt b_super b_hyper b_shift b_ctrl b_meta : Bool) : Nat :=
  pick b_alt (modifier_value env.x_alt_keysym env.alt_modifier)
    ||| pick b_super (modifier_value env.x_super_keysym env.super_modifier)
    ||| pick b_hyper (modifier_value env.x_hyper_keysym env.hyper_modifier)
    ||| pick b_shift env.shift_modifier ||| pick b_ctrl env.ctrl_modifier
    ||| pick b_meta (modifier_value env.x_meta_keysym env.meta_modifier)

/-- The protocol masks of the six translated modifiers, in the order alt, super, hyper,
shift, control, meta. -/
def wlc_display_info.mod_masks (d : wlc_display_info) : List Nat :=
  [d.alt_mod_mask, d.super_mod_mask, d.hyper_mod_mask, d.shift_mod_mask,
   d.control_mod_mask, d.meta_mod_mask]

/-- The six masks are nonzero, no two of them share a bit, and the shift-lock mask
shares no bit with the alt, super, hyper, control and meta masks. -/
def wlc_display_info.masks_ok (d : wlc_display_info) : Prop :=
  (∀ v ∈ d.mod_masks, v ≠ 0)
    ∧ d.mod_masks.Pairwise (fun a b => a &&& b = 0)
    ∧ (∀ v ∈ [d.alt_mod_mask, d.super_mod_mask, d.hyper_mod_mask, d.control_mod_mask,
        d.meta_mod_mask], v &&& d.shift_lock_mask = 0)

instance (d : wlc_display_info) : Decidable d.masks_ok := by
  unfold wlc_display_info.masks_ok; infer_instance

/-- The protocol modifier state made of the chosen ones among the six masks. -/
def wlc_display_info.xkb_pattern (d : wlc_display_info)
    (b_alt b_super b_hyper b_shift b_ctrl b_meta : Bool) : Nat :=
  pick b_alt d.alt_mod_mask ||| pick b_super d.super_mod_mask
    ||| pick b_hyper d.hyper_mod_mask ||| pick b_shift d.shift_mod_mask
    ||| pick b_ctrl d.control_mod_mask ||| pick b_meta d.meta_mod_mask

/-- Every mask of the connection fits its type `xkb_mod_mask_t` (`uint32_t`). -/
def wlc_display_info.masks_fit (d : wlc_display_info) : Prop :=
  ∀ v ∈ d.shift_lock_mask :: d.mod_masks, v < 2 ^ 32

instance (d : wlc_display_info) : Decidable d.masks_fit := by
  unfold wlc_display_info.masks_fit; infer_instance

/-! ## Key events (wlcterm.c, lines 838-950) -/

/-- The value `WL_KEYBOARD_KEY_STATE_RELEASED` of the Wayland protocol. -/
def WL_KEYBOARD_KEY_STATE_RELEASED : Nat := 0

/-- The value `WL_KEYBOARD_KEY_STATE_PRESSED` of the Wayland protocol. -/
def WL_KEYBOARD_KEY_STATE_PRESSED : Nat := 1

/-- The flag `XKB_STATE_DEPRESSED` (libxkbcommon, `XKB_STATE_MODS_DEPRESSED`). -/
def XKB_STATE_DEPRESSED : Nat := 1

/-- The flag `XKB_STATE_LATCHED` (libxkbcommon, `XKB_STATE_MODS_LATCHED`). -/
def XKB_STATE_LATCHED : Nat := 2

/-! Keysym values of xkbcommon-keysyms.h. -/

def XKB_KEY_BackSpace : Nat := 0xff08
def XKB_KEY_Escape : Nat := 0xff1b
def XKB_KEY_Delete : Nat := 0xffff
def XKB_KEY_ISO_Left_Tab : Nat := 0xfe20
def XKB_KEY_ISO_Enter : Nat := 0xfe34
def XKB_KEY_dead_grave : Nat := 0xfe50
def XKB_KEY_dead_acute : Nat := 0xfe51
def XKB_KEY_dead_circumflex : Nat := 0xfe52
def XKB_KEY_dead_tilde : Nat := 0xfe53
def XKB_KEY_dead_macron : Nat := 0xfe54
def XKB_KEY_dead_breve : Nat := 0xfe55
def XKB_KEY_dead_abovedot : Nat := 0xfe56
def XKB_KEY_dead_diaeresis : Nat := 0xfe57
def XKB_KEY_dead_doubleacute : Nat := 0xfe59
def XKB_KEY_dead_caron : Nat := 0xfe5a
def XKB_KEY_dead_cedilla : Nat := 0xfe5b
def XKB_KEY_dead_ogonek : Nat := 0xfe5c

/-- The condition of the `if` at lines 892-928 ("Random non-modifier sorts of
keysyms"), with the `#if 0` parts left out as the preprocessor does. -/
def random_non_modifier_keysym (keysym orig_keysym : Nat) : Bool :=
  decide ((keysym ≥ XKB_KEY_BackSpace ∧ keysym ≤ XKB_KEY_Escape)
    ∨ keysym = XKB_KEY_Delete
    ∨ (keysym ≥ XKB_KEY_ISO_Left_Tab ∧ keysym ≤ XKB_KEY_ISO_Enter)
    ∨ (0xff50 ≤ keysym ∧ keysym < 0xff60)
    ∨ orig_keysym = XKB_KEY_dead_circumflex
    ∨ orig_keysym = XKB_KEY_dead_grave
    ∨ orig_keysym = XKB_KEY_dead_tilde
    ∨ orig_keysym = XKB_KEY_dead_diaeresis
    ∨ orig_keysym = XKB_KEY_dead_macron
    ∨ orig_keysym = XKB_KEY_dead_acute
    ∨ orig_keysym = XKB_KEY_dead_cedilla
    ∨ orig_keysym = XKB_KEY_dead_breve
    ∨ orig_keysym = XKB_KEY_dead_ogonek
    ∨ orig_keysym = XKB_KEY_dead_caron
    ∨ orig_keysym = XKB_KEY_dead_doubleacute
    ∨ orig_keysym = XKB_KEY_dead_abovedot
    ∨ (0xff80 ≤ keysym ∧ keysym < 0xffbe)
    ∨ (0xffbe ≤ keysym ∧ keysym < 0xffe1)
    ∨ orig_keysym &&& (1 <<< 28) ≠ 0)

/-- Lines 851-935 of `wl_keyboard_key`: the event built for a key press once a focus
frame is known.  `orig_keysym` is declared at line 855 and read at lines 900-915 but
never assigned, so its value is indeterminate; it is a parameter here. -/
def key_event (env : lisp_env) (orig_keysym : Nat) (dpyinfo : wlc_display_info)
    (focus time keycode : Nat) : input_event :=
  let inev := { EVENT_INIT with kind := event_kind.NO_EVENT, arg := Lisp_Object.Qnil }
  let keysym := dpyinfo.xkb_state.key_get_one_sym keycode
  let modifiers := dpyinfo.xkb_state.serialize_mods (XKB_STATE_DEPRESSED ||| XKB_STATE_LATCHED)
  let modifiers :=
    (modifiers ||| emacs_to_xkb_modifiers env dpyinfo env.extra_keyboard_modifiers) % 2 ^ 32
  let inev :=
    { inev with
      frame_or_window := Lisp_Object.frame focus
      modifiers := xkb_to_emacs_modifiers env dpyinfo modifiers
      timestamp := time }
  if keysym ≥ 32 ∧ keysym < 128 then
    { inev with kind := event_kind.ASCII_KEYSTROKE_EVENT, code := keysym }
  else if keysym ≥ 0x01000000 ∧ keysym ≤ 0x0110FFFF then
    let inev :=
      if keysym < 0x01000080 then { inev with kind := event_kind.ASCII_KEYSTROKE_EVENT }
      else { inev with kind := event_kind.MULTIBYTE_CHAR_KEYSTROKE_EVENT }
    { inev with code := keysym &&& 0xFFFFFF }
  else if random_non_modifier_keysym keysym orig_keysym then
    { inev with kind := event_kind.NON_ASCII_KEYSTROKE_EVENT, code := keysym }
  else inev

/-- The handler `wl_keyboard_key` (lines 838-950); `data` is the address of the connection, and
`orig_keysym` the indeterminate value of the local of that name (see `key_event`). -/
def wl_keyboard_key (env : lisp_env) (orig_keysym : Nat) (data : Nat)
    (serial time key state : Nat) (st : wlc_state) : wlc_state :=
  let dpyinfo := st.displays data
  let keycode := (key + 8) % 2 ^ 32
  let _ := serial
  if state = WL_KEYBOARD_KEY_STATE_RELEASED then st
  else
    match dpyinfo.x_focus_frame with
    | none => st
    | some focus =>
      let inev := key_event env orig_keysym dpyinfo focus time keycode
      if inev.kind ≠ event_kind.NO_EVENT then evq_enqueue inev st else st

/-! ## Toplevel configure (wlcfns.c, lines 453-481) -/

/-- The handler `xdg_toplevel_configure`; `data` is the address of the frame.  The messages
written to `stderr` are not part of the state. -/
def xdg_toplevel_configure (data : Nat) (width height : Int) (st : wlc_state) : wlc_state :=
  let f := st.frames data
  if width = 0 ∨ height = 0 then st
  else
    let f := { f with pixel_width := width, pixel_height := height }
    let f :=
      if !f.output_data.wait_for_configure then
        let out := f.output_data
        let out :=
          { out with viewport :=
              wp_viewport_set_destination out.viewport f.pixel_width f.pixel_height }
        let out :=
          if out.enable_compositor then
            { out with viewport :=
                wp_viewport_set_destination out.viewport f.pixel_width f.pixel_height }
          else out
        { f with output_data := out }
      else f
    { st with frames := heap_set st.frames data f }

/-! ## Toplevel close (wlcterm.c, lines 139-157, and wlcfns.c, lines 483-489) -/

/-- The function `wlc_handle_xdg_toplevel_close`; `f` is the frame pointer, `none` when
it is null.  The result is the value returned and the new state. -/
def wlc_handle_xdg_toplevel_close (f : Option Nat) (st : wlc_state) : Bool × wlc_state :=
  let inev := { EVENT_INIT with kind := event_kind.NO_EVENT, arg := Lisp_Object.Qnil }
  let inev :=
    match f with
    | some f =>
      { inev with kind := event_kind.DELETE_WINDOW_EVENT, frame_or_window := Lisp_Object.frame f }
    | none => inev
  let st := if inev.kind ≠ event_kind.NO_EVENT then evq_enqueue inev st else st
  (true, st)

/-- The listener `xdg_toplevel_close`; `data` is the frame the listener was registered
with.  The message written to `stderr` is not part of the state. -/
def xdg_toplevel_close (data : Option Nat) (st : wlc_state) : wlc_state :=
  (wlc_handle_xdg_toplevel_close data st).2

/-! ## Pointer events (wlcterm.h, lines 50-76, and wlcterm.c, lines 521-695)

Each handler is given as its effect on the connection that `data` points to. -/

def POINTER_EVENT_ENTER : Nat := 1 <<< 0
def POINTER_EVENT_LEAVE : Nat := 1 <<< 1
def POINTER_EVENT_MOTION : Nat := 1 <<< 2
def POINTER_EVENT_BUTTON : Nat := 1 <<< 3
def POINTER_EVENT_AXIS : Nat := 1 <<< 4
def POINTER_EVENT_AXIS_SOURCE : Nat := 1 <<< 5
def POINTER_EVENT_AXIS_STOP : Nat := 1 <<< 6
def POINTER_EVENT_AXIS_DISCRETE : Nat := 1 <<< 7

/-- The assignment `a[i] = f (a[i])` on an array held as a list; an index outside the
array (which the callers never pass for a well-formed event) leaves it as it is. -/
def array_update {α : Type} (a : List α) (i : Nat) (f : α → α) : List α :=
  match a[i]? with
  | some x => a.set i (f x)
  | none => a

/-- The handler `wl_pointer_enter`; `f` is the user data of the surface entered. -/
def wl_pointer_enter (dpyinfo : wlc_display_info) (serial : Nat) (f : Option Nat)
    (surface_x surface_y : Int) : wlc_display_info :=
  let dpyinfo := { dpyinfo with x_focus_frame := f }
  let ev := dpyinfo.pointer_event
  let ev := { ev with event_mask := ev.event_mask ||| POINTER_EVENT_ENTER }
  let ev := { ev with serial := serial }
  let ev := { ev with surface_x := surface_x, surface_y := surface_y }
  { dpyinfo with pointer_event := ev }

/-- The handler `wl_pointer_leave`. -/
def wl_pointer_leave (dpyinfo : wlc_display_info) (serial : Nat) : wlc_display_info :=
  let ev := dpyinfo.pointer_event
  let ev := { ev with serial := serial }
  let ev := { ev with event_mask := ev.event_mask ||| POINTER_EVENT_LEAVE }
  { dpyinfo with pointer_event := ev }

/-- The handler `wl_pointer_motion`. -/
def wl_pointer_motion (dpyinfo : wlc_display_info) (time : Nat)
    (surface_x surface_y : Int) : wlc_display_info :=
  let ev := dpyinfo.pointer_event
  let ev := { ev with event_mask := ev.event_mask ||| POINTER_EVENT_MOTION }
  let ev := { ev with time := time }
  let ev := { ev with surface_x := surface_x, surface_y := surface_y }
  { dpyinfo with pointer_event := ev }

/-- The handler `wl_pointer_button`. -/
def wl_pointer_button (dpyinfo : wlc_display_info) (serial time button state : Nat) :
    wlc_display_info :=
  let ev := dpyinfo.pointer_event
  let ev := { ev with event_mask := ev.event_mask ||| POINTER_EVENT_BUTTON }
  let ev := { ev with time := time }
  let ev := { ev with serial := serial }
  let ev := { ev with button := button, state := state }
  { dpyinfo with pointer_event := ev }

/-- The handler `wl_pointer_axis`. -/
def wl_pointer_axis (dpyinfo : wlc_display_info) (time axis : Nat) (value : Int) :
    wlc_display_info :=
  let ev := dpyinfo.pointer_event
  let ev := { ev with event_mask := ev.event_mask ||| POINTER_EVENT_AXIS }
  let ev := { ev with time := time }
  let ev := { ev with axes := array_update ev.axes axis (fun a => { a with valid := true }) }
  let ev := { ev with axes := array_update ev.axes axis (fun a => { a with value := value }) }
  { dpyinfo with pointer_event := ev }

/-- The array reads of the loop at lines 634-651 of `wl_pointer_frame`.  When one of the
four axis bits is set, then for each of the two axes that is valid and with the bit
`POINTER_EVENT_AXIS_SOURCE` set, the name `axis_source[event->axis_source]` is read
from the local array of four names.  The result tells whether every such read lies
within the array. -/
def wl_pointer_frame_reads (event : wlc_pointer_event) : Bool :=
  let axis_events := POINTER_EVENT_AXIS ||| POINTER_EVENT_AXIS_SOURCE
    ||| POINTER_EVENT_AXIS_STOP ||| POINTER_EVENT_AXIS_DISCRETE
  if event.event_mask &&& axis_events ≠ 0 then
    (List.range 2).all (fun i =>
      match event.axes[i]? with
      | some a =>
        if !a.valid then true
        else if event.event_mask &&& POINTER_EVENT_AXIS_SOURCE ≠ 0 then
          decide (event.axis_source < 4)
        else true
      | none => true)
  else true

/-- The handler `wl_pointer_frame`: the accumulated event is written to `stderr` (the
text is not part of the state) and then cleared with `memset`.  The result is `none`
when the handler reads `axis_source[event->axis_source]` outside the four-element
array on its way, which is undefined. -/
def wl_pointer_frame (dpyinfo : wlc_display_info) : Option wlc_display_info :=
  if wl_pointer_frame_reads dpyinfo.pointer_event then
    some { dpyinfo with pointer_event := wlc_pointer_event_zero }
  else none

/-- The handler `wl_pointer_axis_source`. -/
def wl_pointer_axis_source (dpyinfo : wlc_display_info) (axis_source : Nat) :
    wlc_display_info :=
  let ev := dpyinfo.pointer_event
  let ev := { ev with event_mask := ev.event_mask ||| POINTER_EVENT_AXIS_SOURCE }
  let ev := { ev with axis_source := axis_source }
  { dpyinfo with pointer_event := ev }

/-- The handler `wl_pointer_axis_stop`. -/
def wl_pointer_axis_stop (dpyinfo : wlc_display_info) (time axis : Nat) : wlc_display_info :=
  let ev := dpyinfo.pointer_event
  let ev := { ev with time := time }
  let ev := { ev with event_mask := ev.event_mask ||| POINTER_EVENT_AXIS_STOP }
  let ev := { ev with axes := array_update ev.axes axis (fun a => { a with valid := true }) }
  { dpyinfo with pointer_event := ev }

/-- The handler `wl_pointer_axis_discrete` (it sets the bit `POINTER_EVENT_AXIS_STOP`,
as the source does at line 680). -/
def wl_pointer_axis_discrete (dpyinfo : wlc_display_info) (axis : Nat) (discrete : Int) :
    wlc_display_info :=
  let ev := dpyinfo.pointer_event
  let ev := { ev with event_mask := ev.event_mask ||| POINTER_EVENT_AXIS_STOP }
  let ev := { ev with axes := array_update ev.axes axis (fun a => { a with valid := true }) }
  let ev :=
    { ev with axes := array_update ev.axes axis (fun a => { a with discrete := discrete }) }
  { dpyinfo with pointer_event := ev }

/-- A pointer sub-event as delivered by the compositor between two frame terminators,
with its arguments. -/
inductive pointer_sub_event
  | enter (serial : Nat) (f : Option Nat) (surface_x surface_y : Int)
  | leave (serial : Nat)
  | motion (time : Nat) (surface_x surface_y : Int)
  | button (serial time button state : Nat)
  | axis (time axis : Nat) (value : Int)
  | axis_source (axis_source : Nat)
  | axis_stop (time axis : Nat)
  | axis_discrete (axis : Nat) (discrete : Int)
  deriving DecidableEq, Repr

/-- Dispatch of a sub-event to its handler, as `wl_pointer_listener` does. -/
def pointer_sub_event.dispatch (dpyinfo : wlc_display_info) :
    pointer_sub_event → wlc_display_info
  | pointer_sub_event.enter serial f x y => wl_pointer_enter dpyinfo serial f x y
  | pointer_sub_event.leave serial => wl_pointer_leave dpyinfo serial
  | pointer_sub_event.motion time x y => wl_pointer_motion dpyinfo time x y
  | pointer_sub_event.button serial time b state =>
    wl_pointer_button dpyinfo serial time b state
  | pointer_sub_event.axis time a value => wl_pointer_axis dpyinfo time a value
  | pointer_sub_event.axis_source src => wl_pointer_axis_source dpyinfo src
  | pointer_sub_event.axis_stop time a => wl_pointer_axis_stop dpyinfo time a
  | pointer_sub_event.axis_discrete a discrete =>
    wl_pointer_axis_discrete dpyinfo a discrete

/-- The axis index of a sub-event is one of the two the protocol defines
(`WL_POINTER_AXIS_VERTICAL_SCROLL = 0`, `WL_POINTER_AXIS_HORIZONTAL_SCROLL = 1`). -/
def pointer_sub_event.axis_ok : pointer_sub_event → Prop
  | pointer_sub_event.axis _ a _ => a < 2
  | pointer_sub_event.axis_stop _ a => a < 2
  | pointer_sub_event.axis_discrete a _ => a < 2
  | _ => True

/-- The axis source of a sub-event is one of the four the protocol defines
(`WL_POINTER_AXIS_SOURCE_WHEEL = 0`, `..._FINGER = 1`, `..._CONTINUOUS = 2`,
`..._WHEEL_TILT = 3`). -/
def pointer_sub_event.axis_source_ok : pointer_sub_event → Prop
  | pointer_sub_event.axis_source src => src < 4
  | _ => True

/-! ## Touch events (wlcterm.h, lines 78-104, and wlcterm.c, lines 980-1137) -/

def TOUCH_EVENT_DOWN : Nat := 1 <<< 0
def TOUCH_EVENT_UP : Nat := 1 <<< 1
def TOUCH_EVENT_MOTION : Nat := 1 <<< 2
def TOUCH_EVENT_CANCEL : Nat := 1 <<< 3
def TOUCH_EVENT_SHAPE : Nat := 1 <<< 4
def TOUCH_EVENT_ORIENTATION : Nat := 1 <<< 5

/-- The `for` loop of `get_touch_point` over the slots from index `i` on: the index of
the first slot whose `id` equals `id` if the loop returns from inside, and the value of
`invalid` when the loop ends (`-1`, or the index of the first slot that is not valid). -/
def get_touch_point_scan (id : Int) : List wlc_touch_point → Nat → Int → Option Nat × Int
  | [], _, invalid => (none, invalid)
  | p :: ps, i, invalid =>
    if p.id = id then (some i, invalid)
    else
      let invalid := if invalid = -1 ∧ p.valid = false then (i : Int) else invalid
      get_touch_point_scan id ps (i + 1) invalid

/-- The function `get_touch_point` (lines 980-1000): the index of the slot returned
(`none` for `NULL`) and the touch accumulator afterwards. -/
def get_touch_point (touch : wlc_touch_event) (id : Int) : Option Nat × wlc_touch_event :=
  match get_touch_point_scan id touch.points 0 (-1) with
  | (some i, _) => (some i, touch)
  | (none, invalid) =>
    if invalid = -1 then (none, touch)
    else
      let touch :=
        { touch with
          points := array_update touch.points invalid.toNat (fun p => { p with valid := true }) }
      let touch :=
        { touch with
          points := array_update touch.points invalid.toNat (fun p => { p with id := id }) }
      (some invalid.toNat, touch)

/-- The value a `wl_fixed_t` field receives when it is assigned `wl_fixed_to_double (x)`
(`x / 256.0`, converted back to the 32-bit integer type by truncation). -/
def wl_fixed_to_double_stored (x : Int) : Int := Int.tdiv x 256

/-- The handler `wl_touch_down` (it sets the bit `TOUCH_EVENT_UP`, as the source does
at line 1012). -/
def wl_touch_down (dpyinfo : wlc_display_info) (serial time : Nat) (id : Int) (x y : Int) :
    wlc_display_info :=
  match get_touch_point dpyinfo.touch_event id with
  | (none, touch) => { dpyinfo with touch_event := touch }
  | (some i, touch) =>
    let points := array_update touch.points i
      (fun p => { p with event_mask := p.event_mask ||| TOUCH_EVENT_UP })
    let points := array_update points i
      (fun p => { p with surface_x := wl_fixed_to_double_stored x,
                         surface_y := wl_fixed_to_double_stored y })
    let touch := { touch with points := points }
    let touch := { touch with time := time }
    let touch := { touch with serial := serial }
    { dpyinfo with touch_event := touch }

/-- The handler `wl_touch_up`. -/
def wl_touch_up (dpyinfo : wlc_display_info) (serial time : Nat) (id : Int) :
    wlc_display_info :=
  let _ := serial
  let _ := time
  match get_touch_point dpyinfo.touch_event id with
  | (none, touch) => { dpyinfo with touch_event := touch }
  | (some i, touch) =>
    let points := array_update touch.points i
      (fun p => { p with event_mask := p.event_mask ||| TOUCH_EVENT_UP })
    { dpyinfo with touch_event := { touch with points := points } }

/-- The handler `wl_touch_motion`. -/
def wl_touch_motion (dpyinfo : wlc_display_info) (time : Nat) (id : Int) (x y : Int) :
    wlc_display_info :=
  match get_touch_point dpyinfo.touch_event id with
  | (none, touch) => { dpyinfo with touch_event := touch }
  | (some i, touch) =>
    let points := array_update touch.points i
      (fun p => { p with event_mask := p.event_mask ||| TOUCH_EVENT_MOTION })
    let points := array_update points i (fun p => { p with surface_x := x, surface_y := y })
    let touch := { touch with points := points }
    let touch := { touch with time := time }
    { dpyinfo with touch_event := touch }

/-- The handler `wl_touch_frame`: every valid slot is written to `stderr` (not part of
the state) and marked invalid; a slot that is not valid is skipped. -/
def wl_touch_frame (dpyinfo : wlc_display_info) : wlc_display_info :=
  let touch := dpyinfo.touch_event
  let points := touch.points.map (fun point =>
    if !point.valid then point else { point with valid := false })
  { dpyinfo with touch_event := { touch with points := points } }

/-- The handler `wl_touch_cancel`. -/
def wl_touch_cancel (dpyinfo : wlc_display_info) : wlc_display_info :=
  let touch := dpyinfo.touch_event
  { dpyinfo with
    touch_event := { touch with event_mask := touch.event_mask ||| TOUCH_EVENT_CANCEL } }

/-- The handler `wl_touch_shape`. -/
def wl_touch_shape (dpyinfo : wlc_display_info) (id : Int) (major minor : Int) :
    wlc_display_info :=
  match get_touch_point dpyinfo.touch_event id with
  | (none, touch) => { dpyinfo with touch_event := touch }
  | (some i, touch) =>
    let points := array_update touch.points i
      (fun p => { p with event_mask := p.event_mask ||| TOUCH_EVENT_SHAPE })
    let points := array_update points i (fun p => { p with major := major, minor := minor })
    { dpyinfo with touch_event := { touch with points := points } }

/-- The handler `wl_touch_orientation`. -/
def wl_touch_orientation (dpyinfo : wlc_display_info) (id : Int) (orientation : Int) :
    wlc_display_info :=
  match get_touch_point dpyinfo.touch_event id with
  | (none, touch) => { dpyinfo with touch_event := touch }
  | (some i, touch) =>
    let points := array_update touch.points i
      (fun p => { p with event_mask := p.event_mask ||| TOUCH_EVENT_ORIENTATION })
    let points := array_update points i (fun p => { p with orientation := orientation })
    { dpyinfo with touch_event := { touch with points := points } }

/-! ## Keymap delivery (wlcterm.c, lines 755-803) -/

/-- The value `XKB_MOD_INVALID` of libxkbcommon. -/
def XKB_MOD_INVALID : Nat := 0xffffffff

/-- The value `WL_KEYBOARD_KEYMAP_FORMAT_XKB_V1` of the Wayland protocol. -/
def WL_KEYBOARD_KEYMAP_FORMAT_XKB_V1 : Nat := 1

/-- The expression `1 << n` on `int`, stored in an `xkb_mod_mask_t`.  For `n < 31` it is
`2 ^ n`.  For any other shift count C leaves the result undefined; `undef n` is what
the platform then produces, of which 32 bits are stored. -/
def shl_one (undef : Nat → Nat) (n : Nat) : Nat :=
  if n < 31 then 2 ^ n else undef n % 2 ^ 32

/-- The operator `~` on a 32-bit unsigned value. -/
def uint32_not (x : Nat) : Nat := (2 ^ 32 - 1) ^^^ x

/-- The handler `wl_keyboard_keymap`.  `keymap` is what `xkb_keymap_new_from_string`
made of the mapped text (`none` when the text does not compile).  The result is `none`
when the process does not survive the call: the `assert` on the format fails, or the
null keymap is handed to libxkbcommon. -/
def wl_keyboard_keymap (undef : Nat → Nat) (keymap : Option xkb_keymap) (format : Nat)
    (dpyinfo : wlc_display_info) : Option wlc_display_info :=
  if format ≠ WL_KEYBOARD_KEYMAP_FORMAT_XKB_V1 then none
  else
    match keymap with
    | none => none
    | some xkb_keymap =>
      let dpyinfo := { dpyinfo with xkb_keymap := some xkb_keymap }
      let dpyinfo := { dpyinfo with xkb_state := xkb_keymap.state_new }
      let dpyinfo :=
        { dpyinfo with
          control_mod_mask := shl_one undef (xkb_keymap.mod_get_index "Control") }
      let dpyinfo :=
        { dpyinfo with alt_mod_mask := shl_one undef (xkb_keymap.mod_get_index "Mod1") }
      let dpyinfo :=
        { dpyinfo with meta_mod_mask := shl_one undef (xkb_keymap.mod_get_index "Meta") }
      let dpyinfo :=
        { dpyinfo with shift_mod_mask := shl_one undef (xkb_keymap.mod_get_index "Shift") }
      let dpyinfo :=
        { dpyinfo with shift_lock_mask := shl_one undef (xkb_keymap.mod_get_index "Lock") }
      let dpyinfo :=
        { dpyinfo with super_mod_mask := shl_one undef (xkb_keymap.mod_get_index "Super") }
      let dpyinfo :=
        { dpyinfo with hyper_mod_mask := shl_one undef (xkb_keymap.mod_get_index "Hyper") }
      let dpyinfo : wlc_display_info :=
        if dpyinfo.meta_mod_mask = 0 then
          let dpyinfo := { dpyinfo with meta_mod_mask := dpyinfo.alt_mod_mask }
          { dpyinfo with alt_mod_mask := 0 }
        else dpyinfo
      let dpyinfo : wlc_display_info :=
        if dpyinfo.alt_mod_mask &&& dpyinfo.meta_mod_mask ≠ 0 then
          { dpyinfo with
            alt_mod_mask := dpyinfo.alt_mod_mask &&& uint32_not dpyinfo.meta_mod_mask }
        else dpyinfo
      some dpyinfo

instance (e : pointer_sub_event) : Decidable e.axis_ok := by
  cases e <;> unfold pointer_sub_event.axis_ok <;> infer_instance

instance (e : pointer_sub_event) : Decidable e.axis_source_ok := by
  cases e <;> unfold pointer_sub_event.axis_source_ok <;> infer_instance

/-! ## Display names and the connection list (wlcterm.c, lines 1242-1375, and
wlcfns.c, lines 292-312)

A C string is the list of its characters before the terminating NUL. -/

/-- The terminating character of a C string. -/
def NUL : Char := Char.ofNat 0

/-- The character `s[i]` of a C string: the terminator at its end. -/
def cstr_at (s : List Char) (i : Nat) : Char := s.getD i NUL

/-- The test `!strncmp (a, b, n)`: the two strings agree on their first `n` characters
(or are equal and shorter). -/
def strncmp_eq (a b : List Char) (n : Nat) : Bool := a.take n == b.take n

/-- The `while` loop at lines 1253-1255: the length of the system name up to its first
period. -/
def length_until_period (system_name : List Char) : Nat :=
  (system_name.takeWhile (fun c => c != '.')).length

/-- The value returned at lines 1284-1286, given the characters `*name1` and `*name2`
the loop stopped at. -/
def same_x_server_return (seen_colon : Bool) (c1 c2 : Char) : Bool :=
  seen_colon && (c1 == '.' || c1 == NUL) && (c2 == '.' || c2 == NUL)

/-- The `for` loop at lines 1277-1283 followed by the final `return`. -/
def same_x_server_loop : List Char → List Char → Bool → Bool
  | [], name2, seen_colon => same_x_server_return seen_colon NUL (cstr_at name2 0)
  | c1 :: name1, name2, seen_colon =>
    if c1 ≠ NUL ∧ c1 = cstr_at name2 0 then
      let seen_colon := if c1 = ':' then true else seen_colon
      if seen_colon && c1 == '.' then true
      else same_x_server_loop name1 (name2.drop 1) seen_colon
    else same_x_server_return seen_colon c1 (cstr_at name2 0)

/-- The function `same_x_server` (lines 1244-1287); `system_name` is the string
`Fsystem_name ()` returns. -/
def same_x_server (system_name : List Char) (name1 name2 : List Char) : Bool :=
  let system_name_length := system_name.length
  let length_until_period := length_until_period system_name
  let name1 := if strncmp_eq name1 ['u', 'n', 'i', 'x', ':'] 5 then name1.drop 4 else name1
  let name2 := if strncmp_eq name2 ['u', 'n', 'i', 'x', ':'] 5 then name2.drop 4 else name2
  let name1 :=
    if strncmp_eq name1 system_name system_name_length
        && cstr_at name1 system_name_length == ':'
    then name1.drop system_name_length else name1
  let name2 :=
    if strncmp_eq name2 system_name system_name_length
        && cstr_at name2 system_name_length == ':'
    then name2.drop system_name_length else name2
  let name1 :=
    if strncmp_eq name1 system_name length_until_period
        && cstr_at name1 length_until_period == ':'
    then name1.drop length_until_period else name1
  let name2 :=
    if strncmp_eq name2 system_name length_until_period
        && cstr_at name2 length_until_period == ':'
    then name2.drop length_until_period else name2
  same_x_server_loop name1 name2 false

/-- One of the two stripping steps at lines 1263-1275 applied to one name: if the name
starts with the first `n` characters of the system name followed by a colon, those `n`
characters are skipped. -/
def skip_system_name (system_name : List Char) (n : Nat) (name : List Char) : List Char :=
  if strncmp_eq name system_name n && cstr_at name n == ':' then name.drop n else name

/-- The three stripping steps of `same_x_server` (lines 1258-1275) applied to one name;
the function treats its two arguments alike. -/
def skip_host (system_name : List Char) (name : List Char) : List Char :=
  let name := if strncmp_eq name ['u', 'n', 'i', 'x', ':'] 5 then name.drop 4 else name
  let name := skip_system_name system_name system_name.length name
  skip_system_name system_name (length_until_period system_name) name

/-- The host parts that stand for the local host in a display name: none, "unix", the
system name, and the system name cut at its first period. -/
def host_aliases (system_name : List Char) : List (List Char) :=
  [[], ['u', 'n', 'i', 'x'], system_name, system_name.takeWhile (fun c => c != '.')]

/-- What `wlc_term_init` obtains from outside this state: the system name, the result
of `wl_display_connect` for a display name (`none` for `NULL`), the address `xzalloc`
returns for the new connection given the addresses in use, the address
`allocate_kboard` returns, what the listener callbacks run by the round trip and the
dispatch do to the new connection, whether they bound the compositor, the window-manager
base and the decoration manager (the three `assert`s), and whether the colour file could
be read. -/
structure wayland_env where
  system_name : List Char
  wl_display_connect : List Char → Option Nat
  xzalloc : List Nat → Nat
  allocate_kboard : Nat
  roundtrip : wlc_display_info → wlc_display_info
  globals_bound : Bool
  color_map_loaded : Bool

/-- How a call of `wlc_term_init` ends: it returns a connection (`none` for `NULL`), or
the process is terminated by a failed `assert` or by `fatal`. -/
inductive term_init_result
  | returned (dpyinfo : Option Nat) (st : wlc_state)
  | aborted

/-- The function `wlc_term_init` (lines 1294-1375) for a display name that is a string. -/
def wlc_term_init (env : wayland_env) (display_name : List Char) (st : wlc_state) :
    term_init_result :=
  match env.wl_display_connect display_name with
  | none => term_init_result.returned none st
  | some display =>
    let addr := env.xzalloc st.x_display_list
    let dpyinfo := wlc_display_info_zero
    let share :=
      st.x_display_list.find?
        (fun share => same_x_server env.system_name (st.displays share).name display_name)
    let kboard :=
      match share with
      | some share => (st.displays share).terminal_kboard
      | none => env.allocate_kboard
    let st :=
      match share with
      | some _ => st
      | none =>
        if st.current_kboard = st.initial_kboard then { st with current_kboard := kboard }
        else st
    let dpyinfo := { dpyinfo with terminal_kboard := kboard }
    let st :=
      { st with
        kboard_reference_count :=
          heap_set st.kboard_reference_count kboard (st.kboard_reference_count kboard + 1) }
    let dpyinfo := env.roundtrip dpyinfo
    if !env.globals_bound then term_init_result.aborted
    else
      let x_display_list := addr :: st.x_display_list
      let dpyinfo := { dpyinfo with name := display_name }
      if !env.color_map_loaded then term_init_result.aborted
      else
        let dpyinfo := { dpyinfo with display := some display }
        term_init_result.returned (some addr)
          { st with displays := heap_set st.displays addr dpyinfo,
                    x_display_list := x_display_list }

/-- How a call of `wlc_display_info_for_name` ends: it returns a connection, it signals
the Lisp error "Cannot connect to Wayland server", or the process is terminated. -/
inductive display_lookup_result
  | returned (dpyinfo : Nat) (st : wlc_state)
  | error (st : wlc_state)
  | aborted

/-- The function `wlc_display_info_for_name` (wlcfns.c, lines 295-312), which
`check_wlc_display_info` calls for a string selector; `Fstring_equal` is equality of
the two names. -/
def wlc_display_info_for_name (env : wayland_env) (name : List Char) (st : wlc_state) :
    display_lookup_result :=
  match st.x_display_list.find? (fun dpyinfo => (st.displays dpyinfo).name == name) with
  | some dpyinfo => display_lookup_result.returned dpyinfo st
  | none =>
    match wlc_term_init env name st with
    | term_init_result.aborted => display_lookup_result.aborted
    | term_init_result.returned none st => display_lookup_result.error st
    | term_init_result.returned (some dpyinfo) st => display_lookup_result.returned dpyinfo st

/-- The connection a lookup returned, if it returned one. -/
def display_lookup_result.connection : display_lookup_result → Option Nat
  | display_lookup_result.returned dpyinfo _ => some dpyinfo
  | _ => none

/-- The chain of open connections after a lookup that returned or signalled an error. -/
def display_lookup_result.display_list : display_lookup_result → Option (List Nat)
  | display_lookup_result.returned _ st => some st.x_display_list
  | display_lookup_result.error st => some st.x_display_list
  | display_lookup_result.aborted => none

/-! ## Keyboard focus (wlcterm.c, lines 805-836) -/

/-- The handler `wl_keyboard_enter`; `f` is the user data of the surface entered, the
frame the surface belongs to. -/
def wl_keyboard_enter (dpyinfo : wlc_display_info) (f : Option Nat) : wlc_display_info :=
  { dpyinfo with x_focus_frame := f }

/-- The handler `wl_keyboard_leave`; `f` is the user data of the surface left. -/
def wl_keyboard_leave (dpyinfo : wlc_display_info) (f : Option Nat) : wlc_display_info :=
  if dpyinfo.x_focus_frame = f then { dpyinfo with x_focus_frame := none } else dpyinfo

/-! ## The blocking wait (wlcterm.c, lines 224-257) -/

/-- A call `wlc_select` makes on the Wayland connection `display`, or the call of
`pselect` itself. -/
inductive wl_call
  | prepare_read (display : Nat)
  | dispatch_pending (display : Nat)
  | flush (display : Nat)
  | pselect
  | read_events (display : Nat)
  deriving DecidableEq, Repr

/-- The loop `while (wl_display_prepare_read (d) != 0) wl_display_dispatch_pending (d);`
when `wl_display_prepare_read` reports pending messages `busy` times before it returns
0: the calls made, in order. -/
def prepare_read_loop (display : Nat) : Nat → List wl_call
  | 0 => [wl_call.prepare_read display]
  | busy + 1 =>
    wl_call.prepare_read display :: wl_call.dispatch_pending display
      :: prepare_read_loop display busy

/-- The function `wlc_select`: the value returned and the calls made, in order, given
the value `retval` that `pselect` returns and the number `busy` of unsuccessful
`wl_display_prepare_read` calls.  The result is `none` when the process does not
survive the call: line 248 reads `x_display_list->display` without testing
`x_display_list`, which is a null pointer while no connection is open. -/
def wlc_select (busy : Nat) (retval : Int) (st : wlc_state) : Option (Int × List wl_call) :=
  let before : List wl_call :=
    match st.x_display_list.head? with
    | some dpyinfo =>
      match (st.displays dpyinfo).display with
      | some display => prepare_read_loop display busy ++ [wl_call.flush display]
      | none => []
    | none => []
  let calls := before ++ [wl_call.pselect]
  match st.x_display_list.head? with
  | none => none
  | some dpyinfo =>
    match (st.displays dpyinfo).display with
    | some display =>
      some (retval, calls ++ [wl_call.read_events display, wl_call.flush display])
    | none => some (retval, calls)

/-! ## Sequences of touch events -/

/-- A touch event as delivered by the compositor, with its arguments; `frame` is the
frame terminator. -/
inductive touch_sub_event
  | down (serial time : Nat) (id x y : Int)
  | up (serial time : Nat) (id : Int)
  | motion (time : Nat) (id x y : Int)
  | shape (id major minor : Int)
  | orientation (id orientation : Int)
  | cancel
  | frame
  deriving DecidableEq, Repr

/-- Dispatch of a touch event to its handler, as `wl_touch_listener` does. -/
def touch_sub_event.dispatch (dpyinfo : wlc_display_info) :
    touch_sub_event → wlc_display_info
  | touch_sub_event.down serial time id x y => wl_touch_down dpyinfo serial time id x y
  | touch_sub_event.up serial time id => wl_touch_up dpyinfo serial time id
  | touch_sub_event.motion time id x y => wl_touch_motion dpyinfo time id x y
  | touch_sub_event.shape id major minor => wl_touch_shape dpyinfo id major minor
  | touch_sub_event.orientation id o => wl_touch_orientation dpyinfo id o
  | touch_sub_event.cancel => wl_touch_cancel dpyinfo
  | touch_sub_event.frame => wl_touch_frame dpyinfo

/-! ## The growth of the event queue -/

/-- The capacities the queue goes through: 4, then each time half as much again
(4, 6, 9, 13, 19, ...). -/
def cap_seq : Nat → Nat
  | 0 => 4
  | i + 1 => cap_seq i + cap_seq i / 2

/-- No two valid slots of the touch table carry the same contact identifier. -/
def touch_ids_distinct (points : List wlc_touch_point) : Prop :=
  ∀ (i j : Nat) (p q : wlc_touch_point), points[i]? = some p → points[j]? = some q →
    i ≠ j → p.valid = true → q.valid = true → p.id ≠ q.id

/-! ## Clients of the event queue -/

/-- A sink that never exits non-locally: it applies `g` to the host state and returns. -/
def returning {σ : Type} (g : input_event → σ → σ) : input_event → σ → Except σ σ :=
  fun ev s => Except.ok (g ev s)

/-- Host state of the sink that only records, in order, the events it is handed. -/
def record (ev : input_event) (log : List input_event) : List input_event := log ++ [ev]

/-- A step of a client of the queue: enqueue an event, or drain the queue. -/
inductive evq_op
  | enqueue (ev : input_event)
  | flush
  deriving DecidableEq, Repr

/-- The events a sequence of steps enqueues, in order. -/
def evq_op.enqueued : List evq_op → List input_event
  | [] => []
  | evq_op.enqueue ev :: ops => ev :: evq_op.enqueued ops
  | evq_op.flush :: ops => evq_op.enqueued ops

/-- Run interleaved enqueues and drains; the drains hand the events to the recording
sink, whose log is threaded along.  `none` if a drain does not run to its end. -/
def evq_run : List evq_op → wlc_state → List input_event →
    Option (wlc_state × List input_event)
  | [], st, log => some (st, log)
  | evq_op.enqueue ev :: ops, st, log => evq_run ops (evq_enqueue ev st) log
  | evq_op.flush :: ops, st, log =>
    match evq_flush (returning record) st.event_q log with
    | some (flush_result.done _ evq log) => evq_run ops { st with event_q := evq } log
    | _ => none

/-! ## Concrete states used to evaluate the definitions -/

/-- A keyboard state in which keycode `k` produces keysym `k - 8` (so that the key
number sent with the event is the keysym), with modifier state `mods`. -/
def xkb_state_of (mods : Nat) : xkb_state :=
  { key_get_one_sym := fun keycode => keycode - 8, serialize_mods := fun _ => mods }

/-- A connection as `wlc_term_init` leaves it: every field zero, no frame focused. -/
def display_zero : wlc_display_info :=
  { wlc_display_info_zero with xkb_state := xkb_state_of 0 }

/-- A connection whose layout gives each modifier its own bit (Shift 1, Lock 2,
Control 4, Mod1/Alt 8, Meta 0x10, Hyper 0x20, Super 0x40), with frame 7 focused and
Shift and Control held down. -/
def display_distinct : wlc_display_info :=
  { display_zero with
    shift_mod_mask := 1, shift_lock_mask := 2, control_mod_mask := 4, alt_mod_mask := 8,
    meta_mod_mask := 0x10, hyper_mod_mask := 0x20, super_mod_mask := 0x40,
    x_focus_frame := some 7, xkb_state := xkb_state_of 5 }

/-- A connection after the keymap handler promoted Mod1 to Meta: Meta has bit 8 and
the Alt mask is 0. -/
def display_promoted : wlc_display_info :=
  { display_distinct with meta_mod_mask := 8, alt_mod_mask := 0 }

/-- A frame on the connection at address 0 with the flag `wait_for_configure` set, a
value that no statement of the source gives it. -/
def frame_waiting : frame :=
  { pixel_width := 0, pixel_height := 0,
    output_data := { enable_compositor := false, viewport := { set_destination := [] },
                     wait_for_configure := true, display_info := 0 } }

/-- A process state: empty event queue, every connection `display_distinct`, every
frame `frame_waiting`. -/
def state_example : wlc_state :=
  { event_q := event_q_init, displays := fun _ => display_distinct,
    frames := fun _ => frame_waiting, window_frame := fun _ => 0, sigio := 0,
    x_display_list := [], kboard_reference_count := fun _ => 0, current_kboard := 0,
    initial_kboard := 0 }

/-- A frame on the connection at address 0 as it is created: pixel size not yet known,
output data as `xzalloc` returned it. -/
def frame_created : frame :=
  { pixel_width := 0, pixel_height := 0, output_data := wlc_output_zero }

/-- The process state `state_example` with every frame as it is created. -/
def state_created : wlc_state :=
  { state_example with frames := fun _ => frame_created }

/-- An ASCII keystroke event with code `c`. -/
def ascii_event (c : Nat) : input_event :=
  { EVENT_INIT with kind := event_kind.ASCII_KEYSTROKE_EVENT, code := c }

/-- The queue after enqueuing the ASCII events 0, 1, 2 onto the empty queue. -/
def queue_012 : event_queue_t :=
  evq_store (ascii_event 2) (evq_store (ascii_event 1) (evq_store (ascii_event 0) event_q_init))

/-- A sink that exits non-locally when handed the event with code 1 and otherwise
records the code. -/
def sink_quit_on_1 (ev : input_event) (log : List Nat) : Except (List Nat) (List Nat) :=
  if ev.code = 1 then Except.error log else Except.ok (log ++ [ev.code])

/-- A touch table whose ten slots are all valid, holding the identifiers 1 to 10. -/
def touch_full : wlc_touch_event :=
  { wlc_touch_event_zero with
    points := (List.range 10).map
      (fun i => { wlc_touch_point_zero with valid := true, id := (i : Int) + 1 }) }

/-- A connection whose touch table is full. -/
def display_touch_full : wlc_display_info :=
  { display_zero with touch_event := touch_full }

/-- A new connection on which contact 5 was put down and moved, then reported by a
frame terminator. -/
def display_touch_reported : wlc_display_info :=
  wl_touch_frame
    (wl_touch_motion (wl_touch_down wlc_display_info_zero 1 10 5 2560 5120) 20 5 2816 5376)

/-- A layout with the modifiers Shift (index 0), Lock (1), Control (2) and Mod1 (3) and
no modifier named Meta, Super or Hyper. -/
def keymap_no_meta : xkb_keymap :=
  { mod_get_index := fun name =>
      if name = "Shift" then 0 else if name = "Lock" then 1
      else if name = "Control" then 2 else if name = "Mod1" then 3 else XKB_MOD_INVALID,
    state_new := xkb_state_of 0 }

/-- A layout in which Mod1 and Meta are the same modifier (index 3). -/
def keymap_meta_is_mod1 : xkb_keymap :=
  { mod_get_index := fun name =>
      if name = "Shift" then 0 else if name = "Lock" then 1
      else if name = "Control" then 2 else if name = "Mod1" then 3
      else if name = "Meta" then 3 else if name = "Super" then 6 else XKB_MOD_INVALID,
    state_new := xkb_state_of 0 }

/-- A platform on which a shift takes its count modulo 32, as the x86 shift
instructions do: `1 << n` yields `2 ^ (n % 32)`. -/
def shift_count_mod_32 (n : Nat) : Nat := 2 ^ (n % 32)

/-- A host on which the display server can be reached: the system name is
"host.example.org", a connection attempt yields the handle 1, new blocks are allocated
above every address in use, and the initial round trip binds the required globals. -/
def wayland_env_example : wayland_env :=
  { system_name := "host.example.org".toList,
    wl_display_connect := fun _ => some 1,
    xzalloc := fun used => used.foldl max 0 + 1,
    allocate_kboard := 50,
    roundtrip := fun d => d,
    globals_bound := true,
    color_map_loaded := true }

/-- A process state with one open connection, at address 0, opened under the display
name "unix:0". -/
def state_one_display : wlc_state :=
  { state_example with
    displays := fun _ => { display_distinct with name := "unix:0".toList, terminal_kboard := 40 },
    x_display_list := [0] }

/-- A process state with one open connection, at address 0, whose `wl_display` handle
is 9. -/
def state_connected : wlc_state :=
  { state_example with
    displays := fun _ => { display_distinct with display := some 9 },
    x_display_list := [0] }

/-- A process state with one open connection, at address 0, opened under the display
name "wayland-0", with the keyboard at address 40. -/
def state_wayland_0 : wlc_state :=
  { state_example with
    displays := fun _ =>
      { display_distinct with name := "wayland-0".toList, terminal_kboard := 40 },
    x_display_list := [0] }

/-! ## Lemmas on the event queue -/

section queue_lemmas

lemma take_succ_set_self {α : Type} (l : List α) (n : Nat) (a : α) (h : n < l.length) :
    (l.set n a).take (n + 1) = l.take n ++ [a] := by
  induction l generalizing n with
  | nil => simp at h
  | cons x xs ih =>
    cases n with
    | zero => simp
    | succ m =>
      have hm : m < xs.length := by simpa using h
      simp [ih m hm]

lemma evq_store_spec (ev : input_event) (evq : event_queue_t) (h : evq.wf) :
    (evq_store ev evq).wf ∧ (evq_store ev evq).queued = evq.queued ++ [ev]
      ∧ (evq_store ev evq).nr = evq.nr + 1 := by
  obtain ⟨q, nr, cap⟩ := evq
  obtain ⟨hlen, hnr, hcap⟩ := h
  simp only at hlen hnr hcap
  by_cases hc : cap = 0
  · subst hc
    have hn : nr = 0 := by omega
    subst hn
    have hq : q = [] := List.length_eq_zero.mp hlen
    subst hq
    simp [evq_store, xmalloc, event_queue_t.wf, event_queue_t.queued, List.replicate]
  · by_cases hfull : nr ≥ cap
    · have hn : nr = cap := by omega
      subst hn
      have hk : 0 < nr / 2 := by omega
      have hset : (xrealloc q (nr + nr / 2)).set nr ev
          = q ++ (List.replicate (nr / 2) uninit_event).set 0 ev := by
        have h1 : xrealloc q (nr + nr / 2) = q ++ List.replicate (nr / 2) uninit_event := by
          unfold xrealloc
          rw [List.take_of_length_le (by omega)]
          congr 2
          omega
        rw [h1, List.set_append_right _ _ (by omega)]
        congr 2
        omega
      have hrep : (List.replicate (nr / 2) uninit_event).set 0 ev
          = ev :: List.replicate (nr / 2 - 1) uninit_event := by
        obtain ⟨k, hk2⟩ : ∃ k, nr / 2 = k + 1 := ⟨nr / 2 - 1, by omega⟩
        rw [hk2]
        simp [List.replicate]
      simp only [evq_store, hc, hfull, if_true, if_false, ge_iff_le, le_refl,
        event_queue_t.wf, event_queue_t.queued]
      rw [hset, hrep]
      refine ⟨⟨?_, ?_, ?_⟩, ?_, trivial⟩
      · simp; omega
      · omega
      · omega
      · rw [List.take_append_eq_append_take]
        simp [hlen]
    · have hlt : nr < q.length := by omega
      simp only [evq_store, hc, hfull, if_false, event_queue_t.wf, event_queue_t.queued]
      refine ⟨⟨?_, ?_, ?_⟩, ?_, trivial⟩
      · simpa using hlen
      · omega
      · exact hcap
      · exact take_succ_set_self q nr ev hlt

lemma evq_shift_aux (k : Nat) : ∀ (pre : List input_event) (x : input_event)
    (rest : List input_event), k ≤ rest.length →
    ∃ y, (List.range' (pre.length + 1) k).foldl
        (fun q i => q.set (i - 1) (q.getD i uninit_event)) (pre ++ x :: rest)
      = pre ++ rest.take k ++ y :: rest.drop k := by
  induction k with
  | zero => intro pre x rest _; exact ⟨x, by simp⟩
  | succ k ih =>
    intro pre x rest hk
    cases rest with
    | nil => simp at hk
    | cons r rest =>
      have hk2 : k ≤ rest.length := by simpa using hk
      obtain ⟨y, hy⟩ := ih (pre ++ [r]) r rest hk2
      refine ⟨y, ?_⟩
      have hstep : (pre ++ x :: r :: rest).set (pre.length + 1 - 1)
            ((pre ++ x :: r :: rest).getD (pre.length + 1) uninit_event)
          = (pre ++ [r]) ++ r :: rest := by
        have hget : (pre ++ x :: r :: rest).getD (pre.length + 1) uninit_event = r := by
          rw [List.getD_append_right _ _ _ _ (by omega)]
          simp
        rw [hget, Nat.add_sub_cancel, List.set_append_right _ _ (by omega)]
        simp
      simp only [List.range', List.foldl_cons]
      rw [hstep]
      have hlen : (pre ++ [r]).length + 1 = pre.length + 1 + 1 := by simp
      rw [hlen] at hy
      rw [hy]
      simp

lemma evq_shift_spec (q : List input_event) (nr : Nat) (h0 : 0 < nr) (hle : nr ≤ q.length) :
    (evq_shift q nr).take (nr - 1) = (q.take nr).tail
      ∧ (evq_shift q nr).length = q.length := by
  cases q with
  | nil => simp at hle; omega
  | cons x rest =>
    have hk : nr - 1 ≤ rest.length := by simp at hle; omega
    obtain ⟨y, hy⟩ := evq_shift_aux (nr - 1) [] x rest hk
    simp only [List.length_nil, Nat.zero_add, List.nil_append] at hy
    obtain ⟨m, rfl⟩ : ∃ m, nr = m + 1 := ⟨nr - 1, by omega⟩
    simp only [Nat.add_sub_cancel] at hy hk ⊢
    unfold evq_shift
    simp only [Nat.add_sub_cancel]
    rw [hy]
    constructor
    · rw [List.take_append_eq_append_take]
      simp [List.length_take, Nat.min_eq_left hk]
    · simp [List.length_take, Nat.min_eq_left hk]
      omega

/-- One iteration of the drain up to the call of the sink: the event read from slot 0
is the front of the queue and the queue is left holding the events behind it. -/
lemma evq_pop_spec (evq : event_queue_t) (e : input_event) (rest : List input_event)
    (h : evq.wf) (hq : evq.queued = e :: rest) :
    0 < evq.nr ∧ evq.q.getD 0 uninit_event = e
      ∧ ({ evq with q := evq_shift evq.q evq.nr, nr := evq.nr - 1 } : event_queue_t).wf
      ∧ ({ evq with q := evq_shift evq.q evq.nr, nr := evq.nr - 1 } : event_queue_t).queued
          = rest := by
  obtain ⟨q, nr, cap⟩ := evq
  obtain ⟨hlen, hnr, hcap⟩ := h
  simp only [event_queue_t.queued] at hq
  simp only at hlen hnr hcap
  have h0 : 0 < nr := by
    rcases Nat.eq_zero_or_pos nr with h | h
    · subst h; simp at hq
    · exact h
  have hle : nr ≤ q.length := by omega
  obtain ⟨hs1, hs2⟩ := evq_shift_spec q nr h0 hle
  refine ⟨h0, ?_, ⟨?_, ?_, hcap⟩, ?_⟩
  · cases q with
    | nil => simp at hq
    | cons x xs =>
      obtain ⟨m, rfl⟩ : ∃ m, nr = m + 1 := ⟨nr - 1, by omega⟩
      simp at hq
      simp [hq.1]
  · simpa [hs2] using hlen
  · simp only; omega
  · simp only [event_queue_t.queued]
    rw [hs1, hq]
    rfl

lemma queued_nil_nr (evq : event_queue_t) (h : evq.wf) (hq : evq.queued = []) :
    evq.nr = 0 := by
  obtain ⟨q, nr, cap⟩ := evq
  obtain ⟨hlen, hnr, _⟩ := h
  simp only [event_queue_t.queued] at hq
  simp only at hlen hnr
  rcases List.take_eq_nil_iff.mp hq with h | h
  · exact h
  · subst h
    simp only [List.length_nil] at hlen
    show nr = 0
    omega

lemma queued_length (evq : event_queue_t) (h : evq.wf) : evq.queued.length = evq.nr := by
  obtain ⟨hlen, hnr, _⟩ := h
  simp only [event_queue_t.queued, List.length_take]
  omega

/-- A drain during which the sink always returns: the loop ends with the queue empty,
the count raised by the number of queued events and the sink run over them in order. -/
lemma evq_flush_loop_ok {σ : Type} (sink : input_event → σ → Except σ σ) :
    ∀ (es : List input_event) (fuel : Nat) (evq : event_queue_t) (s t : σ) (n : Nat),
      evq.wf → evq.queued = es → es.length < fuel →
      es.foldlM (fun s e => sink e s) s = Except.ok t →
      ∃ evq2, evq_flush_loop sink fuel evq s n
          = some (flush_result.done (n + es.length) evq2 t)
        ∧ evq2.wf ∧ evq2.nr = 0 ∧ evq2.cap = evq.cap := by
  intro es
  induction es with
  | nil =>
    intro fuel evq s t n hwf hq hfuel hrun
    obtain ⟨f, rfl⟩ : ∃ f, fuel = f + 1 := ⟨fuel - 1, by simp at hfuel; omega⟩
    have hnr := queued_nil_nr evq hwf hq
    have hst : s = t := by simpa [List.foldlM, pure, Except.pure] using hrun
    subst hst
    exact ⟨evq, by simp [evq_flush_loop, hnr], hwf, hnr, rfl⟩
  | cons e rest ih =>
    intro fuel evq s t n hwf hq hfuel hrun
    obtain ⟨f, rfl⟩ : ∃ f, fuel = f + 1 := ⟨fuel - 1, by simp at hfuel; omega⟩
    obtain ⟨hpos, hget, hwf2, hq2⟩ := evq_pop_spec evq e rest hwf hq
    rw [List.foldlM_cons] at hrun
    cases hs : sink e s with
    | error s1 => rw [hs] at hrun; cases hrun
    | ok s1 =>
      rw [hs] at hrun
      have hrun2 : rest.foldlM (fun s e => sink e s) s1 = Except.ok t := hrun
      have hf : rest.length < f := by simp at hfuel; omega
      obtain ⟨evq2, h1, h2, h3, h4⟩ := ih f _ s1 t (n + 1) hwf2 hq2 hf hrun2
      refine ⟨evq2, ?_, h2, h3, h4⟩
      rw [evq_flush_loop]
      simp only [hpos, if_true, hget, hs]
      rw [h1]
      simp only [List.length_cons]
      congr 2
      omega

/-- A drain during which the sink returns for the events of `pre` and then exits
non-locally when handed `e`: the loop is abandoned with exactly the events queued
behind `e` left in the queue. -/
lemma evq_flush_loop_unwound {σ : Type} (sink : input_event → σ → Except σ σ) :
    ∀ (pre : List input_event) (e : input_event) (post : List input_event) (fuel : Nat)
      (evq : event_queue_t) (s t u : σ) (n : Nat),
      evq.wf → evq.queued = pre ++ e :: post → pre.length < fuel →
      pre.foldlM (fun s e => sink e s) s = Except.ok t → sink e t = Except.error u →
      ∃ evq2, evq_flush_loop sink fuel evq s n = some (flush_result.unwound evq2 u)
        ∧ evq2.wf ∧ evq2.queued = post := by
  intro pre
  induction pre with
  | nil =>
    intro e post fuel evq s t u n hwf hq hfuel hrun hjmp
    obtain ⟨f, rfl⟩ : ∃ f, fuel = f + 1 := ⟨fuel - 1, by simp at hfuel; omega⟩
    have hst : s = t := by simpa [List.foldlM, pure, Except.pure] using hrun
    subst hst
    obtain ⟨hpos, hget, hwf2, hq2⟩ := evq_pop_spec evq e post hwf hq
    refine ⟨_, ?_, hwf2, hq2⟩
    rw [evq_flush_loop]
    simp only [hpos, if_true, hget, hjmp]
  | cons p pre ih =>
    intro e post fuel evq s t u n hwf hq hfuel hrun hjmp
    obtain ⟨f, rfl⟩ : ∃ f, fuel = f + 1 := ⟨fuel - 1, by simp at hfuel; omega⟩
    obtain ⟨hpos, hget, hwf2, hq2⟩ := evq_pop_spec evq p (pre ++ e :: post) hwf hq
    rw [List.foldlM_cons] at hrun
    cases hs : sink p s with
    | error s1 => rw [hs] at hrun; cases hrun
    | ok s1 =>
      rw [hs] at hrun
      have hrun2 : pre.foldlM (fun s e => sink e s) s1 = Except.ok t := hrun
      have hf : pre.length < f := by simp at hfuel; omega
      obtain ⟨evq2, h1, h2, h3⟩ := ih e post f _ s1 t u (n + 1) hwf2 hq2 hf hrun2 hjmp
      refine ⟨evq2, ?_, h2, h3⟩
      rw [evq_flush_loop]
      simp only [hpos, if_true, hget, hs]
      rw [h1]

lemma evq_enqueue_event_q (ev : input_event) (st : wlc_state) :
    (evq_enqueue ev st).event_q = evq_store ev st.event_q := by
  unfold evq_enqueue
  simp only
  split
  · split
    · split <;> rfl
    · rfl
  · rfl

lemma foldlM_returning {σ : Type} (g : input_event → σ → σ) (es : List input_event) :
    ∀ s : σ, es.foldlM (fun s e => returning g e s) s
      = Except.ok (es.foldl (fun s e => g e s) s) := by
  induction es with
  | nil => intro s; rfl
  | cons e rest ih =>
    intro s
    rw [List.foldlM_cons, List.foldl_cons]
    exact ih (g e s)

lemma foldl_record (es : List input_event) :
    ∀ log : List input_event, es.foldl (fun s e => record e s) log = log ++ es := by
  induction es with
  | nil => intro log; simp
  | cons e rest ih =>
    intro log
    rw [List.foldl_cons, ih, record]
    simp

lemma foldl_enqueue_spec (es : List input_event) :
    ∀ st : wlc_state, st.event_q.wf →
      (es.foldl (fun st e => evq_enqueue e st) st).event_q.wf
        ∧ (es.foldl (fun st e => evq_enqueue e st) st).event_q.queued
            = st.event_q.queued ++ es := by
  induction es with
  | nil => intro st h; simp [h]
  | cons e rest ih =>
    intro st h
    have hs := evq_store_spec e st.event_q h
    rw [← evq_enqueue_event_q] at hs
    obtain ⟨h1, h2⟩ := ih (evq_enqueue e st) hs.1
    rw [List.foldl_cons]
    exact ⟨h1, by rw [h2, hs.2.1]; simp⟩

/-- A drain with a sink that always returns, on any well-formed queue. -/
lemma evq_flush_returning {σ : Type} (g : input_event → σ → σ) (evq : event_queue_t)
    (s : σ) (h : evq.wf) :
    ∃ evq2, evq_flush (returning g) evq s
        = some (flush_result.done evq.queued.length evq2
            (evq.queued.foldl (fun s e => g e s) s))
      ∧ evq2.wf ∧ evq2.nr = 0 ∧ evq2.queued = [] := by
  have hlen := queued_length evq h
  obtain ⟨evq2, h1, h2, h3, _⟩ :=
    evq_flush_loop_ok (returning g) evq.queued (evq.nr + 1) evq s _ 0 h rfl
      (by omega) (foldlM_returning g evq.queued s)
  refine ⟨evq2, ?_, h2, h3, ?_⟩
  · rw [evq_flush, h1, Nat.zero_add]
  · simp [event_queue_t.queued, h3]

lemma evq_run_spec (ops : List evq_op) :
    ∀ (st : wlc_state) (log : List input_event), st.event_q.wf →
      ∃ st2 log2, evq_run ops st log = some (st2, log2) ∧ st2.event_q.wf
        ∧ log2 ++ st2.event_q.queued = log ++ st.event_q.queued ++ evq_op.enqueued ops := by
  induction ops with
  | nil => intro st log h; exact ⟨st, log, rfl, h, by simp [evq_op.enqueued]⟩
  | cons op ops ih =>
    intro st log h
    cases op with
    | enqueue ev =>
      have hs := evq_store_spec ev st.event_q h
      rw [← evq_enqueue_event_q] at hs
      obtain ⟨st2, log2, h1, h2, h3⟩ := ih (evq_enqueue ev st) log hs.1
      exact ⟨st2, log2, by rw [evq_run, h1], h2, by rw [h3, hs.2.1]; simp [evq_op.enqueued]⟩
    | flush =>
      obtain ⟨evq2, h1, h2, _, h4⟩ := evq_flush_returning record st.event_q log h
      obtain ⟨st2, log2, k1, k2, k3⟩ := ih { st with event_q := evq2 }
        (st.event_q.queued.foldl (fun s e => record e s) log) h2
      refine ⟨st2, log2, ?_, k2, ?_⟩
      · rw [evq_run, h1]; exact k1
      · rw [k3, foldl_record]; simp [h4, evq_op.enqueued]

lemma evq_run_append (a b : List evq_op) :
    ∀ (st : wlc_state) (log : List input_event),
      evq_run (a ++ b) st log = (evq_run a st log).bind (fun r => evq_run b r.1 r.2) := by
  induction a with
  | nil => intro st log; rfl
  | cons op a ih =>
    intro st log
    cases op with
    | enqueue ev => simp only [List.cons_append, evq_run]; exact ih _ _
    | flush =>
      simp only [List.cons_append, evq_run]
      split
      · exact ih _ _
      · rfl

end queue_lemmas

/-! ## The event queue is first-in first-out -/

/-- C1. Events enqueued with `evq_enqueue` onto the empty queue, however many, are
handed to the sink by `evq_flush` in the order they were enqueued: the sink is run
over exactly `e1..en`, the count returned is `n` and the queue is left empty.  When
enqueues and drains are interleaved, the events delivered so far followed by the
events still queued are the enqueued events in enqueue order, every drain runs to its
end, and after a final drain everything enqueued has been delivered, in that order. -/
theorem evq_fifo_order :
    (∀ (σ : Type) (g : input_event → σ → σ) (st : wlc_state) (es : List input_event) (s : σ),
      ∃ evq, evq_flush (returning g)
            (es.foldl (fun st e => evq_enqueue e st)
              { st with event_q := event_q_init }).event_q s
          = some (flush_result.done es.length evq (es.foldl (fun s e => g e s) s))
        ∧ evq.nr = 0 ∧ evq.queued = [])
    ∧ (∀ (st : wlc_state) (ops : List evq_op),
      ∃ st2 log, evq_run ops { st with event_q := event_q_init } [] = some (st2, log)
        ∧ log ++ st2.event_q.queued = evq_op.enqueued ops)
    ∧ (∀ (st : wlc_state) (ops : List evq_op),
      ∃ st2, evq_run (ops ++ [evq_op.flush]) { st with event_q := event_q_init } []
          = some (st2, evq_op.enqueued ops)
        ∧ st2.event_q.nr = 0 ∧ st2.event_q.queued = []) := by
  have hinit : event_q_init.wf := by decide
  refine ⟨?_, ?_, ?_⟩
  · intro σ g st es s
    obtain ⟨hwf, hq⟩ := foldl_enqueue_spec es { st with event_q := event_q_init } hinit
    obtain ⟨evq2, h1, _, h3, h4⟩ := evq_flush_returning g _ s hwf
    refine ⟨evq2, ?_, h3, h4⟩
    rw [h1, hq]
    simp [event_queue_t.queued, event_q_init]
  · intro st ops
    obtain ⟨st2, log2, h1, _, h3⟩ := evq_run_spec ops { st with event_q := event_q_init } [] hinit
    exact ⟨st2, log2, h1, by simpa [event_queue_t.queued, event_q_init] using h3⟩
  · intro st ops
    obtain ⟨st2, log2, h1, h2, h3⟩ :=
      evq_run_spec ops { st with event_q := event_q_init } [] hinit
    have h3b : log2 ++ st2.event_q.queued = evq_op.enqueued ops := by
      simpa [event_queue_t.queued, event_q_init] using h3
    obtain ⟨evq2, k1, _, k3, k4⟩ := evq_flush_returning record st2.event_q log2 h2
    refine ⟨{ st2 with event_q := evq2 }, ?_, k3, k4⟩
    rw [evq_run_append, h1]
    simp only [Option.bind, evq_run, k1, foldl_record, h3b]

/-- Six events are enqueued onto the empty queue (the buffer grows from 4 to 6 slots)
and drained into the recording sink: it receives them in order and the count is 6. -/
theorem evq_fifo_order_witness :
    ∃ evq, evq_flush (returning record)
        (((List.range 6).map ascii_event).foldl (fun st e => evq_enqueue e st)
          { state_example with event_q := event_q_init }).event_q []
      = some (flush_result.done 6 evq ((List.range 6).map ascii_event))
      ∧ evq.nr = 0 ∧ evq.queued = [] :=
  evq_fifo_order.1 (List input_event) record state_example ((List.range 6).map ascii_event) []

/-- C2. In a drain the sink is handed an event only after the event has been taken out
of the queue.  If the sink returned normally for the events `pre` at the front of the
queue and exits non-locally when handed the next event `e`, the drain is abandoned with
the queue holding exactly the events `post` that were queued behind `e`, in order; a
later drain delivers exactly `post`, so neither `e` nor an event of `pre` is delivered a
second time. -/
theorem evq_flush_removes_before_sink {σ τ : Type} (sink : input_event → σ → Except σ σ)
    (evq : event_queue_t) (pre : List input_event) (e : input_event)
    (post : List input_event) (s t u : σ)
    (hwf : evq.wf) (hq : evq.queued = pre ++ e :: post)
    (hpre : pre.foldlM (fun s e => sink e s) s = Except.ok t)
    (hjmp : sink e t = Except.error u) :
    ∃ evq2, evq_flush sink evq s = some (flush_result.unwound evq2 u)
      ∧ evq2.wf ∧ evq2.queued = post
      ∧ ∀ (sink2 : input_event → τ → Except τ τ) (v w : τ),
          post.foldlM (fun s e => sink2 e s) v = Except.ok w →
          ∃ evq3, evq_flush sink2 evq2 v = some (flush_result.done post.length evq3 w)
            ∧ evq3.nr = 0 := by
  have hlen := queued_length evq hwf
  have hfuel : pre.length < evq.nr + 1 := by
    rw [← hlen, hq]
    simp
    omega
  obtain ⟨evq2, h1, h2, h3⟩ :=
    evq_flush_loop_unwound sink pre e post (evq.nr + 1) evq s t u 0 hwf hq hfuel hpre hjmp
  refine ⟨evq2, h1, h2, h3, ?_⟩
  intro sink2 v w hrun
  have hlen2 := queued_length evq2 h2
  obtain ⟨evq3, k1, _, k3, _⟩ :=
    evq_flush_loop_ok sink2 post (evq2.nr + 1) evq2 v w 0 h2 h3 (by rw [← hlen2, h3]; omega) hrun
  exact ⟨evq3, by rw [evq_flush, k1, Nat.zero_add], k3⟩

/-- The queue holds the events 0, 1, 2 and the sink exits non-locally on event 1: the
queue is left holding event 2 only. -/
theorem evq_flush_removes_before_sink_witness :
    (queue_012.wf ∧ queue_012.queued = [ascii_event 0] ++ ascii_event 1 :: [ascii_event 2])
    ∧ ∃ evq2, evq_flush sink_quit_on_1 queue_012 [] = some (flush_result.unwound evq2 [0])
      ∧ evq2.wf ∧ evq2.queued = [ascii_event 2]
      ∧ ∀ (sink2 : input_event → List input_event → Except (List input_event) (List input_event))
          (v w : List input_event),
          [ascii_event 2].foldlM (fun s e => sink2 e s) v = Except.ok w →
          ∃ evq3, evq_flush sink2 evq2 v
              = some (flush_result.done [ascii_event 2].length evq3 w)
            ∧ evq3.nr = 0 :=
  ⟨⟨by decide, by decide⟩,
    evq_flush_removes_before_sink sink_quit_on_1 queue_012 [ascii_event 0] (ascii_event 1)
      [ascii_event 2] [] [0] [0] (by decide) (by decide) rfl rfl⟩

/-! ## Lemmas on the modifier translators -/

section modifier_lemmas

lemma and_or_right (a b c : Nat) : (a ||| b) &&& c = (a &&& c) ||| (b &&& c) := by
  rw [Nat.and_comm, Nat.and_or_distrib_left, Nat.and_comm c a, Nat.and_comm c b]

lemma and_symm_zero {a b : Nat} (h : a &&& b = 0) : b &&& a = 0 := by
  rw [Nat.and_comm]; exact h

lemma or_eq_zero_left {v w : Nat} (h : v ||| w = 0) : v = 0 := by
  apply Nat.eq_of_testBit_eq
  intro i
  have hi := congrArg (fun x => x.testBit i) h
  simp only [Nat.testBit_or, Nat.zero_testBit, Bool.or_eq_false_iff] at hi
  simp [hi.1]

lemma pick_and (b : Bool) (v w : Nat) : pick b v &&& w = pick b (v &&& w) := by
  cases b <;> simp [pick]

lemma pick_zero (b : Bool) : pick b 0 = 0 := by
  cases b <;> rfl

lemma ite_pick_ne_zero (b : Bool) (v a : Nat) (hv : v ≠ 0) :
    (if pick b v ≠ 0 then a else 0) = pick b a := by
  cases b <;> simp [pick, hv]

lemma ite_pick_or_ne_zero (b : Bool) (v w a : Nat) (hv : v ≠ 0) :
    (if pick b v ||| pick b w ≠ 0 then a else 0) = pick b a := by
  cases b
  · simp [pick]
  · have : v ||| w ≠ 0 := fun h => hv (or_eq_zero_left h)
    simp [pick, this]

/-- Masking a union of pairwise disjoint values, each present or not, with one of the
values tells whether that value is present. -/
lemma select_six (v1 v2 v3 v4 v5 v6 : Nat) (b1 b2 b3 b4 b5 b6 : Bool)
    (hd : [v1, v2, v3, v4, v5, v6].Pairwise (fun a b => a &&& b = 0)) (w : Nat)
    (hw : w = pick b1 v1 ||| pick b2 v2 ||| pick b3 v3 ||| pick b4 v4 ||| pick b5 v5
      ||| pick b6 v6) :
    w &&& v1 = pick b1 v1 ∧ w &&& v2 = pick b2 v2 ∧ w &&& v3 = pick b3 v3
      ∧ w &&& v4 = pick b4 v4 ∧ w &&& v5 = pick b5 v5 ∧ w &&& v6 = pick b6 v6 := by
  simp only [List.pairwise_cons, List.mem_cons, List.mem_singleton, forall_eq_or_imp,
    forall_eq, List.not_mem_nil, IsEmpty.forall_iff, implies_true, List.Pairwise.nil,
    and_true] at hd
  obtain ⟨⟨h12, h13, h14, h15, h16⟩, ⟨h23, h24, h25, h26⟩, ⟨h34, h35, h36⟩,
    ⟨h45, h46⟩, h56⟩ := hd
  subst hw
  simp only [and_or_right, pick_and, Nat.and_self, h12, h13, h14, h15, h16, h23, h24, h25,
    h26, h34, h35, h36, h45, h46, h56, and_symm_zero h12, and_symm_zero h13,
    and_symm_zero h14, and_symm_zero h15, and_symm_zero h16, and_symm_zero h23,
    and_symm_zero h24, and_symm_zero h25, and_symm_zero h26, and_symm_zero h34,
    and_symm_zero h35, and_symm_zero h36, and_symm_zero h45, and_symm_zero h46,
    and_symm_zero h56, pick_zero, Nat.or_zero, Nat.zero_or, and_self]

lemma select_six_other (v1 v2 v3 v4 v5 v6 : Nat) (b1 b2 b3 b4 b5 b6 : Bool) (l w : Nat)
    (h1 : v1 &&& l = 0) (h2 : v2 &&& l = 0) (h3 : v3 &&& l = 0) (h5 : v5 &&& l = 0)
    (h6 : v6 &&& l = 0)
    (hw : w = pick b1 v1 ||| pick b2 v2 ||| pick b3 v3 ||| pick b4 v4 ||| pick b5 v5
      ||| pick b6 v6) :
    w &&& l = pick b4 (v4 &&& l) := by
  subst hw
  simp only [and_or_right, pick_and, h1, h2, h3, h5, h6, pick_zero, Nat.or_zero, Nat.zero_or]

lemma modifier_value_int_eq (o : Option Nat) (dflt : Nat) (h : o.getD 0 ≤ INT_MAX) :
    modifier_value_int o dflt = modifier_value o dflt := by
  cases o with
  | none => rfl
  | some v =>
    have hv : v < 2 ^ 31 := by
      simp only [Option.getD_some, INT_MAX] at h
      omega
    have hmax : INT_MAX = 2 ^ 31 - 1 := by decide
    simp only [modifier_value_int, modifier_value, hmax]
    exact Nat.and_pow_two_sub_one_of_lt_two_pow hv

/-- The host pattern made of the chosen ones among the six modifier values in effect. -/
lemma emacs_to_xkb_union (env : lisp_env) (d : wlc_display_info)
    (b1 b2 b3 b4 b5 b6 : Bool) (henv : env.mods_ok) :
    emacs_to_xkb_modifiers env d
        (pick b1 (modifier_value env.x_alt_keysym env.alt_modifier)
          ||| pick b2 (modifier_value env.x_super_keysym env.super_modifier)
          ||| pick b3 (modifier_value env.x_hyper_keysym env.hyper_modifier)
          ||| pick b4 env.shift_modifier ||| pick b5 env.ctrl_modifier
          ||| pick b6 (modifier_value env.x_meta_keysym env.meta_modifier))
      = pick b1 d.alt_mod_mask ||| pick b2 d.super_mod_mask ||| pick b3 d.hyper_mod_mask
          ||| pick b4 d.shift_mod_mask ||| pick b5 d.control_mod_mask
          ||| pick b6 d.meta_mod_mask := by
  obtain ⟨hnz, hdisj, _⟩ := henv
  simp only [lisp_env.host_mods, List.mem_cons, List.mem_singleton, forall_eq_or_imp,
    forall_eq, List.not_mem_nil, IsEmpty.forall_iff, implies_true, and_true] at hnz
  obtain ⟨n1, n2, n3, n4, n5, n6⟩ := hnz
  obtain ⟨s1, s2, s3, s4, s5, s6⟩ := select_six _ _ _ _ _ _ b1 b2 b3 b4 b5 b6 hdisj _ rfl
  simp only [emacs_to_xkb_modifiers, s1, s2, s3, s4, s5, s6]
  rw [ite_pick_ne_zero b1 _ _ n1, ite_pick_ne_zero b2 _ _ n2, ite_pick_ne_zero b3 _ _ n3,
    ite_pick_ne_zero b4 _ _ n4, ite_pick_ne_zero b5 _ _ n5, ite_pick_ne_zero b6 _ _ n6]

/-- The protocol state made of the chosen ones among the six masks of the connection. -/
lemma xkb_to_emacs_union (env : lisp_env) (d : wlc_display_info)
    (b1 b2 b3 b4 b5 b6 : Bool) (henv : env.mods_ok) (hd : d.masks_ok) :
    xkb_to_emacs_modifiers env d
        (pick b1 d.alt_mod_mask ||| pick b2 d.super_mod_mask ||| pick b3 d.hyper_mod_mask
          ||| pick b4 d.shift_mod_mask ||| pick b5 d.control_mod_mask
          ||| pick b6 d.meta_mod_mask)
      = pick b4 env.shift_modifier ||| pick b5 env.ctrl_modifier
          ||| pick b6 (modifier_value env.x_meta_keysym env.meta_modifier)
          ||| pick b1 (modifier_value env.x_alt_keysym env.alt_modifier)
          ||| pick b2 (modifier_value env.x_super_keysym env.super_modifier)
          ||| pick b3 (modifier_value env.x_hyper_keysym env.hyper_modifier) := by
  obtain ⟨_, _, hfit⟩ := henv
  obtain ⟨hnz, hdisj, hlock⟩ := hd
  simp only [wlc_display_info.mod_masks, List.mem_cons, List.mem_singleton, forall_eq_or_imp,
    forall_eq, List.not_mem_nil, IsEmpty.forall_iff, implies_true, and_true] at hnz hlock hfit
  obtain ⟨n1, n2, n3, n4, n5, n6⟩ := hnz
  obtain ⟨l1, l2, l3, l5, l6⟩ := hlock
  obtain ⟨f1, f2, f3, f6⟩ := hfit
  obtain ⟨s1, s2, s3, s4, s5, s6⟩ := select_six _ _ _ _ _ _ b1 b2 b3 b4 b5 b6 hdisj _ rfl
  have sl := select_six_other d.alt_mod_mask d.super_mod_mask d.hyper_mod_mask
    d.shift_mod_mask d.control_mod_mask d.meta_mod_mask b1 b2 b3 b4 b5 b6
    d.shift_lock_mask _ l1 l2 l3 l5 l6 rfl
  simp only [xkb_to_emacs_modifiers, Nat.and_or_distrib_left, s1, s2, s3, s4, s5, s6, sl]
  rw [ite_pick_ne_zero b1 _ _ n1, ite_pick_ne_zero b2 _ _ n2, ite_pick_ne_zero b3 _ _ n3,
    ite_pick_or_ne_zero b4 _ _ _ n4, ite_pick_ne_zero b5 _ _ n5, ite_pick_ne_zero b6 _ _ n6,
    modifier_value_int_eq _ _ f1, modifier_value_int_eq _ _ f2, modifier_value_int_eq _ _ f3,
    modifier_value_int_eq _ _ f6]

end modifier_lemmas

/-! ## Round trips of the modifier translators -/

/-- C3, as stated, fails.  With a layout that gives every modifier its own bit, the host
pattern 1 (`up_modifier`, not one of the six translated modifiers) comes back as 0; and
after Mod1 was promoted to Meta (Alt mask 0) the host pattern `alt_modifier` comes back
as 0. -/
theorem xkb_roundtrip_host_counterexample :
    xkb_to_emacs_modifiers emacs_env display_distinct
        (emacs_to_xkb_modifiers emacs_env display_distinct 1) ≠ 1
    ∧ xkb_to_emacs_modifiers emacs_env display_promoted
        (emacs_to_xkb_modifiers emacs_env display_promoted emacs_env.alt_modifier)
      ≠ emacs_env.alt_modifier := by
  decide

/-- C3, amended.  Let the six host modifier values in effect under the (fixed) override
preferences be nonzero and pairwise disjoint, with every override at most `INT_MAX`, and
let the shift, control, meta, alt, super and hyper masks of the connection be nonzero
and pairwise disjoint, the shift-lock mask sharing no bit with the five masks other than
shift.  Then every host pattern `m` that is a union of some of the six host modifier
values satisfies `xkb_to_emacs_modifiers (d, emacs_to_xkb_modifiers (d, m)) = m`. -/
theorem xkb_roundtrip_host (env : lisp_env) (d : wlc_display_info)
    (b_alt b_super b_hyper b_shift b_ctrl b_meta : Bool)
    (henv : env.mods_ok) (hd : d.masks_ok) :
    xkb_to_emacs_modifiers env d
        (emacs_to_xkb_modifiers env d
          (env.host_pattern b_alt b_super b_hyper b_shift b_ctrl b_meta))
      = env.host_pattern b_alt b_super b_hyper b_shift b_ctrl b_meta := by
  unfold lisp_env.host_pattern
  rw [emacs_to_xkb_union env d _ _ _ _ _ _ henv, xkb_to_emacs_union env d _ _ _ _ _ _ henv hd]
  ac_rfl

/-- Stock Emacs, a layout with a bit per modifier, and the pattern alt+shift+ctrl. -/
theorem xkb_roundtrip_host_witness :
    (emacs_env.mods_ok ∧ display_distinct.masks_ok)
    ∧ xkb_to_emacs_modifiers emacs_env display_distinct
        (emacs_to_xkb_modifiers emacs_env display_distinct
          (emacs_env.host_pattern true false false true true false))
      = emacs_env.host_pattern true false false true true false :=
  ⟨⟨by decide, by decide⟩,
    xkb_roundtrip_host emacs_env display_distinct true false false true true false
      (by decide) (by decide)⟩

section key_lemmas

lemma evq_enqueue_queued (ev : input_event) (st : wlc_state) (h : st.event_q.wf) :
    (evq_enqueue ev st).event_q.wf
      ∧ (evq_enqueue ev st).event_q.queued = st.event_q.queued ++ [ev] := by
  rw [evq_enqueue_event_q]
  exact ⟨(evq_store_spec ev _ h).1, (evq_store_spec ev _ h).2.1⟩

lemma wl_keyboard_key_press (env : lisp_env) (orig_keysym data serial time key state : Nat)
    (st : wlc_state) (focus : Nat) (hpress : state ≠ WL_KEYBOARD_KEY_STATE_RELEASED)
    (hfocus : (st.displays data).x_focus_frame = some focus) :
    wl_keyboard_key env orig_keysym data serial time key state st
      = if (key_event env orig_keysym (st.displays data) focus time
              ((key + 8) % 2 ^ 32)).kind ≠ event_kind.NO_EVENT
        then evq_enqueue
          (key_event env orig_keysym (st.displays data) focus time ((key + 8) % 2 ^ 32)) st
        else st := by
  simp only [wl_keyboard_key, hpress, if_false, hfocus]

lemma key_event_common (env : lisp_env) (orig_keysym : Nat) (d : wlc_display_info)
    (focus time keycode : Nat) :
    (key_event env orig_keysym d focus time keycode).frame_or_window = Lisp_Object.frame focus
      ∧ (key_event env orig_keysym d focus time keycode).timestamp = time
      ∧ (key_event env orig_keysym d focus time keycode).modifiers
          = xkb_to_emacs_modifiers env d
              ((d.xkb_state.serialize_mods (XKB_STATE_DEPRESSED ||| XKB_STATE_LATCHED)
                ||| emacs_to_xkb_modifiers env d env.extra_keyboard_modifiers) % 2 ^ 32) := by
  unfold key_event
  simp only
  split_ifs <;> simp

lemma key_event_ascii (env : lisp_env) (orig_keysym : Nat) (d : wlc_display_info)
    (focus time keycode : Nat)
    (h : 32 ≤ d.xkb_state.key_get_one_sym keycode ∧ d.xkb_state.key_get_one_sym keycode < 128) :
    (key_event env orig_keysym d focus time keycode).kind = event_kind.ASCII_KEYSTROKE_EVENT
      ∧ (key_event env orig_keysym d focus time keycode).code
          = d.xkb_state.key_get_one_sym keycode := by
  unfold key_event
  simp only [ge_iff_le, h, and_self, if_true]

lemma key_event_unicode (env : lisp_env) (orig_keysym : Nat) (d : wlc_display_info)
    (focus time keycode : Nat)
    (h : 0x01000000 ≤ d.xkb_state.key_get_one_sym keycode
      ∧ d.xkb_state.key_get_one_sym keycode ≤ 0x0110FFFF) :
    (key_event env orig_keysym d focus time keycode).kind
        = (if d.xkb_state.key_get_one_sym keycode < 0x01000080
            then event_kind.ASCII_KEYSTROKE_EVENT
            else event_kind.MULTIBYTE_CHAR_KEYSTROKE_EVENT)
      ∧ (key_event env orig_keysym d focus time keycode).code
          = d.xkb_state.key_get_one_sym keycode &&& 0xFFFFFF := by
  have h1 : ¬ (32 ≤ d.xkb_state.key_get_one_sym keycode
      ∧ d.xkb_state.key_get_one_sym keycode < 128) := by omega
  unfold key_event
  simp only [ge_iff_le, h1, if_false, h, and_self, if_true]
  split_ifs <;> exact ⟨rfl, trivial⟩

lemma key_event_non_ascii (env : lisp_env) (orig_keysym : Nat) (d : wlc_display_info)
    (focus time keycode : Nat)
    (hlow : d.xkb_state.key_get_one_sym keycode < 0x01000000)
    (hhigh : 128 ≤ d.xkb_state.key_get_one_sym keycode)
    (h : random_non_modifier_keysym (d.xkb_state.key_get_one_sym keycode) orig_keysym = true) :
    (key_event env orig_keysym d focus time keycode).kind
        = event_kind.NON_ASCII_KEYSTROKE_EVENT
      ∧ (key_event env orig_keysym d focus time keycode).code
          = d.xkb_state.key_get_one_sym keycode := by
  have h1 : ¬ (32 ≤ d.xkb_state.key_get_one_sym keycode
      ∧ d.xkb_state.key_get_one_sym keycode < 128) := by omega
  have h2 : ¬ (0x01000000 ≤ d.xkb_state.key_get_one_sym keycode
      ∧ d.xkb_state.key_get_one_sym keycode ≤ 0x0110FFFF) := by omega
  unfold key_event
  simp only [ge_iff_le, h1, if_false, h2, h, if_true]
  exact ⟨trivial, trivial⟩

lemma emacs_to_xkb_lt (env : lisp_env) (d : wlc_display_info) (x : Nat) (hd : d.masks_fit) :
    emacs_to_xkb_modifiers env d x < 2 ^ 32 := by
  simp only [wlc_display_info.masks_fit, wlc_display_info.mod_masks, List.mem_cons,
    List.mem_singleton, forall_eq_or_imp, forall_eq, List.not_mem_nil, IsEmpty.forall_iff,
    implies_true, and_true] at hd
  obtain ⟨_, f1, f2, f3, f4, f5, f6⟩ := hd
  have hz : (0 : Nat) < 2 ^ 32 := by norm_num
  unfold emacs_to_xkb_modifiers
  simp only
  refine Nat.or_lt_two_pow (Nat.or_lt_two_pow (Nat.or_lt_two_pow (Nat.or_lt_two_pow
    (Nat.or_lt_two_pow ?_ ?_) ?_) ?_) ?_) ?_ <;> split_ifs <;> assumption

end key_lemmas

/-- C5. For a key press (any key state other than released) while a frame is focused,
with `k` the keysym of the key: if `32 ≤ k < 128`, exactly one event is appended to the
queue, an ASCII keystroke with code `k`; if `0x01000000 ≤ k ≤ 0x0110FFFF`, exactly one
event is appended, with code `k & 0xFFFFFF`, an ASCII keystroke when `k < 0x01000080` and
a multibyte keystroke otherwise.  This holds whatever the value of `orig_keysym`. -/
theorem key_press_character_keysym (env : lisp_env)
    (orig_keysym data serial time key state : Nat) (st : wlc_state) (focus k : Nat)
    (hwf : st.event_q.wf) (hpress : state ≠ WL_KEYBOARD_KEY_STATE_RELEASED)
    (hfocus : (st.displays data).x_focus_frame = some focus)
    (hsym : (st.displays data).xkb_state.key_get_one_sym ((key + 8) % 2 ^ 32) = k) :
    (32 ≤ k ∧ k < 128 →
      ∃ ev, (wl_keyboard_key env orig_keysym data serial time key state st).event_q.queued
            = st.event_q.queued ++ [ev]
          ∧ ev.kind = event_kind.ASCII_KEYSTROKE_EVENT ∧ ev.code = k)
    ∧ (0x01000000 ≤ k ∧ k ≤ 0x0110FFFF →
      ∃ ev, (wl_keyboard_key env orig_keysym data serial time key state st).event_q.queued
            = st.event_q.queued ++ [ev]
          ∧ ev.kind = (if k < 0x01000080 then event_kind.ASCII_KEYSTROKE_EVENT
              else event_kind.MULTIBYTE_CHAR_KEYSTROKE_EVENT)
          ∧ ev.code = k &&& 0xFFFFFF) := by
  rw [wl_keyboard_key_press env orig_keysym data serial time key state st focus hpress hfocus]
  subst hsym
  constructor
  · intro hk
    obtain ⟨h1, h2⟩ := key_event_ascii env orig_keysym (st.displays data) focus time _ hk
    refine ⟨_, ?_, h1, h2⟩
    rw [if_pos (by rw [h1]; decide)]
    exact (evq_enqueue_queued _ st hwf).2
  · intro hk
    obtain ⟨h1, h2⟩ := key_event_unicode env orig_keysym (st.displays data) focus time _ hk
    refine ⟨_, ?_, h1, h2⟩
    rw [if_pos (by rw [h1]; split_ifs <;> decide)]
    exact (evq_enqueue_queued _ st hwf).2

/-- Keysym 65 gives an ASCII keystroke with code 65, and keysym 0x01000041 an ASCII
keystroke with code 0x41. -/
theorem key_press_character_keysym_witness :
    (state_example.event_q.wf
      ∧ WL_KEYBOARD_KEY_STATE_PRESSED ≠ WL_KEYBOARD_KEY_STATE_RELEASED
      ∧ (state_example.displays 0).x_focus_frame = some 7
      ∧ (state_example.displays 0).xkb_state.key_get_one_sym ((65 + 8) % 2 ^ 32) = 65
      ∧ (state_example.displays 0).xkb_state.key_get_one_sym ((0x01000041 + 8) % 2 ^ 32)
          = 0x01000041)
    ∧ (∃ ev, (wl_keyboard_key emacs_env 0 0 1 1234 65 WL_KEYBOARD_KEY_STATE_PRESSED
            state_example).event_q.queued = state_example.event_q.queued ++ [ev]
          ∧ ev.kind = event_kind.ASCII_KEYSTROKE_EVENT ∧ ev.code = 65)
    ∧ (∃ ev, (wl_keyboard_key emacs_env 0 0 1 1234 0x01000041 WL_KEYBOARD_KEY_STATE_PRESSED
            state_example).event_q.queued = state_example.event_q.queued ++ [ev]
          ∧ ev.kind = (if 0x01000041 < 0x01000080 then event_kind.ASCII_KEYSTROKE_EVENT
              else event_kind.MULTIBYTE_CHAR_KEYSTROKE_EVENT)
          ∧ ev.code = 0x01000041 &&& 0xFFFFFF) :=
  ⟨⟨by decide, by decide, by decide, by decide, by decide⟩,
    (key_press_character_keysym emacs_env 0 0 1 1234 65 WL_KEYBOARD_KEY_STATE_PRESSED
      state_example 7 65 (by decide) (by decide) (by decide) (by decide)).1 (by decide),
    (key_press_character_keysym emacs_env 0 0 1 1234 0x01000041 WL_KEYBOARD_KEY_STATE_PRESSED
      state_example 7 0x01000041 (by decide) (by decide) (by decide) (by decide)).2
      (by decide)⟩

/-- C6. For a key press while a frame is focused, with `k` the keysym of the key: if `k`
lies in `[XKB_KEY_BackSpace, XKB_KEY_Escape]`, is `XKB_KEY_Delete`, lies in
`[XKB_KEY_ISO_Left_Tab, XKB_KEY_ISO_Enter]`, in `[0xff50, 0xff60)` or in `[0xff80, 0xffe1)`,
exactly one event is appended to the queue, a non-ASCII keystroke whose code is `k`.
This holds whatever the value of `orig_keysym`. -/
theorem key_press_function_keysym (env : lisp_env)
    (orig_keysym data serial time key state : Nat) (st : wlc_state) (focus k : Nat)
    (hwf : st.event_q.wf) (hpress : state ≠ WL_KEYBOARD_KEY_STATE_RELEASED)
    (hfocus : (st.displays data).x_focus_frame = some focus)
    (hsym : (st.displays data).xkb_state.key_get_one_sym ((key + 8) % 2 ^ 32) = k)
    (hk : (XKB_KEY_BackSpace ≤ k ∧ k ≤ XKB_KEY_Escape) ∨ k = XKB_KEY_Delete
      ∨ (XKB_KEY_ISO_Left_Tab ≤ k ∧ k ≤ XKB_KEY_ISO_Enter)
      ∨ (0xff50 ≤ k ∧ k < 0xff60) ∨ (0xff80 ≤ k ∧ k < 0xffe1)) :
    ∃ ev, (wl_keyboard_key env orig_keysym data serial time key state st).event_q.queued
          = st.event_q.queued ++ [ev]
        ∧ ev.kind = event_kind.NON_ASCII_KEYSTROKE_EVENT ∧ ev.code = k := by
  rw [wl_keyboard_key_press env orig_keysym data serial time key state st focus hpress hfocus]
  subst hsym
  simp only [XKB_KEY_BackSpace, XKB_KEY_Escape, XKB_KEY_Delete, XKB_KEY_ISO_Left_Tab,
    XKB_KEY_ISO_Enter] at hk
  have hrand : random_non_modifier_keysym
      ((st.displays data).xkb_state.key_get_one_sym ((key + 8) % 2 ^ 32)) orig_keysym
      = true := by
    simp only [random_non_modifier_keysym, decide_eq_true_eq, XKB_KEY_BackSpace,
      XKB_KEY_Escape, XKB_KEY_Delete, XKB_KEY_ISO_Left_Tab, XKB_KEY_ISO_Enter, ge_iff_le]
    rcases hk with h | h | h | h | h
    · exact Or.inl h
    · exact Or.inr (Or.inl h)
    · exact Or.inr (Or.inr (Or.inl h))
    · exact Or.inr (Or.inr (Or.inr (Or.inl h)))
    · rcases Nat.lt_or_ge ((st.displays data).xkb_state.key_get_one_sym ((key + 8) % 2 ^ 32))
        0xffbe with h2 | h2
      · iterate 16 apply Or.inr
        exact Or.inl ⟨h.1, h2⟩
      · iterate 17 apply Or.inr
        exact Or.inl ⟨h2, h.2⟩
  obtain ⟨h1, h2⟩ := key_event_non_ascii env orig_keysym (st.displays data) focus time _
    (by omega) (by omega) hrand
  refine ⟨_, ?_, h1, h2⟩
  rw [if_pos (by rw [h1]; decide)]
  exact (evq_enqueue_queued _ st hwf).2

/-- BackSpace gives a non-ASCII keystroke carrying the raw keysym 0xff08. -/
theorem key_press_function_keysym_witness :
    (state_example.event_q.wf
      ∧ WL_KEYBOARD_KEY_STATE_PRESSED ≠ WL_KEYBOARD_KEY_STATE_RELEASED
      ∧ (state_example.displays 0).x_focus_frame = some 7
      ∧ (state_example.displays 0).xkb_state.key_get_one_sym
          ((XKB_KEY_BackSpace + 8) % 2 ^ 32) = XKB_KEY_BackSpace)
    ∧ ∃ ev, (wl_keyboard_key emacs_env 0 0 1 1234 XKB_KEY_BackSpace
            WL_KEYBOARD_KEY_STATE_PRESSED state_example).event_q.queued
          = state_example.event_q.queued ++ [ev]
        ∧ ev.kind = event_kind.NON_ASCII_KEYSTROKE_EVENT ∧ ev.code = XKB_KEY_BackSpace :=
  ⟨⟨by decide, by decide, by decide, by decide⟩,
    key_press_function_keysym emacs_env 0 0 1 1234 XKB_KEY_BackSpace
      WL_KEYBOARD_KEY_STATE_PRESSED state_example 7 XKB_KEY_BackSpace
      (by decide) (by decide) (by decide) (by decide) (Or.inl (by decide))⟩

/-- C7, evaluated on the code.  A press of a key whose keysym is 0, in the same state:
nothing is enqueued when the unassigned local `orig_keysym` happens to hold 0, but a
non-ASCII keystroke with code 0 is enqueued when it happens to hold 0x10000000 (bit 28
set).  The outcome is therefore not a function of the keysym alone. -/
theorem key_press_keysym_zero_depends_on_orig_keysym :
    (wl_keyboard_key emacs_env 0 0 1 1234 0 WL_KEYBOARD_KEY_STATE_PRESSED
        state_example).event_q.queued = []
    ∧ (wl_keyboard_key emacs_env 0x10000000 0 1 1234 0 WL_KEYBOARD_KEY_STATE_PRESSED
        state_example).event_q.queued
      = [{ kind := event_kind.NON_ASCII_KEYSTROKE_EVENT, code := 0, modifiers := 0x6000000,
           frame_or_window := Lisp_Object.frame 7, timestamp := 1234,
           arg := Lisp_Object.Qnil }] := by
  decide

/-- C8, evaluated on the code.  With the unassigned local `orig_keysym` holding 0, a
press of the key with keysym `XKB_KEY_dead_circumflex` enqueues nothing, and so does a
press of a key whose keysym has the vendor-private bit `1 << 28` set: the tests at lines
900-915 read `orig_keysym`, not the keysym of the key. -/
theorem key_press_dead_keysym_not_enqueued :
    (wl_keyboard_key emacs_env 0 0 1 1234 XKB_KEY_dead_circumflex
        WL_KEYBOARD_KEY_STATE_PRESSED state_example).event_q.queued = []
    ∧ (wl_keyboard_key emacs_env 0 0 1 1234 0x10000000
        WL_KEYBOARD_KEY_STATE_PRESSED state_example).event_q.queued = [] := by
  decide

/-- C9. A key event whose state is "released" leaves the whole state unchanged, so
nothing is enqueued.  For any other key state, with frame `F` focused, server time
`time`, serialised depressed|latched modifier state `s` and extra modifiers `x`, the
events appended to the queue (at most one) all carry frame `F`, timestamp `time` and
modifiers `xkb_to_emacs_modifiers (d, s | emacs_to_xkb_modifiers (d, x))`; the masks and
`s` are 32-bit values, as their C types say. -/
theorem key_event_fields (env : lisp_env) (orig_keysym data serial time key : Nat)
    (st : wlc_state) (F : Nat)
    (hwf : st.event_q.wf) (hfocus : (st.displays data).x_focus_frame = some F)
    (hfit : (st.displays data).masks_fit)
    (hs : (st.displays data).xkb_state.serialize_mods
      (XKB_STATE_DEPRESSED ||| XKB_STATE_LATCHED) < 2 ^ 32) :
    wl_keyboard_key env orig_keysym data serial time key WL_KEYBOARD_KEY_STATE_RELEASED st = st
    ∧ ∀ state, state ≠ WL_KEYBOARD_KEY_STATE_RELEASED →
      ∃ evs, (wl_keyboard_key env orig_keysym data serial time key state st).event_q.queued
            = st.event_q.queued ++ evs
          ∧ evs.length ≤ 1
          ∧ ∀ ev ∈ evs, ev.frame_or_window = Lisp_Object.frame F ∧ ev.timestamp = time
              ∧ ev.modifiers = xkb_to_emacs_modifiers env (st.displays data)
                  ((st.displays data).xkb_state.serialize_mods
                      (XKB_STATE_DEPRESSED ||| XKB_STATE_LATCHED)
                    ||| emacs_to_xkb_modifiers env (st.displays data)
                      env.extra_keyboard_modifiers) := by
  constructor
  · simp [wl_keyboard_key]
  · intro state hpress
    rw [wl_keyboard_key_press env orig_keysym data serial time key state st F hpress hfocus]
    obtain ⟨c1, c2, c3⟩ :=
      key_event_common env orig_keysym (st.displays data) F time ((key + 8) % 2 ^ 32)
    have hlt := Nat.or_lt_two_pow hs
      (emacs_to_xkb_lt env (st.displays data) env.extra_keyboard_modifiers hfit)
    rw [Nat.mod_eq_of_lt hlt] at c3
    split_ifs with hkind
    · refine ⟨[_], (evq_enqueue_queued _ st hwf).2, by simp, ?_⟩
      intro ev hev
      rw [List.mem_singleton] at hev
      subst hev
      exact ⟨c1, c2, c3⟩
    · exact ⟨[], by simp, by simp, by simp⟩

/-- Key 65 pressed at time 1234 with frame 7 focused and Shift and Control held. -/
theorem key_event_fields_witness :
    (state_example.event_q.wf ∧ (state_example.displays 0).x_focus_frame = some 7
      ∧ (state_example.displays 0).masks_fit
      ∧ (state_example.displays 0).xkb_state.serialize_mods
          (XKB_STATE_DEPRESSED ||| XKB_STATE_LATCHED) < 2 ^ 32)
    ∧ wl_keyboard_key emacs_env 0 0 1 1234 65 WL_KEYBOARD_KEY_STATE_RELEASED state_example
        = state_example
    ∧ ∀ state, state ≠ WL_KEYBOARD_KEY_STATE_RELEASED →
      ∃ evs, (wl_keyboard_key emacs_env 0 0 1 1234 65 state state_example).event_q.queued
            = state_example.event_q.queued ++ evs
          ∧ evs.length ≤ 1
          ∧ ∀ ev ∈ evs, ev.frame_or_window = Lisp_Object.frame 7 ∧ ev.timestamp = 1234
              ∧ ev.modifiers = xkb_to_emacs_modifiers emacs_env (state_example.displays 0)
                  ((state_example.displays 0).xkb_state.serialize_mods
                      (XKB_STATE_DEPRESSED ||| XKB_STATE_LATCHED)
                    ||| emacs_to_xkb_modifiers emacs_env (state_example.displays 0)
                      emacs_env.extra_keyboard_modifiers) :=
  ⟨⟨by decide, by decide, by decide, by decide⟩,
    key_event_fields emacs_env 0 0 1 1234 65 state_example 7
      (by decide) (by decide) (by decide) (by decide)⟩

/-! ## Toplevel configure -/

section configure_lemmas

/-- The handler `xdg_toplevel_configure` never writes the flag `wait_for_configure`. -/
lemma xdg_toplevel_configure_flag (data : Nat) (width height : Int) (st : wlc_state)
    (g : Nat) :
    ((xdg_toplevel_configure data width height st).frames g).output_data.wait_for_configure
      = (st.frames g).output_data.wait_for_configure := by
  unfold xdg_toplevel_configure
  by_cases hz : width = 0 ∨ height = 0
  · rw [if_pos hz]
  · rw [if_neg hz]
    simp only [heap_set]
    by_cases hg : g = data
    · subst hg
      rw [if_pos rfl]
      cases hwait : (st.frames g).output_data.wait_for_configure
      · simp only [hwait, Bool.not_false, if_true]
        split_ifs <;> rfl
      · simp [hwait]
    · rw [if_neg hg]

/-- Storing an event in the queue leaves every frame as it is. -/
lemma evq_enqueue_frames (ev : input_event) (st : wlc_state) :
    (evq_enqueue ev st).frames = st.frames := by
  unfold evq_enqueue
  simp only
  split
  · split
    · split <;> rfl
    · rfl
  · rfl

/-- A close request leaves every frame as it is. -/
lemma xdg_toplevel_close_frames (f : Option Nat) (st : wlc_state) :
    (xdg_toplevel_close f st).frames = st.frames := by
  unfold xdg_toplevel_close wlc_handle_xdg_toplevel_close
  cases f with
  | none => simp
  | some f => simp [evq_enqueue_frames]

end configure_lemmas

/-- C11. When `xdg_toplevel_configure` is received with width 0 or height 0, the whole
state is left as it was: in particular the frame's stored pixel width and height, its
`wait_for_configure` flag and its viewport, on which no request is sent. -/
theorem xdg_toplevel_configure_zero (data : Nat) (width height : Int) (st : wlc_state)
    (h : width = 0 ∨ height = 0) :
    xdg_toplevel_configure data width height st = st
    ∧ ((xdg_toplevel_configure data width height st).frames data).pixel_width
        = (st.frames data).pixel_width
    ∧ ((xdg_toplevel_configure data width height st).frames data).pixel_height
        = (st.frames data).pixel_height
    ∧ ((xdg_toplevel_configure data width height st).frames data).output_data.wait_for_configure
        = (st.frames data).output_data.wait_for_configure
    ∧ ((xdg_toplevel_configure data width height st).frames data).output_data.viewport.set_destination
        = (st.frames data).output_data.viewport.set_destination := by
  have heq : xdg_toplevel_configure data width height st = st := by
    simp only [xdg_toplevel_configure, h, if_true]
  rw [heq]
  exact ⟨rfl, rfl, rfl, rfl, rfl⟩

/-- A configure for 0x0 on a frame that waits for its configure. -/
theorem xdg_toplevel_configure_zero_witness :
    ((0 : Int) = 0 ∨ (0 : Int) = 0)
    ∧ xdg_toplevel_configure 3 0 0 state_example = state_example
    ∧ ((xdg_toplevel_configure 3 0 0 state_example).frames 3).pixel_width
        = (state_example.frames 3).pixel_width
    ∧ ((xdg_toplevel_configure 3 0 0 state_example).frames 3).pixel_height
        = (state_example.frames 3).pixel_height
    ∧ ((xdg_toplevel_configure 3 0 0 state_example).frames 3).output_data.wait_for_configure
        = (state_example.frames 3).output_data.wait_for_configure
    ∧ ((xdg_toplevel_configure 3 0 0 state_example).frames 3).output_data.viewport.set_destination
        = (state_example.frames 3).output_data.viewport.set_destination :=
  ⟨Or.inl rfl, xdg_toplevel_configure_zero 3 0 0 state_example (Or.inl rfl)⟩

/-! ## Toplevel close -/

/-- C12. For every frame `f`, a toplevel close request appends exactly one event to the
back of the queue, a window-delete event whose `frame_or_window` is `f`, with the events
queued before left in place and in order, and `wlc_handle_xdg_toplevel_close` returns
true; with no frame, it returns true and the state is unchanged. -/
theorem toplevel_close_enqueues_delete (f : Nat) (st : wlc_state) (hwf : st.event_q.wf) :
    (wlc_handle_xdg_toplevel_close (some f) st).1 = true
    ∧ (wlc_handle_xdg_toplevel_close (some f) st).2.event_q.queued
        = st.event_q.queued ++
          [{ EVENT_INIT with kind := event_kind.DELETE_WINDOW_EVENT,
                             frame_or_window := Lisp_Object.frame f }]
    ∧ (xdg_toplevel_close (some f) st).event_q.queued
        = st.event_q.queued ++
          [{ EVENT_INIT with kind := event_kind.DELETE_WINDOW_EVENT,
                             frame_or_window := Lisp_Object.frame f }]
    ∧ wlc_handle_xdg_toplevel_close none st = (true, st)
    ∧ xdg_toplevel_close none st = st := by
  have h := (evq_enqueue_queued
    { EVENT_INIT with kind := event_kind.DELETE_WINDOW_EVENT,
                      frame_or_window := Lisp_Object.frame f } st hwf).2
  refine ⟨rfl, ?_, ?_, rfl, rfl⟩
  · simpa [wlc_handle_xdg_toplevel_close, EVENT_INIT] using h
  · simpa [xdg_toplevel_close, wlc_handle_xdg_toplevel_close, EVENT_INIT] using h

/-- A close request for frame 7 when the queue already holds the events 0, 1, 2. -/
theorem toplevel_close_enqueues_delete_witness :
    ({ state_example with event_q := queue_012 } : wlc_state).event_q.wf
    ∧ (wlc_handle_xdg_toplevel_close (some 7)
        { state_example with event_q := queue_012 }).1 = true
    ∧ (wlc_handle_xdg_toplevel_close (some 7)
        { state_example with event_q := queue_012 }).2.event_q.queued
        = ({ state_example with event_q := queue_012 } : wlc_state).event_q.queued ++
          [{ EVENT_INIT with kind := event_kind.DELETE_WINDOW_EVENT,
                             frame_or_window := Lisp_Object.frame 7 }]
    ∧ (xdg_toplevel_close (some 7) { state_example with event_q := queue_012 }).event_q.queued
        = ({ state_example with event_q := queue_012 } : wlc_state).event_q.queued ++
          [{ EVENT_INIT with kind := event_kind.DELETE_WINDOW_EVENT,
                             frame_or_window := Lisp_Object.frame 7 }]
    ∧ wlc_handle_xdg_toplevel_close none { state_example with event_q := queue_012 }
        = (true, { state_example with event_q := queue_012 })
    ∧ xdg_toplevel_close none { state_example with event_q := queue_012 }
        = { state_example with event_q := queue_012 } :=
  ⟨by decide,
    toplevel_close_enqueues_delete 7 { state_example with event_q := queue_012 } (by decide)⟩

/-! ## Pointer and touch accumulators -/

section pointer_frame_lemmas

/-- With an axis source among the four of the protocol, every read of the name array is
within the array. -/
lemma wl_pointer_frame_reads_ok (event : wlc_pointer_event) (h : event.axis_source < 4) :
    wl_pointer_frame_reads event = true := by
  unfold wl_pointer_frame_reads
  simp only [decide_eq_true h]
  by_cases hm : event.event_mask &&& (POINTER_EVENT_AXIS ||| POINTER_EVENT_AXIS_SOURCE
      ||| POINTER_EVENT_AXIS_STOP ||| POINTER_EVENT_AXIS_DISCRETE) ≠ 0
  · rw [if_pos hm, List.all_eq_true]
    intro i _
    cases event.axes[i]? with
    | none => rfl
    | some a =>
      simp only
      split_ifs <;> rfl
  · rw [if_neg hm]

/-- No handler but `wl_pointer_axis_source` writes the axis source. -/
lemma dispatch_axis_source_lt (d : wlc_display_info) (e : pointer_sub_event)
    (h : d.pointer_event.axis_source < 4) (he : e.axis_source_ok) :
    (pointer_sub_event.dispatch d e).pointer_event.axis_source < 4 := by
  cases e with
  | enter serial f x y => exact h
  | leave serial => exact h
  | motion time x y => exact h
  | button serial time b state => exact h
  | axis time a value => exact h
  | axis_source src => exact he
  | axis_stop time a => exact h
  | axis_discrete a discrete => exact h

lemma foldl_dispatch_axis_source_lt (evs : List pointer_sub_event) :
    ∀ d : wlc_display_info, d.pointer_event.axis_source < 4 →
      (∀ e ∈ evs, e.axis_source_ok) →
      (evs.foldl pointer_sub_event.dispatch d).pointer_event.axis_source < 4 := by
  induction evs with
  | nil => intro d h _; exact h
  | cons e evs ih =>
    intro d h hok
    rw [List.foldl_cons]
    exact ih _ (dispatch_axis_source_lt d e h (hok e (List.mem_cons_self _ _)))
      (fun x hx => hok x (List.mem_cons_of_mem _ hx))

end pointer_frame_lemmas

/-- C14. Whatever the touch table holds, after `wl_touch_frame` no slot is valid, and
the table has as many slots as before; in particular, after a contact was put down
(which allocates a slot for it) and the frame terminator arrived, no slot is valid. -/
theorem touch_frame_frees_slots (dpyinfo : wlc_display_info) :
    (∀ p ∈ (wl_touch_frame dpyinfo).touch_event.points, p.valid = false)
    ∧ (wl_touch_frame dpyinfo).touch_event.points.length = dpyinfo.touch_event.points.length
    ∧ ∀ (serial time : Nat) (id x y : Int),
        ∀ p ∈ (wl_touch_frame (wl_touch_down dpyinfo serial time id x y)).touch_event.points,
          p.valid = false := by
  have key : ∀ d : wlc_display_info, ∀ p ∈ (wl_touch_frame d).touch_event.points,
      p.valid = false := by
    intro d p hp
    simp only [wl_touch_frame, List.mem_map] at hp
    obtain ⟨q, _, rfl⟩ := hp
    cases hq : q.valid <;> simp [hq]
  refine ⟨key dpyinfo, ?_, ?_⟩
  · simp [wl_touch_frame]
  · intro serial time id x y
    exact key _

/-- A full table of ten valid slots is all invalid after the frame terminator. -/
theorem touch_frame_frees_slots_witness :
    (display_touch_full.touch_event.points.map (fun p => p.valid)
        = List.replicate 10 true)
    ∧ (∀ p ∈ (wl_touch_frame display_touch_full).touch_event.points, p.valid = false)
    ∧ (wl_touch_frame display_touch_full).touch_event.points.length
        = display_touch_full.touch_event.points.length
    ∧ ∀ (serial time : Nat) (id x y : Int),
        ∀ p ∈ (wl_touch_frame
            (wl_touch_down display_touch_full serial time id x y)).touch_event.points,
          p.valid = false :=
  ⟨by decide, touch_frame_frees_slots display_touch_full⟩

/-- C15, evaluated on the code.  On a new connection contact 5 is put down and moved,
and a frame terminator reports it: slot 0 is then invalid but still holds identifier 5
and the event mask 6.  The next sub-event for contact 5, an "up", is given slot 0 again
by `get_touch_point`, which matches the identifier of the freed slot and returns before
marking anything valid: afterwards slot 0 is still not valid, its event mask is still
6 (the motion bit 4 is left over from before the frame terminator), and no slot of the
table is valid. -/
theorem touch_reuse_returns_stale_slot :
    display_touch_reported.touch_event.points[0]?
        = some { valid := false, id := 5, event_mask := 6, surface_x := 2816,
                 surface_y := 5376, major := 0, minor := 0, orientation := 0 }
    ∧ get_touch_point display_touch_reported.touch_event 5
        = (some 0, display_touch_reported.touch_event)
    ∧ (wl_touch_up display_touch_reported 2 30 5).touch_event.points[0]?
        = some { valid := false, id := 5, event_mask := 6, surface_x := 2816,
                 surface_y := 5376, major := 0, minor := 0, orientation := 0 }
    ∧ (wl_touch_up display_touch_reported 2 30 5).touch_event.points.all
        (fun p => !p.valid) = true := by
  decide

lemma get_touch_point_scan_full (id : Int) (ps : List wlc_touch_point)
    (h : ∀ p ∈ ps, p.valid = true ∧ p.id ≠ id) :
    ∀ (i : Nat) (invalid : Int), get_touch_point_scan id ps i invalid = (none, invalid) := by
  induction ps with
  | nil => intro i invalid; rfl
  | cons p ps ih =>
    intro i invalid
    have hp := h p (List.mem_cons_self _ _)
    have hps : ∀ q ∈ ps, q.valid = true ∧ q.id ≠ id :=
      fun q hq => h q (List.mem_cons_of_mem _ hq)
    simp only [get_touch_point_scan, hp.2, if_false, hp.1, Bool.true_eq_false, and_false]
    exact ih hps (i + 1) invalid

/-- C16. If every slot of the touch table is valid and holds an identifier different
from `id`, then `get_touch_point` returns no slot for `id` and leaves the table as it
is, and each of the handlers for down, up, motion, shape and orientation, called with
`id`, leaves the connection (so the whole touch accumulator) unchanged. -/
theorem touch_table_full_drops (dpyinfo : wlc_display_info) (id : Int)
    (h : ∀ p ∈ dpyinfo.touch_event.points, p.valid = true ∧ p.id ≠ id) :
    get_touch_point dpyinfo.touch_event id = (none, dpyinfo.touch_event)
    ∧ (∀ (serial time : Nat) (x y : Int), wl_touch_down dpyinfo serial time id x y = dpyinfo)
    ∧ (∀ serial time : Nat, wl_touch_up dpyinfo serial time id = dpyinfo)
    ∧ (∀ (time : Nat) (x y : Int), wl_touch_motion dpyinfo time id x y = dpyinfo)
    ∧ (∀ major minor : Int, wl_touch_shape dpyinfo id major minor = dpyinfo)
    ∧ (∀ orientation : Int, wl_touch_orientation dpyinfo id orientation = dpyinfo) := by
  have hget : get_touch_point dpyinfo.touch_event id = (none, dpyinfo.touch_event) := by
    simp only [get_touch_point, get_touch_point_scan_full id _ h 0 (-1), if_true]
  refine ⟨hget, ?_, ?_, ?_, ?_, ?_⟩
  · intro serial time x y; simp only [wl_touch_down, hget]
  · intro serial time; simp only [wl_touch_up, hget]
  · intro time x y; simp only [wl_touch_motion, hget]
  · intro major minor; simp only [wl_touch_shape, hget]
  · intro orientation; simp only [wl_touch_orientation, hget]

/-- The table holds the contacts 1 to 10, all valid, and contact 42 arrives. -/
theorem touch_table_full_drops_witness :
    (∀ p ∈ display_touch_full.touch_event.points, p.valid = true ∧ p.id ≠ 42)
    ∧ get_touch_point display_touch_full.touch_event 42
        = (none, display_touch_full.touch_event)
    ∧ (∀ (serial time : Nat) (x y : Int),
        wl_touch_down display_touch_full serial time 42 x y = display_touch_full)
    ∧ (∀ serial time : Nat, wl_touch_up display_touch_full serial time 42 = display_touch_full)
    ∧ (∀ (time : Nat) (x y : Int),
        wl_touch_motion display_touch_full time 42 x y = display_touch_full)
    ∧ (∀ major minor : Int, wl_touch_shape display_touch_full 42 major minor = display_touch_full)
    ∧ (∀ orientation : Int,
        wl_touch_orientation display_touch_full 42 orientation = display_touch_full) :=
  ⟨by decide, touch_table_full_drops display_touch_full 42 (by decide)⟩

/-! ## Keymap delivery -/

lemma shl_one_lt (undef : Nat → Nat) (n : Nat) : shl_one undef n < 2 ^ 32 := by
  unfold shl_one
  split_ifs with h
  · exact Nat.pow_lt_pow_right (by norm_num) (by omega)
  · exact Nat.mod_lt _ (by norm_num)

lemma and_uint32_not_and (a m : Nat) (hm : m < 2 ^ 32) : (a &&& uint32_not m) &&& m = 0 := by
  apply Nat.eq_of_testBit_eq
  intro i
  simp only [uint32_not, Nat.testBit_and, Nat.testBit_xor, Nat.testBit_two_pow_sub_one,
    Nat.zero_testBit]
  by_cases hi : i < 32
  · simp [hi]
  · have hge : 2 ^ 32 ≤ 2 ^ i := Nat.pow_le_pow_right (by norm_num) (by omega)
    have : m.testBit i = false := Nat.testBit_lt_two_pow (by omega)
    simp [this]

/-- C19. Whatever layout `wl_keyboard_keymap` is handed (in the XKB v1 format, the only
one it accepts), it returns, and afterwards the Alt mask and the Meta mask of the
connection share no bit; the Meta mask is the one computed for "Meta", or the one
computed for "Mod1" if that was 0, so a bit that is both Alt and Meta stays in Meta.
This holds whatever a shift by an out-of-range count produces. -/
theorem keymap_alt_meta_disjoint (undef : Nat → Nat) (keymap : xkb_keymap)
    (dpyinfo : wlc_display_info) :
    ∃ d, wl_keyboard_keymap undef (some keymap) WL_KEYBOARD_KEYMAP_FORMAT_XKB_V1 dpyinfo
        = some d
      ∧ d.alt_mod_mask &&& d.meta_mod_mask = 0
      ∧ d.meta_mod_mask
          = (if shl_one undef (keymap.mod_get_index "Meta") = 0
              then shl_one undef (keymap.mod_get_index "Mod1")
              else shl_one undef (keymap.mod_get_index "Meta")) := by
  simp only [wl_keyboard_keymap, ne_eq, not_true_eq_false, if_false]
  refine ⟨_, rfl, ?_, ?_⟩
  · by_cases hm : shl_one undef (keymap.mod_get_index "Meta") = 0
    · simp [hm]
    · simp only [hm, if_false]
      by_cases ha : shl_one undef (keymap.mod_get_index "Mod1")
          &&& shl_one undef (keymap.mod_get_index "Meta") = 0
      · simp [ha]
      · simp only [ha, not_false_eq_true, if_true]
        exact and_uint32_not_and _ _ (shl_one_lt undef _)
  · by_cases hm : shl_one undef (keymap.mod_get_index "Meta") = 0
    · simp [hm]
    · simp only [hm, if_false]
      split_ifs <;> rfl

/-- A layout in which Mod1 and Meta are the same modifier: the handler returns and the
Alt and Meta masks it leaves share no bit. -/
theorem keymap_alt_meta_disjoint_witness :
    ∃ d, wl_keyboard_keymap shift_count_mod_32 (some keymap_meta_is_mod1)
          WL_KEYBOARD_KEYMAP_FORMAT_XKB_V1 display_zero = some d
      ∧ d.alt_mod_mask &&& d.meta_mod_mask = 0
      ∧ d.meta_mod_mask
          = (if shl_one shift_count_mod_32 (keymap_meta_is_mod1.mod_get_index "Meta") = 0
              then shl_one shift_count_mod_32 (keymap_meta_is_mod1.mod_get_index "Mod1")
              else shl_one shift_count_mod_32 (keymap_meta_is_mod1.mod_get_index "Meta")) :=
  keymap_alt_meta_disjoint shift_count_mod_32 keymap_meta_is_mod1 display_zero

/-- C20, evaluated on the code.  The layout has no modifier named "Meta", so the lookup
yields `XKB_MOD_INVALID` and the Meta mask is computed as `1 << 0xffffffff`.  Where a
shift takes its count modulo 32 this is 0x80000000, not 0: the test `! meta_mod_mask`
at line 791 fails, the Meta mask stays 0x80000000 and the Alt mask stays the Mod1 mask
8, which is not promoted. -/
theorem keymap_without_meta_not_promoted :
    keymap_no_meta.mod_get_index "Meta" = XKB_MOD_INVALID
    ∧ shl_one shift_count_mod_32 (keymap_no_meta.mod_get_index "Mod1") = 8
    ∧ (wl_keyboard_keymap shift_count_mod_32 (some keymap_no_meta)
          WL_KEYBOARD_KEYMAP_FORMAT_XKB_V1 display_zero).map
        (fun d => (d.meta_mod_mask, d.alt_mod_mask))
      = some (0x80000000, 8) := by
  decide

/-! ## Display names and connection lookup -/

section display_name_lemmas

lemma same_x_server_eq_loop (sys name1 name2 : List Char) :
    same_x_server sys name1 name2
      = same_x_server_loop (skip_host sys name1) (skip_host sys name2) false := rfl

lemma skip_system_name_colon (sys : List Char) (n : Nat) (r : List Char)
    (hsys : sys.head? ≠ some ':') (hn : n ≤ sys.length) :
    skip_system_name sys n (':' :: r) = ':' :: r := by
  unfold skip_system_name
  cases n with
  | zero => simp
  | succ k =>
    cases sys with
    | nil => simp at hn
    | cons c cs =>
      have hc : c ≠ ':' := by simpa using hsys
      have : strncmp_eq (':' :: r) (c :: cs) (k + 1) = false := by
        simp [strncmp_eq, List.take, Ne.symm hc]
      simp [this]

lemma length_until_period_le (sys : List Char) : length_until_period sys ≤ sys.length := by
  unfold length_until_period
  exact (List.takeWhile_sublist _).length_le

lemma skip_unix_colon (r : List Char) :
    (if strncmp_eq (':' :: r) ['u', 'n', 'i', 'x', ':'] 5 then (':' :: r).drop 4 else ':' :: r)
      = ':' :: r := by
  have : strncmp_eq (':' :: r) ['u', 'n', 'i', 'x', ':'] 5 = false := by
    simp [strncmp_eq, List.take]
  simp [this]

lemma skip_host_colon (sys r : List Char) (hsys : sys.head? ≠ some ':') :
    skip_host sys (':' :: r) = ':' :: r := by
  unfold skip_host
  simp only
  rw [skip_unix_colon, skip_system_name_colon sys _ r hsys (le_refl _),
    skip_system_name_colon sys _ r hsys (length_until_period_le sys)]

lemma skip_system_name_prefix (sys X r : List Char) (hX : sys.take X.length = X) :
    skip_system_name sys X.length (X ++ ':' :: r) = ':' :: r := by
  unfold skip_system_name
  have h1 : strncmp_eq (X ++ ':' :: r) sys X.length = true := by
    simp [strncmp_eq, hX]
  have h2 : cstr_at (X ++ ':' :: r) X.length = ':' := by
    unfold cstr_at
    rw [List.getD_append_right _ _ _ _ (le_refl _)]
    simp
  simp [h1, h2]

lemma skip_host_unix (sys r : List Char) (hsys : sys.head? ≠ some ':') :
    skip_host sys (['u', 'n', 'i', 'x'] ++ ':' :: r) = ':' :: r := by
  have h := skip_host_colon sys r hsys
  unfold skip_host at h ⊢
  simp only at h ⊢
  rw [skip_unix_colon] at h
  have hfire : strncmp_eq (['u', 'n', 'i', 'x'] ++ ':' :: r) ['u', 'n', 'i', 'x', ':'] 5
      = true := by
    simp [strncmp_eq, List.take]
  rw [if_pos hfire]
  exact h

/-- A name made of `X`, a colon and a rest starts with "unix:" only if `X` is "unix" or
`X` itself starts with "unix:". -/
lemma unix_prefix_cases (X r : List Char)
    (hfire : strncmp_eq (X ++ ':' :: r) ['u', 'n', 'i', 'x', ':'] 5 = true) :
    X = ['u', 'n', 'i', 'x'] ∨ X.take 5 = ['u', 'n', 'i', 'x', ':'] := by
  simp only [strncmp_eq, beq_iff_eq] at hfire
  rcases X with _ | ⟨a, _ | ⟨b, _ | ⟨c, _ | ⟨d, _ | ⟨e, t⟩⟩⟩⟩⟩
  · simp [List.take] at hfire
  · simp [List.take] at hfire
  · simp [List.take] at hfire
  · simp [List.take] at hfire
  · left
    simp [List.take] at hfire
    obtain ⟨h1, h2, h3, h4⟩ := hfire
    simp [h1, h2, h3, h4]
  · right
    simp [List.take] at hfire ⊢
    exact hfire

lemma skip_host_self (sys r : List Char) (hsys : sys.head? ≠ some ':')
    (hunix : sys.take 5 ≠ ['u', 'n', 'i', 'x', ':']) :
    skip_host sys (sys ++ ':' :: r) = ':' :: r := by
  by_cases hfire : strncmp_eq (sys ++ ':' :: r) ['u', 'n', 'i', 'x', ':'] 5 = true
  · rcases unix_prefix_cases sys r hfire with h | h
    · have hu := skip_host_unix sys r hsys
      rw [← h] at hu
      exact hu
    · exact absurd h hunix
  · unfold skip_host
    simp only
    rw [if_neg hfire, skip_system_name_prefix sys sys r (List.take_length sys),
      skip_system_name_colon sys _ r hsys (length_until_period_le sys)]

lemma skip_host_short (sys r : List Char) (hsys : sys.head? ≠ some ':')
    (hunix : sys.take 5 ≠ ['u', 'n', 'i', 'x', ':']) :
    skip_host sys (sys.takeWhile (fun c => c != '.') ++ ':' :: r) = ':' :: r := by
  have hsplit := List.takeWhile_append_dropWhile (fun c => c != '.') sys
  cases hdrop : sys.dropWhile (fun c => c != '.') with
  | nil =>
    rw [hdrop, List.append_nil] at hsplit
    rw [hsplit]
    exact skip_host_self sys r hsys hunix
  | cons c tail =>
    rw [hdrop] at hsplit
    have hc : c = '.' := by
      have := List.head_dropWhile_not (fun c => c != '.') sys (by rw [hdrop]; simp)
      simpa [hdrop] using this
    subst hc
    generalize hshort : sys.takeWhile (fun c => c != '.') = short at hsplit ⊢
    have hlup : length_until_period sys = short.length := by
      unfold length_until_period; rw [hshort]
    have htake : sys.take short.length = short := by
      rw [← hsplit, List.take_left]
    by_cases hfire : strncmp_eq (short ++ ':' :: r) ['u', 'n', 'i', 'x', ':'] 5 = true
    · rcases unix_prefix_cases short r hfire with h | h
      · rw [h]
        exact skip_host_unix sys r hsys
      · exfalso
        apply hunix
        have hlen : 5 ≤ short.length := by
          have := congrArg List.length h
          simp only [List.length_take, List.length_cons, List.length_nil] at this
          omega
        rw [← hsplit, List.take_append_of_le_length hlen, h]
    · have hstep2 : skip_system_name sys sys.length (short ++ ':' :: r)
          = short ++ ':' :: r := by
        unfold skip_system_name
        have hne : strncmp_eq (short ++ ':' :: r) sys sys.length = false := by
          simp only [strncmp_eq, beq_eq_false_iff_ne, ne_eq]
          intro heq
          rw [List.take_length] at heq
          have hlen : sys.length = short.length + (tail.length + 1) := by
            rw [← hsplit]; simp
          rw [List.take_append_eq_append_take, List.take_of_length_le (by omega)] at heq
          nth_rewrite 2 [← hsplit] at heq
          have h2 := List.append_cancel_left heq
          have hk : sys.length - short.length = tail.length + 1 := by omega
          rw [hk] at h2
          simp [List.take] at h2
        simp [hne]
      unfold skip_host
      simp only
      rw [if_neg hfire, hstep2, hlup, skip_system_name_prefix sys short r htake]

lemma skip_host_alias (sys P r : List Char) (hsys : sys.head? ≠ some ':')
    (hunix : sys.take 5 ≠ ['u', 'n', 'i', 'x', ':']) (hP : P ∈ host_aliases sys) :
    skip_host sys (P ++ ':' :: r) = ':' :: r := by
  simp only [host_aliases, List.mem_cons, List.mem_singleton, List.not_mem_nil, or_false] at hP
  rcases hP with h | h | h | h
  · subst h; exact skip_host_colon sys r hsys
  · subst h; exact skip_host_unix sys r hsys
  · subst h; exact skip_host_self P r hsys hunix
  · subst h; exact skip_host_short sys r hsys hunix

lemma nul_ne_period : NUL ≠ '.' := by decide

lemma nul_ne_colon : NUL ≠ ':' := by decide

lemma same_x_server_loop_cons_match (c : Char) (n1 n2 : List Char) (seen : Bool)
    (hc : c ≠ NUL) :
    same_x_server_loop (c :: n1) (c :: n2) seen
      = if ((if c = ':' then true else seen) && c == '.') then true
        else same_x_server_loop n1 n2 (if c = ':' then true else seen) := by
  rw [same_x_server_loop, if_pos ⟨hc, rfl⟩]
  rfl

lemma same_x_server_loop_cons_stop (c : Char) (n1 n2 : List Char) (seen : Bool)
    (h : ¬ (c ≠ NUL ∧ c = cstr_at n2 0)) :
    same_x_server_loop (c :: n1) n2 seen = same_x_server_return seen c (cstr_at n2 0) := by
  rw [same_x_server_loop, if_neg h]

lemma same_x_server_loop_same_display (D S1 S2 : List Char) (hD : '.' ∉ D)
    (h1 : S1 = [] ∨ S1.head? = some '.') (h2 : S2 = [] ∨ S2.head? = some '.') :
    same_x_server_loop (D ++ S1) (D ++ S2) true = true := by
  induction D with
  | nil =>
    simp only [List.nil_append]
    cases S1 with
    | nil =>
      cases S2 with
      | nil => decide
      | cons c s2 =>
        have hc : c = '.' := by simpa using h2
        subst hc
        show same_x_server_return true NUL '.' = true
        decide
    | cons c s1 =>
      have hc : c = '.' := by simpa using h1
      subst hc
      cases S2 with
      | nil =>
        rw [same_x_server_loop_cons_stop _ _ _ _ (fun h => absurd h.2 (by decide))]
        decide
      | cons c2 s2 =>
        have hc2 : c2 = '.' := by simpa using h2
        subst hc2
        rw [same_x_server_loop_cons_match _ _ _ _ (Ne.symm nul_ne_period)]
        rfl
  | cons d D ih =>
    have hd : d ≠ '.' := fun h => hD (by simp [h])
    have hD2 : '.' ∉ D := fun h => hD (List.mem_cons_of_mem _ h)
    simp only [List.cons_append]
    by_cases hnul : d = NUL
    · rw [same_x_server_loop_cons_stop _ _ _ _ (fun h => h.1 hnul), hnul]
      show same_x_server_return true NUL NUL = true
      decide
    · rw [same_x_server_loop_cons_match _ _ _ _ hnul]
      have hseen : (if d = ':' then true else true) = true := by split_ifs <;> rfl
      have hdot : (d == '.') = false := by simpa using hd
      rw [hseen, hdot]
      exact ih hD2

lemma getD_ne_colon (D : List Char) (k : Nat) (hD : ':' ∉ D) : D.getD k NUL ≠ ':' := by
  rw [List.getD_eq_getElem?_getD]
  cases hk : D[k]? with
  | none => exact nul_ne_colon
  | some x =>
    intro hx
    have hmem : x ∈ D := List.getElem?_mem hk
    have hx2 : x = ':' := hx
    exact hD (hx2 ▸ hmem)

lemma skip_system_name_no_colon (sys D : List Char) (n : Nat) (hD : ':' ∉ D) :
    skip_system_name sys n (':' :: D) = ':' :: D := by
  unfold skip_system_name
  cases n with
  | zero => simp
  | succ k =>
    have h : (cstr_at (':' :: D) (k + 1) == ':') = false := by
      have := getD_ne_colon D k hD
      simpa [cstr_at] using this
    rw [h, Bool.and_false]
    rfl

lemma skip_host_no_colon (sys D : List Char) (hD : ':' ∉ D) :
    skip_host sys (':' :: D) = ':' :: D := by
  unfold skip_host
  simp only
  rw [skip_unix_colon, skip_system_name_no_colon sys D _ hD,
    skip_system_name_no_colon sys D _ hD]

lemma same_x_server_loop_eq (D1 : List Char) :
    ∀ D2 : List Char, '.' ∉ D1 → NUL ∉ D1 → '.' ∉ D2 → NUL ∉ D2 →
      same_x_server_loop D1 D2 true = true → D1 = D2 := by
  induction D1 with
  | nil =>
    intro D2 _ _ hp2 hn2 h
    cases D2 with
    | nil => rfl
    | cons c t =>
      exfalso
      have hc1 : (c == '.') = false := by
        have : c ≠ '.' := fun hc => hp2 (by simp [hc])
        simpa using this
      have hc2 : (c == NUL) = false := by
        have : c ≠ NUL := fun hc => hn2 (by simp [hc])
        simpa using this
      have h3 : same_x_server_return true NUL c = true := h
      unfold same_x_server_return at h3
      rw [hc1, hc2] at h3
      simp at h3
  | cons d D1 ih =>
    intro D2 hp1 hn1 hp2 hn2 h
    have hd1 : d ≠ '.' := fun hc => hp1 (by simp [hc])
    have hd2 : d ≠ NUL := fun hc => hn1 (by simp [hc])
    have hb1 : (d == '.') = false := by simpa using hd1
    have hb2 : (d == NUL) = false := by simpa using hd2
    by_cases heq : d = cstr_at D2 0
    · cases D2 with
      | nil => exact absurd heq hd2
      | cons c t =>
        have hc : d = c := heq
        subst hc
        rw [same_x_server_loop_cons_match _ _ _ _ hd2] at h
        have hseen : (if d = ':' then true else true) = true := by split_ifs <;> rfl
        rw [hseen, hb1] at h
        have h4 : same_x_server_loop D1 t true = true := h
        rw [ih t (fun hc => hp1 (List.mem_cons_of_mem _ hc))
          (fun hc => hn1 (List.mem_cons_of_mem _ hc))
          (fun hc => hp2 (List.mem_cons_of_mem _ hc))
          (fun hc => hn2 (List.mem_cons_of_mem _ hc)) h4]
    · exfalso
      rw [same_x_server_loop_cons_stop _ _ _ _ (fun hc => heq hc.2)] at h
      unfold same_x_server_return at h
      rw [hb1, hb2] at h
      simp at h

lemma same_x_server_loop_colon (n1 n2 : List Char) :
    same_x_server_loop (':' :: n1) (':' :: n2) false = same_x_server_loop n1 n2 true := by
  rw [same_x_server_loop_cons_match _ _ _ _ (Ne.symm nul_ne_colon)]
  rfl

lemma find_first_named (displays : Nat → wlc_display_info) (name : List Char) (a : Nat)
    (post : List Nat) (ha : (displays a).name = name) :
    ∀ pre : List Nat, (∀ b ∈ pre, (displays b).name ≠ name) →
      (pre ++ a :: post).find? (fun d => (displays d).name == name) = some a := by
  intro pre
  induction pre with
  | nil => intro _; simp [ha]
  | cons b pre ih =>
    intro h
    have hb : ((displays b).name == name) = false := by
      simpa using h b (List.mem_cons_self _ _)
    rw [List.cons_append, List.find?_cons, hb]
    exact ih (fun c hc => h c (List.mem_cons_of_mem _ hc))

lemma find_none_named (displays : Nat → wlc_display_info) (name : List Char) :
    ∀ l : List Nat, (∀ b ∈ l, (displays b).name ≠ name) →
      l.find? (fun d => (displays d).name == name) = none := by
  intro l
  induction l with
  | nil => intro _; rfl
  | cons b l ih =>
    intro h
    have hb : ((displays b).name == name) = false := by
      simpa using h b (List.mem_cons_self _ _)
    rw [List.find?_cons, hb]
    exact ih (fun c hc => h c (List.mem_cons_of_mem _ hc))

lemma wlc_term_init_opened (env : wayland_env) (name : List Char) (st : wlc_state)
    (display : Nat) (hconn : env.wl_display_connect name = some display)
    (hglob : env.globals_bound = true) (hcol : env.color_map_loaded = true) :
    ∃ st2, wlc_term_init env name st
        = term_init_result.returned (some (env.xzalloc st.x_display_list)) st2
      ∧ st2.x_display_list = env.xzalloc st.x_display_list :: st.x_display_list
      ∧ (st2.displays (env.xzalloc st.x_display_list)).name = name := by
  simp only [wlc_term_init, hconn, hglob, hcol, Bool.not_true, Bool.false_eq_true, if_false]
  cases List.find? (fun share => same_x_server env.system_name (st.displays share).name name)
      st.x_display_list with
  | some share => exact ⟨_, rfl, rfl, by simp [heap_set]⟩
  | none =>
    simp only
    split_ifs
    · exact ⟨_, rfl, rfl, by simp [heap_set]⟩
    · exact ⟨_, rfl, rfl, by simp [heap_set]⟩

end display_name_lemmas

/-- C17, as stated, fails.  One connection is open, under the name "unix:0", and
`same_x_server` holds of "unix:0" and ":0".  The lookup of ":0" does not return that
connection: it opens a second one (at address 1, put at the head of the list), or, if
the server cannot be reached, returns no connection at all. -/
theorem display_lookup_same_server_counterexample :
    state_one_display.x_display_list = [0]
    ∧ (state_one_display.displays 0).name = "unix:0".toList
    ∧ same_x_server wayland_env_example.system_name "unix:0".toList ":0".toList = true
    ∧ (wlc_display_info_for_name wayland_env_example ":0".toList
        state_one_display).connection = some 1
    ∧ (wlc_display_info_for_name wayland_env_example ":0".toList
        state_one_display).display_list = some [1, 0]
    ∧ (wlc_display_info_for_name
        { wayland_env_example with wl_display_connect := fun _ => none } ":0".toList
        state_one_display).connection = none := by
  decide

/-- C17, amended.  The lookup of a connection by a display name returns an existing
connection, and opens no new one, when the name of a connection in the list is equal
to the given name as a string: it returns the first such connection and leaves the
state unchanged.  When no connection in the list has that very name (whether or not
`same_x_server` relates it to the name of one) the lookup calls `wlc_term_init`, with one
of three outcomes.  If the server cannot be reached, an error is signalled and the state
is unchanged.  If it can be reached but the compositor, the window-manager base or the
decoration manager was not bound (the three `assert`s) or the colour file cannot be read
(`fatal`), the process is terminated.  Otherwise the connection returned is a new one,
put at the head of the list and carrying the given name. -/
theorem display_lookup_by_name (env : wayland_env) (name : List Char) (st : wlc_state) :
    (∀ (pre : List Nat) (a : Nat) (post : List Nat),
      st.x_display_list = pre ++ a :: post →
      (∀ b ∈ pre, (st.displays b).name ≠ name) → (st.displays a).name = name →
      wlc_display_info_for_name env name st = display_lookup_result.returned a st)
    ∧ ((∀ b ∈ st.x_display_list, (st.displays b).name ≠ name) →
      (env.wl_display_connect name = none →
        wlc_display_info_for_name env name st = display_lookup_result.error st)
      ∧ (∀ display, env.wl_display_connect name = some display →
          (env.globals_bound = false ∨ env.color_map_loaded = false) →
          wlc_display_info_for_name env name st = display_lookup_result.aborted)
      ∧ (∀ display, env.wl_display_connect name = some display →
          env.globals_bound = true → env.color_map_loaded = true →
          ∃ st2, wlc_display_info_for_name env name st
              = display_lookup_result.returned (env.xzalloc st.x_display_list) st2
            ∧ st2.x_display_list = env.xzalloc st.x_display_list :: st.x_display_list
            ∧ (st2.displays (env.xzalloc st.x_display_list)).name = name)) := by
  constructor
  · intro pre a post hlist hpre ha
    unfold wlc_display_info_for_name
    rw [hlist, find_first_named st.displays name a post ha pre hpre]
  · intro hnone
    have hfind := find_none_named st.displays name st.x_display_list hnone
    refine ⟨?_, ?_, ?_⟩
    · intro hconn
      unfold wlc_display_info_for_name
      rw [hfind]
      simp only [wlc_term_init, hconn]
    · intro display hconn habort
      have hinit : wlc_term_init env name st = term_init_result.aborted := by
        simp only [wlc_term_init, hconn]
        rcases habort with h | h
        · simp [h]
        · cases hg : env.globals_bound <;> simp [h]
      unfold wlc_display_info_for_name
      rw [hfind, hinit]
    · intro display hconn hglob hcol
      obtain ⟨st2, hinit, hlist, hname⟩ :=
        wlc_term_init_opened env name st display hconn hglob hcol
      refine ⟨st2, ?_, hlist, hname⟩
      unfold wlc_display_info_for_name
      rw [hfind, hinit]

/-- The lookup of "unix:0" when a connection of that very name is open; and the lookup
of ":0" when none is: with the server out of reach, with the colour file unreadable,
and with everything in order. -/
theorem display_lookup_by_name_witness :
    (state_one_display.x_display_list = [] ++ 0 :: []
      ∧ (∀ b ∈ ([] : List Nat), (state_one_display.displays b).name ≠ "unix:0".toList)
      ∧ (state_one_display.displays 0).name = "unix:0".toList
      ∧ (∀ b ∈ state_one_display.x_display_list,
          (state_one_display.displays b).name ≠ ":0".toList))
    ∧ wlc_display_info_for_name wayland_env_example "unix:0".toList state_one_display
        = display_lookup_result.returned 0 state_one_display
    ∧ wlc_display_info_for_name
        { wayland_env_example with wl_display_connect := fun _ => none } ":0".toList
        state_one_display
        = display_lookup_result.error state_one_display
    ∧ wlc_display_info_for_name
        { wayland_env_example with color_map_loaded := false } ":0".toList state_one_display
        = display_lookup_result.aborted
    ∧ ∃ st2, wlc_display_info_for_name wayland_env_example ":0".toList state_one_display
          = display_lookup_result.returned
              (wayland_env_example.xzalloc state_one_display.x_display_list) st2
        ∧ st2.x_display_list
            = wayland_env_example.xzalloc state_one_display.x_display_list
                :: state_one_display.x_display_list
        ∧ (st2.displays (wayland_env_example.xzalloc state_one_display.x_display_list)).name
            = ":0".toList :=
  ⟨⟨by decide, by decide, by decide, by decide⟩,
    (display_lookup_by_name wayland_env_example "unix:0".toList state_one_display).1
      [] 0 [] (by decide) (by decide) (by decide),
    ((display_lookup_by_name { wayland_env_example with wl_display_connect := fun _ => none }
      ":0".toList state_one_display).2 (by decide)).1 rfl,
    ((display_lookup_by_name { wayland_env_example with color_map_loaded := false }
      ":0".toList state_one_display).2 (by decide)).2.1 1 rfl (Or.inr rfl),
    ((display_lookup_by_name wayland_env_example ":0".toList state_one_display).2
      (by decide)).2.2 1 rfl rfl rfl⟩

/-- C18, as stated, fails for some system names.  On a host whose system name is
"unix:a", the names "unix:a:0" (the system name as host part) and ":0" are not found to
name the same server: the leading "unix" of the first is skipped as if it were the
whole host part. -/
theorem same_x_server_aliases_counterexample :
    "unix:a".toList ∈ host_aliases "unix:a".toList
    ∧ same_x_server "unix:a".toList ("unix:a".toList ++ ':' :: ("0".toList ++ []))
        ([] ++ ':' :: ("0".toList ++ [])) = false := by
  decide

/-- C18, amended.  Let the system name begin neither with a colon nor with "unix:".
For host parts `P1`, `P2` each among none, "unix", the system name and the system name
cut at its first period, a display number `D` without a period, and suffixes `S1`, `S2`
each empty or beginning with a period, `same_x_server` holds of `P1:D S1` and `P2:D S2`.
And whatever the system name, for display numbers `D1 ≠ D2` that contain no colon, no
period and no NUL, `same_x_server` does not hold of `:D1` and `:D2`. -/
theorem same_x_server_aliases (sys : List Char) :
    (sys.head? ≠ some ':' → sys.take 5 ≠ ['u', 'n', 'i', 'x', ':'] →
      ∀ P1 P2 D S1 S2 : List Char, P1 ∈ host_aliases sys → P2 ∈ host_aliases sys →
        '.' ∉ D → (S1 = [] ∨ S1.head? = some '.') → (S2 = [] ∨ S2.head? = some '.') →
        same_x_server sys (P1 ++ ':' :: (D ++ S1)) (P2 ++ ':' :: (D ++ S2)) = true)
    ∧ (∀ D1 D2 : List Char, ':' ∉ D1 → '.' ∉ D1 → NUL ∉ D1 →
        ':' ∉ D2 → '.' ∉ D2 → NUL ∉ D2 → D1 ≠ D2 →
        same_x_server sys (':' :: D1) (':' :: D2) = false) := by
  constructor
  · intro hsys hunix P1 P2 D S1 S2 hP1 hP2 hD h1 h2
    rw [same_x_server_eq_loop, skip_host_alias sys P1 _ hsys hunix hP1,
      skip_host_alias sys P2 _ hsys hunix hP2, same_x_server_loop_colon]
    exact same_x_server_loop_same_display D S1 S2 hD h1 h2
  · intro D1 D2 hc1 hp1 hn1 hc2 hp2 hn2 hne
    rw [same_x_server_eq_loop, skip_host_no_colon sys D1 hc1, skip_host_no_colon sys D2 hc2,
      same_x_server_loop_colon]
    cases h : same_x_server_loop D1 D2 true with
    | false => rfl
    | true => exact absurd (same_x_server_loop_eq D1 D2 hp1 hn1 hp2 hn2 h) hne

/-- On the host "host.example.org": "unix:0" and ":0.1" name the same server, ":0" and
":1" do not, and neither do ":0" and ":00". -/
theorem same_x_server_aliases_witness :
    ("host.example.org".toList.head? ≠ some ':'
      ∧ "host.example.org".toList.take 5 ≠ ['u', 'n', 'i', 'x', ':']
      ∧ "unix".toList ∈ host_aliases "host.example.org".toList
      ∧ ([] : List Char) ∈ host_aliases "host.example.org".toList)
    ∧ same_x_server "host.example.org".toList ("unix".toList ++ ':' :: ("0".toList ++ []))
        ([] ++ ':' :: ("0".toList ++ ".1".toList)) = true
    ∧ same_x_server "host.example.org".toList (':' :: "0".toList) (':' :: "1".toList) = false
    ∧ same_x_server "host.example.org".toList (':' :: "0".toList) (':' :: "00".toList)
        = false :=
  ⟨⟨by decide, by decide, by decide, by decide⟩,
    (same_x_server_aliases "host.example.org".toList).1 (by decide) (by decide)
      "unix".toList [] "0".toList [] ".1".toList (by decide) (by decide) (by decide)
      (Or.inl rfl) (Or.inr (by decide)),
    (same_x_server_aliases "host.example.org".toList).2 "0".toList "1".toList
      (by decide) (by decide) (by decide) (by decide) (by decide) (by decide) (by decide),
    (same_x_server_aliases "host.example.org".toList).2 "0".toList "00".toList
      (by decide) (by decide) (by decide) (by decide) (by decide) (by decide) (by decide)⟩

/-! ## Keyboard focus -/

/-- C21. The handler `wl_keyboard_enter` for the surface of frame `F` makes `F` the
focused frame of the connection.  The handler `wl_keyboard_leave` for the surface of
frame `F` clears the focused frame if it is `F` at that moment, and otherwise leaves the
connection as it is; so the focused frame becomes none by a leave for `F` exactly when
it was `F` (or was none already), and a leave for a frame that is no longer focused
does not touch the current focus. -/
theorem keyboard_focus_tracking (dpyinfo : wlc_display_info) (F : Nat) :
    (wl_keyboard_enter dpyinfo (some F)).x_focus_frame = some F
    ∧ (dpyinfo.x_focus_frame = some F →
        (wl_keyboard_leave dpyinfo (some F)).x_focus_frame = none)
    ∧ (dpyinfo.x_focus_frame ≠ some F → wl_keyboard_leave dpyinfo (some F) = dpyinfo)
    ∧ (∀ G : Nat, G ≠ F →
        (wl_keyboard_leave (wl_keyboard_enter (wl_keyboard_enter dpyinfo (some F)) (some G))
          (some F)).x_focus_frame = some G) := by
  refine ⟨rfl, ?_, ?_, ?_⟩
  · intro h
    simp [wl_keyboard_leave, h]
  · intro h
    simp [wl_keyboard_leave, h]
  · intro G hG
    simp [wl_keyboard_leave, wl_keyboard_enter, hG]

/-- Frame 7 is focused: a leave for frame 7 clears the focus, a leave for frame 8 does
not. -/
theorem keyboard_focus_tracking_witness :
    (display_distinct.x_focus_frame = some 7 ∧ display_distinct.x_focus_frame ≠ some 8)
    ∧ (wl_keyboard_leave display_distinct (some 7)).x_focus_frame = none
    ∧ wl_keyboard_leave display_distinct (some 8) = display_distinct
    ∧ (wl_keyboard_enter display_distinct (some 8)).x_focus_frame = some 8 :=
  ⟨⟨by decide, by decide⟩,
    (keyboard_focus_tracking display_distinct 7).2.1 (by decide),
    (keyboard_focus_tracking display_distinct 8).2.2.1 (by decide),
    (keyboard_focus_tracking display_distinct 8).1⟩

/-! ## The time of the last interaction -/

/-- C22. When `evq_enqueue` is given an event that is neither a selection request nor
a selection clear and whose `frame_or_window` is the frame `f` (or a window of the
frame `f`), the last-interaction time of the connection of `f` becomes the maximum of
its former value and the timestamp of the event, so it never decreases, and every other
connection is left as it was.  For a selection request or a selection clear, no
connection is changed. -/
theorem enqueue_last_user_time (ev : input_event) (st : wlc_state) :
    (ev.kind ≠ event_kind.SELECTION_REQUEST_EVENT → ev.kind ≠ event_kind.SELECTION_CLEAR_EVENT →
      ∀ f : Nat,
        (ev.frame_or_window = Lisp_Object.frame f
          ∨ ∃ w, ev.frame_or_window = Lisp_Object.window w ∧ st.window_frame w = f) →
        ((evq_enqueue ev st).displays (st.frames f).output_data.display_info).last_user_time
            = max (st.displays (st.frames f).output_data.display_info).last_user_time
                ev.timestamp
          ∧ (st.displays (st.frames f).output_data.display_info).last_user_time
            ≤ ((evq_enqueue ev st).displays
                (st.frames f).output_data.display_info).last_user_time
          ∧ ∀ d, d ≠ (st.frames f).output_data.display_info →
              (evq_enqueue ev st).displays d = st.displays d)
    ∧ ((ev.kind = event_kind.SELECTION_REQUEST_EVENT
          ∨ ev.kind = event_kind.SELECTION_CLEAR_EVENT) →
        (evq_enqueue ev st).displays = st.displays) := by
  constructor
  · intro h1 h2 f hf
    have key : (evq_enqueue ev st).displays
        = if (st.displays (st.frames f).output_data.display_info).last_user_time < ev.timestamp
          then heap_set st.displays (st.frames f).output_data.display_info
            { st.displays (st.frames f).output_data.display_info with
              last_user_time := ev.timestamp }
          else st.displays := by
      rcases hf with hf | ⟨w, hf, hw⟩
      · simp only [evq_enqueue, h1, h2, hf, ne_eq, not_false_eq_true, and_self, if_true]
        split_ifs <;> rfl
      · simp only [evq_enqueue, h1, h2, hf, hw, ne_eq, not_false_eq_true, and_self, if_true]
        split_ifs <;> rfl
    rw [key]
    by_cases hlt : (st.displays (st.frames f).output_data.display_info).last_user_time
        < ev.timestamp
    · rw [if_pos hlt]
      refine ⟨?_, ?_, ?_⟩
      · rw [heap_set, if_pos rfl]
        exact (Nat.max_eq_right (Nat.le_of_lt hlt)).symm
      · rw [heap_set, if_pos rfl]
        exact Nat.le_of_lt hlt
      · intro d hd
        rw [heap_set, if_neg hd]
    · rw [if_neg hlt]
      refine ⟨?_, le_refl _, fun _ _ => rfl⟩
      exact (Nat.max_eq_left (Nat.le_of_not_lt hlt)).symm
  · intro h
    rcases h with h | h <;> simp [evq_enqueue, h]

/-- A keystroke for frame 3 with timestamp 99 while the last interaction was at time 0,
and a selection request with the same timestamp. -/
theorem enqueue_last_user_time_witness :
    ((event_kind.ASCII_KEYSTROKE_EVENT ≠ event_kind.SELECTION_REQUEST_EVENT
        ∧ event_kind.ASCII_KEYSTROKE_EVENT ≠ event_kind.SELECTION_CLEAR_EVENT)
      ∧ (state_example.displays (state_example.frames 3).output_data.display_info).last_user_time
          = 0)
    ∧ ((evq_enqueue
          { ascii_event 65 with frame_or_window := Lisp_Object.frame 3, timestamp := 99 }
          state_example).displays
            (state_example.frames 3).output_data.display_info).last_user_time
        = max (state_example.displays
                (state_example.frames 3).output_data.display_info).last_user_time 99
    ∧ (evq_enqueue
          { ascii_event 65 with kind := event_kind.SELECTION_REQUEST_EVENT,
                                frame_or_window := Lisp_Object.frame 3, timestamp := 99 }
          state_example).displays = state_example.displays :=
  ⟨⟨⟨by decide, by decide⟩, by decide⟩,
    ((enqueue_last_user_time
        { ascii_event 65 with frame_or_window := Lisp_Object.frame 3, timestamp := 99 }
        state_example).1 (by decide) (by decide) 3 (Or.inl rfl)).1,
    (enqueue_last_user_time
        { ascii_event 65 with kind := event_kind.SELECTION_REQUEST_EVENT,
                              frame_or_window := Lisp_Object.frame 3, timestamp := 99 }
        state_example).2 (Or.inl rfl)⟩

/-! ## The blocking wait -/

/-- C23, evaluated on the code.  While no connection is open the call does not return:
after `pselect` it reads `x_display_list->display` through the null `x_display_list`
(the test before `pselect` guards against that, the one after it does not).  With a
connection open it returns what `pselect` returned, and the calls are, in order,
prepare-read (with a dispatch of pending messages after each unsuccessful one), flush,
`pselect`, read-events, flush. -/
theorem wlc_select_without_connection :
    state_example.x_display_list = []
    ∧ wlc_select 0 1 state_example = none
    ∧ wlc_select 2 (-1) state_connected
      = some (-1, [wl_call.prepare_read 9, wl_call.dispatch_pending 9,
          wl_call.prepare_read 9, wl_call.dispatch_pending 9, wl_call.prepare_read 9,
          wl_call.flush 9, wl_call.pselect, wl_call.read_events 9, wl_call.flush 9]) := by
  decide

/-! ## Event masks of the accumulators -/

/-- C24, evaluated on the code.  After a frame terminator a single axis-discrete
sub-event arrives: the event mask is then `POINTER_EVENT_AXIS_STOP` (64); the bit
`POINTER_EVENT_AXIS_DISCRETE` (128) is not set, although an axis-discrete sub-event has
arrived, and the bit `POINTER_EVENT_AXIS_STOP` is set, although no axis-stop sub-event
has. -/
theorem pointer_axis_discrete_sets_stop_bit :
    (wl_pointer_frame display_zero).map
        (fun d => (wl_pointer_axis_discrete d 0 3).pointer_event.event_mask)
      = some POINTER_EVENT_AXIS_STOP
    ∧ (wl_pointer_frame display_zero).map
        (fun d => (wl_pointer_axis_discrete d 0 3).pointer_event.event_mask
          &&& POINTER_EVENT_AXIS_DISCRETE)
      = some 0
    ∧ (wl_pointer_frame display_zero).map
        (fun d => (wl_pointer_axis_discrete d 0 3).pointer_event.event_mask
          &&& POINTER_EVENT_AXIS_STOP)
      ≠ some 0 := by
  decide

/-- C25, evaluated on the code.  A touch-down for contact 5 on a new connection is
given slot 0; afterwards the event mask of that slot is `TOUCH_EVENT_UP` (2): the bit
`TOUCH_EVENT_DOWN` (1) is not set, and the bit of another kind of sub-event is.  The
coordinates stored are the arguments divided by 256. -/
theorem touch_down_sets_up_bit :
    (get_touch_point (wl_touch_down wlc_display_info_zero 1 10 5 2560 5120).touch_event 5).1
        = some 0
    ∧ (wl_touch_down wlc_display_info_zero 1 10 5 2560 5120).touch_event.points[0]?
        = some { valid := true, id := 5, event_mask := TOUCH_EVENT_UP, surface_x := 10,
                 surface_y := 20, major := 0, minor := 0, orientation := 0 }
    ∧ TOUCH_EVENT_UP &&& TOUCH_EVENT_DOWN = 0 := by
  decide

/-- C26, evaluated on the code.  On the zero-initialised table no valid slot carries
the identifier 0 and every slot is invalid, yet `get_touch_point` for the identifier 0
returns slot 0 with the table unchanged: the slot still has `valid == false`, because
the identifier 0 of the unused slot matches.  The same happens for the identifier of a
contact that a frame terminator has freed. -/
theorem get_touch_point_zero_id_not_marked :
    (wlc_touch_event_zero.points.all (fun p => !p.valid) = true)
    ∧ get_touch_point wlc_touch_event_zero 0 = (some 0, wlc_touch_event_zero)
    ∧ (get_touch_point wlc_touch_event_zero 0).2.points[0]? = some wlc_touch_point_zero
    ∧ wlc_touch_point_zero.valid = false
    ∧ (display_touch_reported.touch_event.points.all (fun p => !p.valid) = true)
    ∧ get_touch_point display_touch_reported.touch_event 5
        = (some 0, display_touch_reported.touch_event) := by
  decide

/-! ## The round trip of the modifier translators with no override set -/

/-- C28. Let the seven modifier masks of the connection (shift, shift-lock, control,
meta, alt, super, hyper) be pairwise disjoint, the six other than shift-lock nonzero,
and the four override preferences unset; the six host modifier constants are distinct
bits (nonzero, pairwise disjoint), as in termhooks.h.  Then for every host pattern `m`
that is a union of some of the shift, ctrl, meta, alt, super and hyper modifier bits,
`xkb_to_emacs_modifiers (d, emacs_to_xkb_modifiers (d, m)) = m`. -/
theorem xkb_host_roundtrip_no_override (env : lisp_env) (d : wlc_display_info)
    (b_shift b_ctrl b_meta b_alt b_super b_hyper : Bool)
    (hover : env.x_alt_keysym = none ∧ env.x_meta_keysym = none
      ∧ env.x_hyper_keysym = none ∧ env.x_super_keysym = none)
    (hconst_nz : ∀ v ∈ [env.alt_modifier, env.super_modifier, env.hyper_modifier,
      env.shift_modifier, env.ctrl_modifier, env.meta_modifier], v ≠ 0)
    (hconst : [env.alt_modifier, env.super_modifier, env.hyper_modifier,
      env.shift_modifier, env.ctrl_modifier, env.meta_modifier].Pairwise
        (fun a b => a &&& b = 0))
    (hmasks : [d.shift_mod_mask, d.shift_lock_mask, d.control_mod_mask, d.meta_mod_mask,
      d.alt_mod_mask, d.super_mod_mask, d.hyper_mod_mask].Pairwise
        (fun a b => a &&& b = 0))
    (hnz : ∀ v ∈ [d.shift_mod_mask, d.control_mod_mask, d.meta_mod_mask, d.alt_mod_mask,
      d.super_mod_mask, d.hyper_mod_mask], v ≠ 0) :
    xkb_to_emacs_modifiers env d
        (emacs_to_xkb_modifiers env d
          (pick b_shift env.shift_modifier ||| pick b_ctrl env.ctrl_modifier
            ||| pick b_meta env.meta_modifier ||| pick b_alt env.alt_modifier
            ||| pick b_super env.super_modifier ||| pick b_hyper env.hyper_modifier))
      = pick b_shift env.shift_modifier ||| pick b_ctrl env.ctrl_modifier
          ||| pick b_meta env.meta_modifier ||| pick b_alt env.alt_modifier
          ||| pick b_super env.super_modifier ||| pick b_hyper env.hyper_modifier := by
  obtain ⟨h1, h2, h3, h4⟩ := hover
  have henv : env.mods_ok := by
    refine ⟨?_, ?_, ?_⟩
    · simpa only [lisp_env.host_mods, h1, h2, h3, h4, modifier_value] using hconst_nz
    · simpa only [lisp_env.host_mods, h1, h2, h3, h4, modifier_value] using hconst
    · simp [h1, h2, h3, h4]
  have hd : d.masks_ok := by
    simp only [List.pairwise_cons, List.mem_cons, List.mem_singleton, forall_eq_or_imp,
      forall_eq, List.not_mem_nil, IsEmpty.forall_iff, implies_true, and_true,
      List.Pairwise.nil] at hmasks hnz
    obtain ⟨⟨s1, s2, s3, s4, s5, s6⟩, ⟨l2, l3, l4, l5, l6⟩, ⟨c3, c4, c5, c6⟩,
      ⟨m4, m5, m6⟩, ⟨a5, a6⟩, u6⟩ := hmasks
    obtain ⟨n1, n2, n3, n4, n5, n6⟩ := hnz
    refine ⟨?_, ?_, ?_⟩
    · simp only [wlc_display_info.mod_masks, List.mem_cons, List.mem_singleton,
        forall_eq_or_imp, forall_eq, List.not_mem_nil, IsEmpty.forall_iff, implies_true,
        and_true]
      exact ⟨n4, n5, n6, n1, n2, n3⟩
    · simp only [wlc_display_info.mod_masks, List.pairwise_cons, List.mem_cons,
        List.mem_singleton, forall_eq_or_imp, forall_eq, List.not_mem_nil,
        IsEmpty.forall_iff, implies_true, and_true, List.Pairwise.nil]
      refine ⟨⟨a5, a6, ?_, ?_, ?_⟩, ⟨u6, ?_, ?_, ?_⟩, ⟨?_, ?_, ?_⟩, ⟨s2, s3⟩, c3⟩
      · rw [Nat.land_comm]; exact s4
      · rw [Nat.land_comm]; exact c4
      · rw [Nat.land_comm]; exact m4
      · rw [Nat.land_comm]; exact s5
      · rw [Nat.land_comm]; exact c5
      · rw [Nat.land_comm]; exact m5
      · rw [Nat.land_comm]; exact s6
      · rw [Nat.land_comm]; exact c6
      · rw [Nat.land_comm]; exact m6
    · simp only [List.mem_cons, List.mem_singleton, forall_eq_or_imp, forall_eq,
        List.not_mem_nil, IsEmpty.forall_iff, implies_true, and_true]
      refine ⟨?_, ?_, ?_, ?_, ?_⟩
      · rw [Nat.land_comm]; exact l4
      · rw [Nat.land_comm]; exact l5
      · rw [Nat.land_comm]; exact l6
      · rw [Nat.land_comm]; exact l2
      · rw [Nat.land_comm]; exact l3
  have hu1 := emacs_to_xkb_union env d b_alt b_super b_hyper b_shift b_ctrl b_meta henv
  have hu2 := xkb_to_emacs_union env d b_alt b_super b_hyper b_shift b_ctrl b_meta henv hd
  simp only [h1, h2, h3, h4, modifier_value] at hu1 hu2
  have hperm : pick b_shift env.shift_modifier ||| pick b_ctrl env.ctrl_modifier
        ||| pick b_meta env.meta_modifier ||| pick b_alt env.alt_modifier
        ||| pick b_super env.super_modifier ||| pick b_hyper env.hyper_modifier
      = pick b_alt env.alt_modifier ||| pick b_super env.super_modifier
        ||| pick b_hyper env.hyper_modifier ||| pick b_shift env.shift_modifier
        ||| pick b_ctrl env.ctrl_modifier ||| pick b_meta env.meta_modifier := by
    ac_rfl
  rw [hperm, hu1, hu2]
  ac_rfl

/-- Stock Emacs with no override, a layout with a bit per modifier (shift 1, shift-lock
2, control 4, alt 8, meta 16, hyper 32, super 64), and the pattern shift+ctrl+super. -/
theorem xkb_host_roundtrip_no_override_witness :
    xkb_to_emacs_modifiers emacs_env display_distinct
        (emacs_to_xkb_modifiers emacs_env display_distinct
          (pick true emacs_env.shift_modifier ||| pick true emacs_env.ctrl_modifier
            ||| pick false emacs_env.meta_modifier ||| pick false emacs_env.alt_modifier
            ||| pick true emacs_env.super_modifier ||| pick false emacs_env.hyper_modifier))
      = pick true emacs_env.shift_modifier ||| pick true emacs_env.ctrl_modifier
          ||| pick false emacs_env.meta_modifier ||| pick false emacs_env.alt_modifier
          ||| pick true emacs_env.super_modifier ||| pick false emacs_env.hyper_modifier :=
  xkb_host_roundtrip_no_override emacs_env display_distinct true true false false true false
    (by decide) (by decide) (by decide) (by decide) (by decide)

/-! ## Growth of the event queue -/

section growth_lemmas

lemma cap_seq_ge (i : Nat) : 4 ≤ cap_seq i := by
  induction i with
  | zero => simp [cap_seq]
  | succ i ih => simp only [cap_seq]; omega

lemma cap_seq_lt_succ (i : Nat) : cap_seq i < cap_seq (i + 1) := by
  have h := cap_seq_ge i
  simp only [cap_seq]
  omega

lemma cap_seq_mono {i j : Nat} (h : i ≤ j) : cap_seq i ≤ cap_seq j := by
  induction h with
  | refl => exact le_refl _
  | step _ ih => exact le_trans ih (le_of_lt (cap_seq_lt_succ _))

/-- The capacity after lines 77-89 of `evq_enqueue`. -/
lemma evq_store_cap (ev : input_event) (evq : event_queue_t) :
    (evq_store ev evq).cap
      = if evq.cap = 0 then (if evq.nr ≥ 4 then 6 else 4)
        else if evq.nr ≥ evq.cap then evq.cap + evq.cap / 2 else evq.cap := by
  unfold evq_store
  by_cases hc : evq.cap = 0
  · by_cases hn : evq.nr ≥ 4 <;> simp [hc, hn]
  · by_cases hn : evq.nr ≥ evq.cap <;> simp [hc, hn]

lemma foldl_enqueue_event_q (es : List input_event) :
    ∀ st : wlc_state, (es.foldl (fun st e => evq_enqueue e st) st).event_q
      = es.foldl (fun q e => evq_store e q) st.event_q := by
  induction es with
  | nil => intro st; rfl
  | cons e rest ih =>
    intro st
    rw [List.foldl_cons, List.foldl_cons, ih, evq_enqueue_event_q]

/-- The state of the queue after the events `es` were stored into the empty queue. -/
lemma foldl_store_inv (es : List input_event) :
    (es.foldl (fun q e => evq_store e q) event_q_init).wf
    ∧ (es.foldl (fun q e => evq_store e q) event_q_init).nr = es.length
    ∧ (es = [] → (es.foldl (fun q e => evq_store e q) event_q_init).cap = 0)
    ∧ (es ≠ [] → ∃ i, (es.foldl (fun q e => evq_store e q) event_q_init).cap = cap_seq i
        ∧ es.length ≤ cap_seq i ∧ ∀ j, j < i → cap_seq j < es.length) := by
  induction es using List.reverseRecOn with
  | nil =>
    refine ⟨by decide, rfl, fun _ => rfl, fun h => absurd rfl h⟩
  | append_singleton l a ih =>
    obtain ⟨hwf, hnr, hnil, hcons⟩ := ih
    rw [List.foldl_append, List.foldl_cons, List.foldl_nil]
    have hs := evq_store_spec a _ hwf
    refine ⟨hs.1, ?_, ?_, ?_⟩
    · rw [hs.2.2, hnr, List.length_append]
      rfl
    · intro h
      simp at h
    · intro _
      rw [evq_store_cap, List.length_append, List.length_singleton]
      by_cases hl : l = []
      · subst hl
        have h0 := hnil rfl
        simp only [List.foldl_nil] at h0 hnr ⊢
        refine ⟨0, ?_, ?_, ?_⟩
        · rw [if_pos h0]
          decide
        · simp [cap_seq]
        · intro j hj
          omega
      · obtain ⟨i, hcap, hle, hleast⟩ := hcons hl
        have hge := cap_seq_ge i
        rw [hcap, hnr, if_neg (by omega)]
        by_cases hfull : l.length ≥ cap_seq i
        · rw [if_pos hfull]
          refine ⟨i + 1, rfl, ?_, ?_⟩
          · have := cap_seq_lt_succ i
            omega
          · intro j hj
            rcases Nat.lt_succ_iff_lt_or_eq.mp hj with hj | hj
            · have := hleast j hj
              omega
            · subst hj
              omega
        · rw [if_neg hfull]
          refine ⟨i, rfl, by omega, ?_⟩
          intro j hj
          have := hleast j hj
          omega

/-- The slot that lines 77-89 of `evq_enqueue` write is slot `nr` of the block, and it
lies within the block. -/
lemma evq_store_slot (ev : input_event) (evq : event_queue_t) (h : evq.wf) :
    (evq_store ev evq).q.length = (evq_store ev evq).cap
    ∧ evq.nr < (evq_store ev evq).cap
    ∧ (evq_store ev evq).q[evq.nr]? = some ev := by
  obtain ⟨hwf, hq, hnr⟩ := evq_store_spec ev evq h
  obtain ⟨hlen, hle, _⟩ := hwf
  refine ⟨hlen, by omega, ?_⟩
  have h1 : ((evq_store ev evq).q.take (evq.nr + 1))[evq.nr]? = some ev := by
    have := hq
    simp only [event_queue_t.queued, hnr] at this
    rw [this, List.getElem?_append_right (by rw [List.length_take]; omega)]
    have hl : (List.take evq.nr evq.q).length = evq.nr := by
      rw [List.length_take]
      have := h.1
      have := h.2.1
      omega
    rw [hl]
    simp
  rw [List.getElem?_take_of_lt (by omega)] at h1
  exact h1

end growth_lemmas

/-- C27. Start from the empty queue (`event_q` as statically initialised) and call
`evq_enqueue` for the events `es` with no drain in between.  Then `nr` is the number
`k` of events, `nr <= cap`, the block has `cap` slots, and for `k >= 1` the capacity is
the least term that is at least `k` of the sequence `cap_seq` (4, 6, 9, 13, 19, ...): it
is a term of the sequence, it is at least `k`, and every term that is at least `k` is
at least `cap`; it is 4 or at most `k + k / 2`, so that the `int` holding it does not
overflow while `k + k / 2` fits.  A further enqueue when `nr < cap` leaves `cap`
unchanged, and a further enqueue always writes its event into slot `nr`, which lies within the capacity the
block has at that moment. -/
theorem evq_capacity_growth (st : wlc_state) (es : List input_event)
    (hinit : st.event_q = event_q_init) :
    (es.foldl (fun st e => evq_enqueue e st) st).event_q.nr = es.length
    ∧ (es.foldl (fun st e => evq_enqueue e st) st).event_q.nr
        ≤ (es.foldl (fun st e => evq_enqueue e st) st).event_q.cap
    ∧ (es.foldl (fun st e => evq_enqueue e st) st).event_q.q.length
        = (es.foldl (fun st e => evq_enqueue e st) st).event_q.cap
    ∧ (1 ≤ es.length →
        (∃ i, (es.foldl (fun st e => evq_enqueue e st) st).event_q.cap = cap_seq i)
        ∧ es.length ≤ (es.foldl (fun st e => evq_enqueue e st) st).event_q.cap
        ∧ (∀ j, es.length ≤ cap_seq j →
            (es.foldl (fun st e => evq_enqueue e st) st).event_q.cap ≤ cap_seq j)
        ∧ ((es.foldl (fun st e => evq_enqueue e st) st).event_q.cap = 4
            ∨ (es.foldl (fun st e => evq_enqueue e st) st).event_q.cap
                ≤ es.length + es.length / 2))
    ∧ (∀ ev, (es.foldl (fun st e => evq_enqueue e st) st).event_q.nr
          < (es.foldl (fun st e => evq_enqueue e st) st).event_q.cap →
        (evq_enqueue ev (es.foldl (fun st e => evq_enqueue e st) st)).event_q.cap
          = (es.foldl (fun st e => evq_enqueue e st) st).event_q.cap)
    ∧ (∀ ev,
        (evq_enqueue ev (es.foldl (fun st e => evq_enqueue e st) st)).event_q.q.length
          = (evq_enqueue ev (es.foldl (fun st e => evq_enqueue e st) st)).event_q.cap
        ∧ (es.foldl (fun st e => evq_enqueue e st) st).event_q.nr
          < (evq_enqueue ev (es.foldl (fun st e => evq_enqueue e st) st)).event_q.cap
        ∧ (evq_enqueue ev (es.foldl (fun st e => evq_enqueue e st) st)).event_q.q[
            (es.foldl (fun st e => evq_enqueue e st) st).event_q.nr]? = some ev) := by
  obtain ⟨hwf, hnr, _, hcons⟩ := foldl_store_inv es
  simp only [evq_enqueue_event_q]
  rw [foldl_enqueue_event_q, hinit]
  refine ⟨hnr, hwf.2.1, hwf.1, ?_, ?_, ?_⟩
  · intro hk
    have hne : es ≠ [] := by
      intro h
      subst h
      simp at hk
    obtain ⟨i, hcap, hle, hleast⟩ := hcons hne
    refine ⟨⟨i, hcap⟩, by omega, ?_, ?_⟩
    · intro j hj
      rw [hcap]
      apply cap_seq_mono
      by_contra hij
      have := hleast j (by omega)
      omega
    · rw [hcap]
      cases i with
      | zero => exact Or.inl rfl
      | succ i =>
        right
        have := hleast i (Nat.lt_succ_self i)
        simp only [cap_seq]
        omega
  · intro ev hlt
    rw [evq_store_cap]
    rw [if_neg (by omega), if_neg (by omega)]
  · intro ev
    exact evq_store_slot ev _ hwf

/-- Five keystrokes stored into the empty queue: `nr = 5`, and the capacity is 6, the
least term of 4, 6, 9, ... that is at least 5. -/
theorem evq_capacity_growth_witness :
    (state_example.event_q = event_q_init ∧ 1 ≤ [ascii_event 1, ascii_event 2,
        ascii_event 3, ascii_event 4, ascii_event 5].length)
    ∧ ([ascii_event 1, ascii_event 2, ascii_event 3, ascii_event 4, ascii_event 5].foldl
        (fun st e => evq_enqueue e st) state_example).event_q.nr = 5
    ∧ ([ascii_event 1, ascii_event 2, ascii_event 3, ascii_event 4, ascii_event 5].foldl
        (fun st e => evq_enqueue e st) state_example).event_q.cap = 6
    ∧ (∃ i, ([ascii_event 1, ascii_event 2, ascii_event 3, ascii_event 4,
          ascii_event 5].foldl (fun st e => evq_enqueue e st) state_example).event_q.cap
        = cap_seq i) :=
  ⟨⟨by decide, by decide⟩,
    (evq_capacity_growth state_example
      [ascii_event 1, ascii_event 2, ascii_event 3, ascii_event 4, ascii_event 5]
      (by decide)).1,
    by decide,
    ((evq_capacity_growth state_example
      [ascii_event 1, ascii_event 2, ascii_event 3, ascii_event 4, ascii_event 5]
      (by decide)).2.2.2.1 (by decide)).1⟩

/-! ## Display names without a colon -/

section colon_lemmas

lemma same_x_server_return_seen (seen : Bool) (c1 c2 : Char)
    (h : same_x_server_return seen c1 c2 = true) : seen = true := by
  unfold same_x_server_return at h
  cases seen with
  | true => rfl
  | false => rw [Bool.false_and, Bool.false_and] at h; exact h

/-- The loop of `same_x_server` answers true only if a colon was seen before it or both
strings hold one. -/
lemma same_x_server_loop_true (n1 : List Char) :
    ∀ (n2 : List Char) (seen : Bool), same_x_server_loop n1 n2 seen = true →
      seen = true ∨ (':' ∈ n1 ∧ ':' ∈ n2) := by
  induction n1 with
  | nil =>
    intro n2 seen h
    rw [same_x_server_loop] at h
    exact Or.inl (same_x_server_return_seen _ _ _ h)
  | cons c1 n1 ih =>
    intro n2 seen h
    by_cases hc : c1 ≠ NUL ∧ c1 = cstr_at n2 0
    · cases n2 with
      | nil => exact absurd hc.2 hc.1
      | cons c2 t =>
        have h2 : c1 = c2 := hc.2
        subst h2
        rw [same_x_server_loop_cons_match _ _ _ _ hc.1] at h
        by_cases hcol : c1 = ':'
        · right
          subst hcol
          exact ⟨List.mem_cons_self _ _, List.mem_cons_self _ _⟩
        · rw [if_neg hcol] at h
          by_cases hs : (seen && c1 == '.') = true
          · left
            cases seen with
            | true => rfl
            | false => rw [Bool.false_and] at hs; exact hs
          · rw [if_neg hs] at h
            rcases ih t seen h with h | ⟨h1, h2⟩
            · exact Or.inl h
            · exact Or.inr ⟨List.mem_cons_of_mem _ h1, List.mem_cons_of_mem _ h2⟩
    · rw [same_x_server_loop_cons_stop _ _ _ _ hc] at h
      exact Or.inl (same_x_server_return_seen _ _ _ h)

lemma mem_skip_system_name (sys name : List Char) (n : Nat) (c : Char)
    (h : c ∈ skip_system_name sys n name) : c ∈ name := by
  unfold skip_system_name at h
  split_ifs at h
  · exact List.mem_of_mem_drop h
  · exact h

lemma mem_skip_host (sys name : List Char) (c : Char) (h : c ∈ skip_host sys name) :
    c ∈ name := by
  unfold skip_host at h
  have h1 := mem_skip_system_name _ _ _ _ (mem_skip_system_name _ _ _ _ h)
  split_ifs at h1
  · exact List.mem_of_mem_drop h1
  · exact h1

lemma same_x_server_colon (sys n1 n2 : List Char) (h : same_x_server sys n1 n2 = true) :
    ':' ∈ n1 ∧ ':' ∈ n2 := by
  rw [same_x_server_eq_loop] at h
  rcases same_x_server_loop_true _ _ _ h with h | ⟨h1, h2⟩
  · exact absurd h (by decide)
  · exact ⟨mem_skip_host _ _ _ h1, mem_skip_host _ _ _ h2⟩

lemma find_no_share (sys name : List Char) (displays : Nat → wlc_display_info)
    (hname : ':' ∉ name) :
    ∀ l : List Nat,
      l.find? (fun share => same_x_server sys (displays share).name name) = none := by
  intro l
  induction l with
  | nil => rfl
  | cons b l ih =>
    have hb : same_x_server sys (displays b).name name = false := by
      cases hs : same_x_server sys (displays b).name name with
      | false => rfl
      | true => exact absurd (same_x_server_colon _ _ _ hs).2 hname
    rw [List.find?_cons, hb]
    exact ih

end colon_lemmas

/-- C30. The function `same_x_server` answers true only if both names contain a colon.
So for a display name `name` without a colon (such as "wayland-0") it answers false
for the pair `(name, name)`, the search of `wlc_term_init` for a connection to share
the keyboard with finds none, whatever connections are open (one opened under the same
name included), and the new connection is given the keyboard `allocate_kboard` returns,
whose reference count alone is raised. -/
theorem same_x_server_needs_colon (env : wayland_env) (name : List Char) (st : wlc_state)
    (display : Nat) (hname : ':' ∉ name)
    (hconn : env.wl_display_connect name = some display)
    (hglob : env.globals_bound = true) (hcol : env.color_map_loaded = true) :
    (∀ n1 n2 : List Char, same_x_server env.system_name n1 n2 = true → ':' ∈ n1 ∧ ':' ∈ n2)
    ∧ same_x_server env.system_name name name = false
    ∧ st.x_display_list.find?
        (fun share => same_x_server env.system_name (st.displays share).name name) = none
    ∧ ∃ st2, wlc_term_init env name st
          = term_init_result.returned (some (env.xzalloc st.x_display_list)) st2
        ∧ st2.x_display_list = env.xzalloc st.x_display_list :: st.x_display_list
        ∧ st2.displays (env.xzalloc st.x_display_list)
            = { env.roundtrip
                  { wlc_display_info_zero with terminal_kboard := env.allocate_kboard } with
                name := name, display := some display }
        ∧ st2.kboard_reference_count
            = heap_set st.kboard_reference_count env.allocate_kboard
                (st.kboard_reference_count env.allocate_kboard + 1) := by
  have hfind := find_no_share env.system_name name st.displays hname st.x_display_list
  refine ⟨fun n1 n2 h => same_x_server_colon _ _ _ h, ?_, hfind, ?_⟩
  · cases hs : same_x_server env.system_name name name with
    | false => rfl
    | true => exact absurd (same_x_server_colon _ _ _ hs).1 hname
  · simp only [wlc_term_init, hconn, hglob, hcol, hfind, Bool.not_true, Bool.false_eq_true,
      if_false]
    split_ifs
    · exact ⟨_, rfl, rfl, by simp [heap_set], rfl⟩
    · exact ⟨_, rfl, rfl, by simp [heap_set], rfl⟩

/-- A second connection is opened under the name "wayland-0" while one opened under
that name, with the keyboard at address 40, exists: the new connection is not given
that keyboard. -/
theorem same_x_server_needs_colon_witness :
    (':' ∉ "wayland-0".toList
      ∧ (state_wayland_0.displays 0).name = "wayland-0".toList
      ∧ state_wayland_0.x_display_list = [0])
    ∧ same_x_server wayland_env_example.system_name "wayland-0".toList "wayland-0".toList
        = false
    ∧ state_wayland_0.x_display_list.find?
        (fun share => same_x_server wayland_env_example.system_name
          (state_wayland_0.displays share).name "wayland-0".toList) = none :=
  ⟨⟨by decide, by decide, by decide⟩,
    (same_x_server_needs_colon wayland_env_example "wayland-0".toList state_wayland_0 1
      (by decide) rfl rfl rfl).2.1,
    (same_x_server_needs_colon wayland_env_example "wayland-0".toList state_wayland_0 1
      (by decide) rfl rfl rfl).2.2.1⟩

/-! ## Contact identifiers of the valid slots -/

section touch_id_lemmas

lemma array_update_get {α : Type} (l : List α) (i j : Nat) (f : α → α) :
    (array_update l i f)[j]? = if j = i then (l[j]?).map f else l[j]? := by
  unfold array_update
  cases h : l[i]? with
  | none =>
    simp only
    by_cases hji : j = i
    · subst hji
      rw [if_pos rfl, h]
      rfl
    · rw [if_neg hji]
  | some x =>
    simp only
    rw [List.getElem?_set]
    by_cases hji : j = i
    · subst hji
      rcases Nat.lt_or_ge j l.length with hlt | hge
      · rw [if_pos rfl, if_pos hlt, if_pos rfl, h]
        rfl
      · rw [List.getElem?_eq_none hge] at h
        cases h
    · rw [if_neg (Ne.symm hji), if_neg hji]

/-- An assignment to a slot that changes neither `valid` nor `id`. -/
lemma array_update_distinct (l : List wlc_touch_point) (k : Nat)
    (f : wlc_touch_point → wlc_touch_point)
    (hv : ∀ p, (f p).valid = p.valid) (hi : ∀ p, (f p).id = p.id)
    (h : touch_ids_distinct l) : touch_ids_distinct (array_update l k f) := by
  have key : ∀ (j : Nat) (p : wlc_touch_point), (array_update l k f)[j]? = some p →
      ∃ p0, l[j]? = some p0 ∧ p.valid = p0.valid ∧ p.id = p0.id := by
    intro j p hp
    rw [array_update_get] at hp
    by_cases hjk : j = k
    · rw [if_pos hjk] at hp
      cases hl : l[j]? with
      | none => rw [hl] at hp; cases hp
      | some p0 =>
        rw [hl] at hp
        simp only [Option.map_some', Option.some.injEq] at hp
        subst hp
        exact ⟨p0, rfl, hv p0, hi p0⟩
    · rw [if_neg hjk] at hp
      exact ⟨p, hp, rfl, rfl⟩
  intro a b p q hp hq hab hpv hqv hid
  obtain ⟨p0, hp0, hpv0, hpi0⟩ := key a p hp
  obtain ⟨q0, hq0, hqv0, hqi0⟩ := key b q hq
  exact h a b p0 q0 hp0 hq0 hab (hpv0.symm.trans hpv) (hqv0.symm.trans hqv)
    (by rw [← hpi0, ← hqi0]; exact hid)

/-- A scan of `get_touch_point` that does not return from inside the loop has met no
slot with the identifier looked for. -/
lemma get_touch_point_scan_none (id : Int) (ps : List wlc_touch_point) :
    ∀ (i : Nat) (inv r : Int), get_touch_point_scan id ps i inv = (none, r) →
      ∀ p ∈ ps, p.id ≠ id := by
  induction ps with
  | nil =>
    intro _ _ _ _ p hp
    cases hp
  | cons a ps ih =>
    intro i inv r h p hp
    rw [get_touch_point_scan] at h
    by_cases ha : a.id = id
    · rw [if_pos ha] at h
      cases h
    · rw [if_neg ha] at h
      rcases List.mem_cons.mp hp with hpa | hp
      · rw [hpa]
        exact ha
      · exact ih _ _ _ h p hp

/-- The two assignments at the end of `get_touch_point`, for an identifier no slot
carries. -/
lemma alloc_distinct (l : List wlc_touch_point) (k : Nat) (id : Int)
    (hno : ∀ p ∈ l, p.id ≠ id) (h : touch_ids_distinct l) :
    touch_ids_distinct
      (array_update (array_update l k (fun p => { p with valid := true })) k
        (fun p => { p with id := id })) := by
  have key : ∀ (j : Nat) (p : wlc_touch_point),
      (array_update (array_update l k (fun p => { p with valid := true })) k
        (fun p => { p with id := id }))[j]? = some p →
      ∃ p0, l[j]? = some p0 ∧ ((j ≠ k ∧ p = p0) ∨ (j = k ∧ p.id = id)) := by
    intro j p hp
    rw [array_update_get, array_update_get] at hp
    by_cases hjk : j = k
    · rw [if_pos hjk, if_pos hjk] at hp
      cases hl : l[j]? with
      | none => rw [hl] at hp; cases hp
      | some p0 =>
        rw [hl] at hp
        simp only [Option.map_some', Option.some.injEq] at hp
        subst hp
        exact ⟨p0, rfl, Or.inr ⟨hjk, rfl⟩⟩
    · rw [if_neg hjk, if_neg hjk] at hp
      exact ⟨p, hp, Or.inl ⟨hjk, rfl⟩⟩
  intro a b p q hp hq hab hpv hqv hid
  obtain ⟨p0, hp0, hpc⟩ := key a p hp
  obtain ⟨q0, hq0, hqc⟩ := key b q hq
  rcases hpc with ⟨_, hpe⟩ | ⟨ha, hpid⟩
  · rcases hqc with ⟨_, hqe⟩ | ⟨_, hqid⟩
    · rw [hpe] at hpv hid
      rw [hqe] at hqv hid
      exact h a b p0 q0 hp0 hq0 hab hpv hqv hid
    · rw [hpe] at hid
      exact hno p0 (List.getElem?_mem hp0) (hid.trans hqid)
  · rcases hqc with ⟨_, hqe⟩ | ⟨hb, _⟩
    · rw [hqe] at hid
      exact hno q0 (List.getElem?_mem hq0) (hid.symm.trans hpid)
    · exact hab (ha.trans hb.symm)

lemma get_touch_point_distinct (touch : wlc_touch_event) (id : Int)
    (h : touch_ids_distinct touch.points) :
    touch_ids_distinct (get_touch_point touch id).2.points := by
  unfold get_touch_point
  cases hs : get_touch_point_scan id touch.points 0 (-1) with
  | mk o inv =>
    cases o with
    | some i => exact h
    | none =>
      simp only
      by_cases hinv : inv = -1
      · rw [if_pos hinv]
        exact h
      · rw [if_neg hinv]
        exact alloc_distinct _ _ _ (get_touch_point_scan_none id _ _ _ _ hs) h

lemma wl_touch_down_distinct (d : wlc_display_info) (serial time : Nat) (id x y : Int)
    (h : touch_ids_distinct d.touch_event.points) :
    touch_ids_distinct (wl_touch_down d serial time id x y).touch_event.points := by
  have hg := get_touch_point_distinct d.touch_event id h
  unfold wl_touch_down
  cases hs : get_touch_point d.touch_event id with
  | mk o t =>
    rw [hs] at hg
    cases o with
    | none => exact hg
    | some i =>
      exact array_update_distinct _ _ _ (fun _ => rfl) (fun _ => rfl)
        (array_update_distinct _ _ _ (fun _ => rfl) (fun _ => rfl) hg)

lemma wl_touch_up_distinct (d : wlc_display_info) (serial time : Nat) (id : Int)
    (h : touch_ids_distinct d.touch_event.points) :
    touch_ids_distinct (wl_touch_up d serial time id).touch_event.points := by
  have hg := get_touch_point_distinct d.touch_event id h
  unfold wl_touch_up
  cases hs : get_touch_point d.touch_event id with
  | mk o t =>
    rw [hs] at hg
    cases o with
    | none => exact hg
    | some i => exact array_update_distinct _ _ _ (fun _ => rfl) (fun _ => rfl) hg

lemma wl_touch_motion_distinct (d : wlc_display_info) (time : Nat) (id x y : Int)
    (h : touch_ids_distinct d.touch_event.points) :
    touch_ids_distinct (wl_touch_motion d time id x y).touch_event.points := by
  have hg := get_touch_point_distinct d.touch_event id h
  unfold wl_touch_motion
  cases hs : get_touch_point d.touch_event id with
  | mk o t =>
    rw [hs] at hg
    cases o with
    | none => exact hg
    | some i =>
      exact array_update_distinct _ _ _ (fun _ => rfl) (fun _ => rfl)
        (array_update_distinct _ _ _ (fun _ => rfl) (fun _ => rfl) hg)

lemma wl_touch_shape_distinct (d : wlc_display_info) (id major minor : Int)
    (h : touch_ids_distinct d.touch_event.points) :
    touch_ids_distinct (wl_touch_shape d id major minor).touch_event.points := by
  have hg := get_touch_point_distinct d.touch_event id h
  unfold wl_touch_shape
  cases hs : get_touch_point d.touch_event id with
  | mk o t =>
    rw [hs] at hg
    cases o with
    | none => exact hg
    | some i =>
      exact array_update_distinct _ _ _ (fun _ => rfl) (fun _ => rfl)
        (array_update_distinct _ _ _ (fun _ => rfl) (fun _ => rfl) hg)

lemma wl_touch_orientation_distinct (d : wlc_display_info) (id o : Int)
    (h : touch_ids_distinct d.touch_event.points) :
    touch_ids_distinct (wl_touch_orientation d id o).touch_event.points := by
  have hg := get_touch_point_distinct d.touch_event id h
  unfold wl_touch_orientation
  cases hs : get_touch_point d.touch_event id with
  | mk o t =>
    rw [hs] at hg
    cases o with
    | none => exact hg
    | some i =>
      exact array_update_distinct _ _ _ (fun _ => rfl) (fun _ => rfl)
        (array_update_distinct _ _ _ (fun _ => rfl) (fun _ => rfl) hg)

/-- After the frame terminator no slot is valid. -/
lemma wl_touch_frame_distinct (d : wlc_display_info) :
    touch_ids_distinct (wl_touch_frame d).touch_event.points := by
  intro a b p q hp _ _ hpv _
  simp only [wl_touch_frame, List.getElem?_map] at hp
  cases hl : d.touch_event.points[a]? with
  | none => rw [hl] at hp; cases hp
  | some p0 =>
    rw [hl] at hp
    simp only [Option.map_some', Option.some.injEq] at hp
    subst hp
    cases hv : p0.valid <;> simp [hv] at hpv

lemma dispatch_distinct (d : wlc_display_info) (e : touch_sub_event)
    (h : touch_ids_distinct d.touch_event.points) :
    touch_ids_distinct (touch_sub_event.dispatch d e).touch_event.points := by
  cases e with
  | down serial time id x y => exact wl_touch_down_distinct d serial time id x y h
  | up serial time id => exact wl_touch_up_distinct d serial time id h
  | motion time id x y => exact wl_touch_motion_distinct d time id x y h
  | shape id major minor => exact wl_touch_shape_distinct d id major minor h
  | orientation id o => exact wl_touch_orientation_distinct d id o h
  | cancel => exact h
  | frame => exact wl_touch_frame_distinct d

lemma foldl_dispatch_distinct (evs : List touch_sub_event) :
    ∀ d : wlc_display_info, touch_ids_distinct d.touch_event.points →
      touch_ids_distinct (evs.foldl touch_sub_event.dispatch d).touch_event.points := by
  induction evs with
  | nil => intro d h; exact h
  | cons e evs ih =>
    intro d h
    rw [List.foldl_cons]
    exact ih _ (dispatch_distinct d e h)

/-- The zero-initialised table has no valid slot. -/
lemma zero_table_distinct : touch_ids_distinct wlc_touch_event_zero.points := by
  intro a b p q hp _ _ hpv _
  have hmem : p ∈ List.replicate 10 wlc_touch_point_zero := List.getElem?_mem hp
  rw [List.eq_of_mem_replicate hmem] at hpv
  cases hpv

end touch_id_lemmas

/-- C29. Let the touch sub-events and frame terminators `evs` (down, up, motion, shape,
orientation, cancel, frame, in any order and with any arguments) be handled one after
the other by a connection whose touch table is zero-initialised.  In the table reached,
two different slots that are both valid carry different contact identifiers. -/
theorem touch_valid_ids_distinct (evs : List touch_sub_event) (i j : Nat)
    (p q : wlc_touch_point)
    (hp : (evs.foldl touch_sub_event.dispatch wlc_display_info_zero).touch_event.points[i]?
      = some p)
    (hq : (evs.foldl touch_sub_event.dispatch wlc_display_info_zero).touch_event.points[j]?
      = some q)
    (hij : i ≠ j) (hpv : p.valid = true) (hqv : q.valid = true) :
    p.id ≠ q.id :=
  foldl_dispatch_distinct evs wlc_display_info_zero zero_table_distinct i j p q hp hq hij
    hpv hqv

/-- Contacts 5 and 7 touch down, contact 5 moves: slots 0 and 1 are valid, with the
identifiers 5 and 7. -/
theorem touch_valid_ids_distinct_witness :
    (([touch_sub_event.down 1 10 5 0 0, touch_sub_event.down 2 11 7 256 256,
        touch_sub_event.motion 12 5 3 4].foldl touch_sub_event.dispatch
          wlc_display_info_zero).touch_event.points[0]?
        = some { valid := true, id := 5, event_mask := 6, surface_x := 3, surface_y := 4,
                 major := 0, minor := 0, orientation := 0 }
      ∧ ([touch_sub_event.down 1 10 5 0 0, touch_sub_event.down 2 11 7 256 256,
        touch_sub_event.motion 12 5 3 4].foldl touch_sub_event.dispatch
          wlc_display_info_zero).touch_event.points[1]?
        = some { valid := true, id := 7, event_mask := 2, surface_x := 1, surface_y := 1,
                 major := 0, minor := 0, orientation := 0 })
    ∧ (5 : Int) ≠ 7 :=
  ⟨⟨by decide, by decide⟩,
    touch_valid_ids_distinct
      [touch_sub_event.down 1 10 5 0 0, touch_sub_event.down 2 11 7 256 256,
        touch_sub_event.motion 12 5 3 4] 0 1
      { valid := true, id := 5, event_mask := 6, surface_x := 3, surface_y := 4,
        major := 0, minor := 0, orientation := 0 }
      { valid := true, id := 7, event_mask := 2, surface_x := 1, surface_y := 1,
        major := 0, minor := 0, orientation := 0 }
      (by decide) (by decide) (by decide) rfl rfl⟩

end Wlemacs
